import Mathlib

/-!
Verification of the maestro pane/tab identity reconciliation engine.

The definitions below are a shallow embedding of the Rust sources:
`src/handlers/session.rs` (event handlers), `src/handlers/panes.rs`
(spawn coordination), `src/model.rs` (model state and selection clamping),
`src/utils.rs` (string helpers and agent matching) and `src/agent.rs`
(data model).  String operations are modelled on character lists so that
every definition is executable by the kernel; they agree with the Rust
ASCII semantics on the inputs exercised here.
-/

namespace Maestro

/-- ASCII lowercase of a character (Rust ASCII-range lowering). -/
def asciiLower (c : Char) : Char :=
  if 'A' ≤ c ∧ c ≤ 'Z' then Char.ofNat (c.toNat + 32) else c

/-- Lowercase a string character-wise (Rust to_lowercase on the ASCII range). -/
def lowerStr (s : String) : String := String.mk (s.data.map asciiLower)

/-- Case-insensitive ASCII string equality (Rust eq_ignore_ascii_case). -/
def eqIgnoreAsciiCase (a b : String) : Bool :=
  a.data.map asciiLower == b.data.map asciiLower

/-- Substring containment on character lists (Rust String::contains). -/
def containsSub (pat : List Char) : List Char → Bool
  | [] => pat.isEmpty
  | c :: rest => pat.isPrefixOf (c :: rest) || containsSub pat rest

/-- Substring containment (Rust String::contains). -/
def strContains (s pat : String) : Bool := containsSub pat.data s.data

/-- Characters before the first occurrence of the separator
(Rust split(sep).next().unwrap_or(whole)). -/
def beforeSep (sep : List Char) : List Char → List Char
  | [] => []
  | c :: rest => if sep.isPrefixOf (c :: rest) then [] else c :: beforeSep sep rest

/-- Strip leading and trailing whitespace (Rust str::trim). -/
def strTrim (s : String) : String :=
  String.mk (((s.data.dropWhile Char.isWhitespace).reverse.dropWhile
    Char.isWhitespace).reverse)

/-- String prefix test (Rust str::starts_with). -/
def strStarts (s p : String) : Bool := p.data.isPrefixOf s.data

/-- Drop the first n characters of a string. -/
def strDrop (s : String) (n : Nat) : String := String.mk (s.data.drop n)

/-- utils.rs workspace_basename: the text after the last slash. -/
def workspace_basename (path : String) : String :=
  String.mk ((path.data.reverse.takeWhile (fun c => c != '/')).reverse)

/-- utils.rs default_tab_name. -/
def default_tab_name (workspace_path : String) : String :=
  let basename := workspace_basename workspace_path
  if basename.isEmpty then "maestro:workspace" else "maestro:" ++ basename

/-- utils.rs resolve_workspace_path. -/
def resolve_workspace_path (path : String) : Option String :=
  let trimmed := strTrim path
  if trimmed.isEmpty then none
  else if strStarts trimmed "/host/" then
    let relative := strDrop trimmed 6
    if relative.isEmpty then none else some relative
  else if trimmed == "/host" then none
  else some trimmed

/-- A named agent launch definition (utils.rs Agent: display name plus argv). -/
structure Agent where
  name : String
  command : List String
  deriving DecidableEq, Repr

/-- utils.rs find_agent_by_command: match a pane title against the first
command word or the display name of each agent, ASCII-case-insensitively. -/
def find_agent_by_command (agents : List Agent) (pane_title : String) : Option Agent :=
  let title_base := strTrim (String.mk (beforeSep " - ".data pane_title.data))
  agents.find? fun agent =>
    match agent.command with
    | [] => false
    | first_cmd :: _ =>
      eqIgnoreAsciiCase first_cmd title_base || eqIgnoreAsciiCase title_base agent.name

/-- agent.rs PaneStatus. -/
inductive PaneStatus where
  | Running : PaneStatus
  | Exited : Option Int → PaneStatus
  deriving DecidableEq, Repr

/-- agent.rs AgentPane: one record per logical agent session. -/
structure AgentPane where
  pane_title : String
  tab_name : String
  pending_tab_index : Option Nat
  pane_id : Option Nat
  workspace_path : String
  agent_name : String
  status : PaneStatus
  deriving DecidableEq, Repr

/-- The fields of a host TabInfo that the engine reads. -/
structure TabInfo where
  position : Nat
  name : String
  deriving DecidableEq, Repr

/-- The fields of a host reported pane that the engine reads. -/
structure PaneInfo where
  id : Nat
  title : String
  exited : Bool
  exit_status : Option Int
  is_plugin : Bool
  terminal_command : Option String
  deriving DecidableEq, Repr

/-- A pane manifest: per-tab-index lists of reported panes. -/
abbrev PaneManifest := List (Nat × List PaneInfo)

/-- The fields of a host SessionInfo that the engine reads. -/
structure SessionInfo where
  name : String
  tabs : List TabInfo
  panes : PaneManifest
  is_current_session : Bool
  deriving DecidableEq, Repr

/-- zellij PaneId as matched by handle_pane_closed. -/
inductive PaneId where
  | Terminal : Nat → PaneId
  | Plugin : Nat → PaneId
  deriving DecidableEq, Repr

/-- The context map echoed on command-pane events (BTreeMap<String,String>). -/
abbrev Ctx := List (String × String)

/-- Key lookup in a context map. -/
def ctxGet (ctx : Ctx) (k : String) : Option String :=
  (ctx.find? (fun e => e.1 == k)).map (·.2)

/-- model.rs Model, restricted to the state the reconciliation engine and the
spawn coordinator read or write. -/
structure Model where
  permissions_granted : Bool := false
  permissions_denied : Bool := false
  agents : List Agent := []
  agent_panes : List AgentPane := []
  tab_names : List String := []
  error_message : String := ""
  filter_text : String := ""
  session_name : Option String := none
  selected_pane : Nat := 0
  selected_agent : Nat := 0
  custom_tab_name : Option String := none
  wizard_agent_filter : String := ""
  deriving DecidableEq, Repr

/-- The number of panes visible under the active filter
(the pane_len computation of model.rs clamp_selections). -/
def visiblePaneCount (m : Model) : Nat :=
  let filter_lower := lowerStr m.filter_text
  if filter_lower.isEmpty then m.agent_panes.length
  else (m.agent_panes.filter fun p =>
    strContains (lowerStr p.agent_name) filter_lower ||
      strContains (lowerStr p.tab_name) filter_lower).length

/-- model.rs Model::clamp_selections.  The source clamps the pane selection and
then the agent selection; the two steps read and write disjoint state, so they
are rendered as two independent field updates. -/
def clamp_selections (m : Model) : Model :=
  let pane_len := visiblePaneCount m
  let sp :=
    if pane_len == 0 then 0
    else if pane_len ≤ m.selected_pane then pane_len - 1
    else m.selected_pane
  let agent_len := m.agents.length
  let sa :=
    if agent_len == 0 then 0
    else if agent_len ≤ m.selected_agent then agent_len - 1
    else m.selected_agent
  { m with selected_pane := sp, selected_agent := sa }

/-- Stable insertion of a tab before the first strictly greater position. -/
def insertByPos (t : TabInfo) : List TabInfo → List TabInfo
  | [] => [t]
  | u :: us => if t.position ≤ u.position then t :: u :: us else u :: insertByPos t us

/-- Stable sort of tabs by position (Vec::sort_by_key in apply_tab_update). -/
def sortByPos : List TabInfo → List TabInfo
  | [] => []
  | t :: ts => insertByPos t (sortByPos ts)

/-- The ordered roster of tab names extracted from a tab update. -/
def rosterNames (tabs : List TabInfo) : List String := (sortByPos tabs).map (·.name)

/-- The pending-tab-index resolution step of apply_tab_update (per record). -/
def resolveTab (tab_names : List String) (pane : AgentPane) : AgentPane :=
  match pane.pending_tab_index with
  | some idx =>
    match tab_names.get? idx with
    | some name =>
      if pane.tab_name.isEmpty || !(tab_names.contains pane.tab_name) then
        { pane with tab_name := name }
      else pane
    | none => pane
  | none => pane

/-- The retain predicate of apply_tab_update. -/
def keepPane (tab_names : List String) (p : AgentPane) : Bool :=
  p.pane_id.isSome || tab_names.contains p.tab_name || p.pending_tab_index.isSome

/-- handlers/session.rs apply_tab_update. -/
def apply_tab_update (m : Model) (tabs : List TabInfo) : Model :=
  let tab_names := rosterNames tabs
  let panes := (m.agent_panes.map (resolveTab tab_names)).filter (keepPane tab_names)
  clamp_selections { m with agent_panes := panes, tab_names := tab_names }

/-- The status derived from a reported pane's exited flag. -/
def statusOf (exited : Bool) (exit_status : Option Int) : PaneStatus :=
  if exited then PaneStatus.Exited exit_status else PaneStatus.Running

/-- Update the first record satisfying the predicate
(the iter_mut().find() mutation pattern); none when no record matches. -/
def updateFirst (p : AgentPane → Bool) (f : AgentPane → AgentPane) :
    List AgentPane → Option (List AgentPane)
  | [] => none
  | r :: rest => if p r then some (f r :: rest) else (updateFirst p f rest).map (r :: ·)

/-- The identity-match predicate: a record carrying the reported pane id. -/
def identityPred (i : Nat) (p : AgentPane) : Bool := p.pane_id == some i

/-- Set a record's status. -/
def setStatusFn (st : PaneStatus) (p : AgentPane) : AgentPane := { p with status := st }

/-- The match predicate of handle_command_pane_opened: identity match, or a
pending record carrying the reserved title. -/
def openedPred (i : Nat) (title : String) (p : AgentPane) : Bool :=
  p.pane_id == some i || (p.pane_id == none && p.pane_title == title)

/-- The match predicate of handle_command_pane_exited / rerun: identity match
or title match. -/
def titlePred (i : Nat) (title : String) (p : AgentPane) : Bool :=
  p.pane_id == some i || p.pane_title == title

/-- The record created by apply_pane_update for a newly discovered pane. -/
def freshPaneRec (tab_names : List String) (tab_idx : Nat) (pane : PaneInfo)
    (agent : Agent) : AgentPane :=
  let tab_name_from_idx := (tab_names.get? tab_idx).getD ""
  { pane_title := pane.title, tab_name := tab_name_from_idx,
    pending_tab_index := if tab_name_from_idx.isEmpty then some tab_idx else none,
    pane_id := some pane.id, workspace_path := "",
    agent_name := agent.name,
    status := statusOf pane.exited pane.exit_status }

/-- The per-reported-pane step of apply_pane_update. -/
def paneStep (agents : List Agent) (tab_names : List String)
    (s : List AgentPane) (tab_idx : Nat) (pane : PaneInfo) : List AgentPane :=
  match updateFirst (identityPred pane.id)
      (setStatusFn (statusOf pane.exited pane.exit_status)) s with
  | some s' => s'
  | none =>
    let title := pane.title
    let command_hint := pane.terminal_command.getD title
    if !pane.is_plugin then
      match find_agent_by_command agents command_hint with
      | some agent => s ++ [freshPaneRec tab_names tab_idx pane agent]
      | none => s
    else s

/-- handlers/session.rs apply_pane_update. -/
def apply_pane_update (m : Model) (update : PaneManifest) : Model :=
  let panes := update.foldl
    (fun s entry => entry.2.foldl (fun s2 pane => paneStep m.agents m.tab_names s2 entry.1 pane) s)
    m.agent_panes
  clamp_selections { m with agent_panes := panes }

/-- The record mutation applied to a matched record in handle_command_pane_opened. -/
def openedUpdate (pane_id : Nat) (title workspace_path agent_name : String)
    (ctx_tab_name first_tab : Option String) (existing : AgentPane) : AgentPane :=
  let e1 := { existing with pane_id := some pane_id, pane_title := title }
  let e2 :=
    if e1.tab_name.isEmpty then
      match ctx_tab_name with
      | some tab_name => { e1 with tab_name := tab_name, pending_tab_index := none }
      | none =>
        match first_tab with
        | some ft => { e1 with tab_name := ft, pending_tab_index := none }
        | none => e1
    else e1
  let e3 := if !workspace_path.isEmpty then { e2 with workspace_path := workspace_path } else e2
  let e4 := if !agent_name.isEmpty then { e3 with agent_name := agent_name } else e3
  { e4 with status := PaneStatus.Running }

/-- handlers/session.rs handle_command_pane_opened. -/
def handle_command_pane_opened (m : Model) (pane_id : Nat) (ctx : Ctx) : Model :=
  let title := (ctxGet ctx "pane_title").getD ("pane:" ++ toString pane_id)
  let workspace_path := (ctxGet ctx "cwd").getD ""
  let agent_name := (ctxGet ctx "agent").getD ""
  let first_tab := m.tab_names.head?
  let ctx_tab_name := ctxGet ctx "tab_name"
  let panes :=
    match updateFirst (openedPred pane_id title)
        (openedUpdate pane_id title workspace_path agent_name ctx_tab_name first_tab)
        m.agent_panes with
    | some panes => panes
    | none =>
      let newRec : AgentPane :=
        { pane_title := title,
          tab_name := (ctx_tab_name.orElse (fun _ => first_tab)).getD "",
          pending_tab_index := none, pane_id := some pane_id,
          workspace_path := workspace_path, agent_name := agent_name,
          status := PaneStatus.Running }
      m.agent_panes ++ [newRec]
  clamp_selections { m with agent_panes := panes }

/-- handlers/session.rs handle_command_pane_exited. -/
def handle_command_pane_exited (m : Model) (pane_id : Nat) (exit_status : Option Int)
    (ctx : Ctx) : Model :=
  let title := (ctxGet ctx "pane_title").getD ("pane:" ++ toString pane_id)
  let panes :=
    match updateFirst (titlePred pane_id title)
        (setStatusFn (PaneStatus.Exited exit_status)) m.agent_panes with
    | some panes => panes
    | none => m.agent_panes
  clamp_selections { m with agent_panes := panes }

/-- handlers/session.rs handle_command_pane_rerun. -/
def handle_command_pane_rerun (m : Model) (pane_id : Nat) (ctx : Ctx) : Model :=
  let title := (ctxGet ctx "pane_title").getD ("pane:" ++ toString pane_id)
  let panes :=
    match updateFirst (titlePred pane_id title)
        (setStatusFn PaneStatus.Running) m.agent_panes with
    | some panes => panes
    | none => m.agent_panes
  clamp_selections { m with agent_panes := panes }

/-- handlers/session.rs handle_pane_closed. -/
def handle_pane_closed (m : Model) (pane_id : PaneId) : Model :=
  let pid :=
    match pane_id with
    | PaneId.Terminal id => id
    | PaneId.Plugin id => id
  clamp_selections
    { m with agent_panes := m.agent_panes.filter (fun p => p.pane_id != some pid) }

/-- Tab-position-to-name lookup built from session tabs (a BTreeMap in the
source, so a later tab with the same position overwrites an earlier one). -/
def tabLookup (tabs : List TabInfo) (idx : Nat) : Option String :=
  tabs.foldl (fun acc t => if t.position == idx then some t.name else acc) none

/-- Indices of records that are pending (no pane id) and belong to the given
tab: the unmatched_in_tab collection of rebuild_from_session_infos, in
ascending order (the source pops from the back). -/
def collectUnmatched (panes : List AgentPane) (tab_name : String) : List Nat :=
  (List.range panes.length).filter fun q =>
    match panes.get? q with
    | some p => p.pane_id == none && p.tab_name == tab_name
    | none => false

/-- In-place adoption of a reported pane by the pending record at an index. -/
def adoptAt (i : Nat) (st : PaneStatus) : Nat → List AgentPane → List AgentPane
  | _, [] => []
  | 0, r :: rest => { r with pane_id := some i, status := st } :: rest
  | Nat.succ q, r :: rest => r :: adoptAt i st q rest

/-- The record created by rebuild_from_session_infos for a newly discovered
pane; the tab name comes from the session's own tab lookup. -/
def freshRebuildRec (tab_name_from_idx : String) (tab_idx : Nat) (pane : PaneInfo)
    (agent : Agent) : AgentPane :=
  { pane_title := pane.title, tab_name := tab_name_from_idx,
    pending_tab_index := if tab_name_from_idx.isEmpty then some tab_idx else none,
    pane_id := some pane.id, workspace_path := "",
    agent_name := agent.name,
    status := statusOf pane.exited pane.exit_status }

/-- One reported pane of a rehydration snapshot
(the inner loop of rebuild_from_session_infos). -/
def rebuildStep (agents : List Agent) (tab_name_from_idx : String) (tab_idx : Nat)
    (acc : List AgentPane × List Nat) (pane : PaneInfo) : List AgentPane × List Nat :=
  let s := acc.1
  let unmatched := acc.2
  match updateFirst (identityPred pane.id)
      (setStatusFn (statusOf pane.exited pane.exit_status)) s with
  | some s' => (s', unmatched)
  | none =>
    match unmatched.getLast? with
    | some unmatched_idx =>
      (adoptAt pane.id (statusOf pane.exited pane.exit_status) unmatched_idx s,
        unmatched.dropLast)
    | none =>
      if !pane.is_plugin then
        match find_agent_by_command agents (pane.terminal_command.getD pane.title) with
        | some agent =>
          (s ++ [freshRebuildRec tab_name_from_idx tab_idx pane agent], unmatched)
        | none => (s, unmatched)
      else (s, unmatched)

/-- Process one tab entry of a rehydration snapshot. -/
def rebuildTab (agents : List Agent) (tabs : List TabInfo)
    (s : List AgentPane) (entry : Nat × List PaneInfo) : List AgentPane :=
  let tab_name_from_idx := (tabLookup tabs entry.1).getD ""
  let unmatched := if !tab_name_from_idx.isEmpty then collectUnmatched s tab_name_from_idx else []
  (entry.2.foldl (rebuildStep agents tab_name_from_idx entry.1) (s, unmatched)).1

/-- Process one session of a rehydration snapshot (outer loop body of
rebuild_from_session_infos, including the session-name pinning). -/
def rebuildSession (agents : List Agent) (acc : Option String × List AgentPane)
    (session : SessionInfo) : Option String × List AgentPane :=
  match acc.1 with
  | some current =>
    if session.name == current then
      (acc.1, session.panes.foldl (rebuildTab agents session.tabs) acc.2)
    else acc
  | none =>
    (some session.name, session.panes.foldl (rebuildTab agents session.tabs) acc.2)

/-- handlers/session.rs rebuild_from_session_infos. -/
def rebuild_from_session_infos (m : Model) (sessions : List SessionInfo) : Model :=
  let res := sessions.foldl (rebuildSession m.agents) (m.session_name, m.agent_panes)
  clamp_selections { m with session_name := res.1, agent_panes := res.2 }

/-- handlers/session.rs handle_session_update. -/
def handle_session_update (m : Model) (sessions : List SessionInfo) : Model :=
  let current_session_name := (sessions.find? (·.is_current_session)).map (·.name)
  let m1 :=
    match current_session_name with
    | some new_session_name =>
      match m.session_name with
      | some old =>
        if old != new_session_name then
          { m with agent_panes := [], session_name := some new_session_name }
        else { m with session_name := some new_session_name }
      | none => { m with session_name := some new_session_name }
    | none => m
  let m2 :=
    match m1.session_name with
    | some session_name =>
      match sessions.find? (fun s => s.name == session_name) with
      | some session => { m1 with tab_names := rosterNames session.tabs }
      | none => m1
    | none => m1
  rebuild_from_session_infos m2 sessions

/-- The host events consumed by the reconciliation engine. -/
inductive Event where
  | tabUpdate : List TabInfo → Event
  | paneUpdate : PaneManifest → Event
  | paneOpened : Nat → Ctx → Event
  | paneExited : Nat → Option Int → Ctx → Event
  | paneRerun : Nat → Ctx → Event
  | paneClosed : PaneId → Event
  | sessionUpdate : List SessionInfo → Event
  deriving DecidableEq, Repr

/-- Dispatch one host event to its handler. -/
def applyEvent (m : Model) : Event → Model
  | Event.tabUpdate tabs => apply_tab_update m tabs
  | Event.paneUpdate u => apply_pane_update m u
  | Event.paneOpened id ctx => handle_command_pane_opened m id ctx
  | Event.paneExited id es ctx => handle_command_pane_exited m id es ctx
  | Event.paneRerun id ctx => handle_command_pane_rerun m id ctx
  | Event.paneClosed pid => handle_pane_closed m pid
  | Event.sessionUpdate ss => handle_session_update m ss

/-- Apply a sequence of host events in order. -/
def applyEvents (m : Model) (es : List Event) : Model := es.foldl applyEvent m

/-- Launch argv for an agent.  The argv assembly itself is an external
concern (spec section 6 launch_command) and does not affect tracked state. -/
def build_command (a : Agent) : List String := a.command

/-- handlers/panes.rs TabChoice. -/
inductive TabChoice where
  | Existing : String → TabChoice
  | New : TabChoice
  deriving DecidableEq, Repr

/-- handlers/panes.rs spawn_agent_pane.  The random UUID disambiguator is a
parameter; host calls (new_tab / go_to_tab_name / open_command_pane) matter
only through their effect on the model. -/
def spawn_agent_pane (m : Model) (workspace_path agent_name : String)
    (tab_choice : TabChoice) (uuid : String) : Model :=
  if !m.permissions_granted then
    { m with error_message := "Permissions not granted" }
  else
    match m.agents.find? (fun a => a.name == agent_name) with
    | none => { m with error_message := "Agent not found: " ++ agent_name }
    | some a =>
      let _cmd := build_command a
      let workspace_label := workspace_basename workspace_path
      let title_label := if workspace_label.isEmpty then agent_name else workspace_label
      let title := title_label ++ ":" ++ uuid
      let tab_name :=
        match tab_choice with
        | TabChoice.Existing name => name
        | TabChoice.New =>
          (Option.filter (fun s => !(strTrim s).isEmpty) m.custom_tab_name).getD
            (default_tab_name workspace_path)
      let step :=
        match tab_choice with
        | TabChoice.Existing name => (m, name)
        | TabChoice.New =>
          (if m.tab_names.contains tab_name then m
           else { m with tab_names := m.tab_names ++ [tab_name] }, tab_name)
      let m1 := step.1
      let tab_target := step.2
      let newRec : AgentPane :=
        { pane_title := title, tab_name := tab_target,
          pending_tab_index := none, pane_id := none, workspace_path := workspace_path,
          agent_name := agent_name, status := PaneStatus.Running }
      { m1 with
        agent_panes := m1.agent_panes ++ [newRec],
        error_message := "",
        custom_tab_name := none,
        wizard_agent_filter := "" }

/-- The selection-bounds invariant established by model.rs clamp_selections. -/
def selectionInvariant (m : Model) : Prop :=
  (visiblePaneCount m = 0 → m.selected_pane = 0) ∧
  (0 < visiblePaneCount m → m.selected_pane < visiblePaneCount m) ∧
  (m.agents.length = 0 → m.selected_agent = 0) ∧
  (0 < m.agents.length → m.selected_agent < m.agents.length)

/-- Some record in the table carries the given host pane id with the given status. -/
def hasIdStatus (panes : List AgentPane) (j : Nat) (st : PaneStatus) : Prop :=
  ∃ r ∈ panes, r.pane_id = some j ∧ r.status = st

instance (panes : List AgentPane) (j : Nat) (st : PaneStatus) :
    Decidable (hasIdStatus panes j st) := by
  unfold hasIdStatus
  infer_instance

/-- Concrete agent for the concrete scenarios and witnesses below. -/
def wClaude : Agent := { name := "claude", command := ["claude"] }

/-- A pending record whose reserved title has not been mutated by the host. -/
def wRecPending : AgentPane :=
  { pane_title := "w:abc", tab_name := "tt", pending_tab_index := none, pane_id := none,
    workspace_path := "/w", agent_name := "claude", status := PaneStatus.Running }

/-- A store holding only the pending record, with the claude agent known. -/
def wModelPending : Model :=
  { agent_panes := [wRecPending], agents := [wClaude], tab_names := ["tt"] }

/-- Reported pane 7 carrying the pending record's reserved title. -/
def wPane7 : PaneInfo :=
  { id := 7, title := "w:abc", exited := false, exit_status := none,
    is_plugin := false, terminal_command := none }

/-- Reported pane 5 that has exited and is recognized as agent claude. -/
def wPane5 : PaneInfo :=
  { id := 5, title := "claude", exited := true, exit_status := some 0,
    is_plugin := false, terminal_command := none }

/-- A model that knows the claude agent and has an empty pane table. -/
def wModelAgents : Model := { agents := [wClaude] }

/-- Reported pane 5, still running, recognized as agent claude. -/
def wPane5Run : PaneInfo :=
  { id := 5, title := "claude", exited := false, exit_status := none,
    is_plugin := false, terminal_command := none }

/-- A spawn-confirmation context naming only a pane title. -/
def wCtx5 : Ctx := [("pane_title", "x")]

/-- A record whose pending tab index awaits resolution. -/
def wRecPendingIdx : AgentPane :=
  { pane_title := "t", tab_name := "", pending_tab_index := some 0, pane_id := some 1,
    workspace_path := "", agent_name := "a", status := PaneStatus.Running }

/-- A store holding only the record with a pending tab index. -/
def wModelPendingIdx : Model := { agent_panes := [wRecPendingIdx] }

/-- A one-tab roster named a. -/
def wTabsA : List TabInfo := [{ position := 0, name := "a" }]

/-- A rehydration snapshot that marks no current session. -/
def wSessionsNoCurrent : List SessionInfo :=
  [{ name := "A", tabs := [{ position := 0, name := "t" }], panes := [],
     is_current_session := false }]

/-- A rehydration snapshot that marks a current session. -/
def wSessionsCurrent : List SessionInfo :=
  [{ name := "A", tabs := [{ position := 0, name := "t" }], panes := [],
     is_current_session := true }]

/-- A model with permissions granted and the claude agent known. -/
def wModelSpawn : Model := { permissions_granted := true, agents := [wClaude] }

/-- A spawn-confirmation context carrying the pending record's reserved title. -/
def wCtx7 : Ctx := [("pane_title", "w:abc")]

/-- Every record of the first table persists at its position in the second,
changed at most in its status field. -/
def statusRefines (s t : List AgentPane) : Prop :=
  ∀ q r, s.get? q = some r → ∃ st, t.get? q = some { r with status := st }

/-- Every record of the first table persists at its position in the second
with the same tab name. -/
def tabRefines (s t : List AgentPane) : Prop :=
  ∀ q r, s.get? q = some r → ∃ r', t.get? q = some r' ∧ r'.tab_name = r.tab_name

/-- The host pane ids of the records, in table order. -/
def idsOf (panes : List AgentPane) : List (Option Nat) :=
  panes.map (fun r => r.pane_id)

/-- The store shape maintained by the engine event handlers from an empty
table: every record carries a host pane id, and no two records carry the
same id. -/
def storeInv (panes : List AgentPane) : Prop :=
  (∀ i ∈ idsOf panes, i.isSome = true) ∧ (idsOf panes).Nodup

/-!
## Positional machinery for the reconciliation folds
-/

/-- Index of the first occurrence of the given id in an id column. -/
def firstIdx (i : Nat) : List (Option Nat) → Option Nat
  | [] => none
  | x :: xs => if x == some i then some 0 else (firstIdx i xs).map (· + 1)

/-- Overwrite the status of the record at a position (no-op out of range). -/
def setStatusAt (st : PaneStatus) : Nat → List AgentPane → List AgentPane
  | _, [] => []
  | 0, r :: rest => setStatusFn st r :: rest
  | Nat.succ q, r :: rest => r :: setStatusAt st q rest

/-- The status derived from one reported pane. -/
def paneStatusOf (p : PaneInfo) : PaneStatus := statusOf p.exited p.exit_status

/-- The status write carried by one reported pane: its id and derived status. -/
abbrev Write := Nat × PaneStatus

/-- The last status written to a position, interpreting each write against a
fixed id column: a write lands on the first position carrying its id. -/
def lastW (I : List (Option Nat)) (q : Nat) : List Write → Option PaneStatus
  | [] => none
  | e :: v =>
    match lastW I q v with
    | some st => some st
    | none => if firstIdx e.1 I == some q then some e.2 else none

/-- Apply an optional status overwrite to an optional record. -/
def applyLastW (w : Option PaneStatus) (o : Option AgentPane) : Option AgentPane :=
  match w with
  | some st => o.map (setStatusFn st)
  | none => o

/-- The identity-bearing shape of a table: the id and tab-name columns. -/
def shapeOf (panes : List AgentPane) : List (Option Nat × String) :=
  panes.map (fun r => (r.pane_id, r.tab_name))

/-- One store transition of a reconciliation fold, as seen from a write
(id, status): a status write to the first record carrying the id, a fresh
record appended for an absent id, the in-place adoption of a pending record
by an absent id, or no change while the id is absent. -/
inductive StepShape (i : Nat) (st : PaneStatus) : List AgentPane → List AgentPane → Prop
  | write (s : List AgentPane) (q : Nat) (h : firstIdx i (idsOf s) = some q) :
      StepShape i st s (setStatusAt st q s)
  | grow (s : List AgentPane) (r : AgentPane) (h : firstIdx i (idsOf s) = none)
      (hid : r.pane_id = some i) (hst : r.status = st) : StepShape i st s (s ++ [r])
  | adopt (s : List AgentPane) (u : Nat) (r : AgentPane)
      (h : firstIdx i (idsOf s) = none) (hu : s.get? u = some r)
      (hr : r.pane_id = none) :
      StepShape i st s (s.set u { r with pane_id := some i, status := st })
  | skip (s : List AgentPane) (h : firstIdx i (idsOf s) = none) : StepShape i st s s

/-- A reconciliation fold trace: successive store transitions of a write
sequence. -/
inductive FoldShape : List Write → List AgentPane → List AgentPane → Prop
  | nil (s : List AgentPane) : FoldShape [] s s
  | cons (e : Write) (v : List Write) (s t u : List AgentPane)
      (h1 : StepShape e.1 e.2 s t) (h2 : FoldShape v t u) : FoldShape (e :: v) s u

/-- Whether a reported pane can create a fresh record in the no-match branch. -/
def canCreate (agents : List Agent) (pane : PaneInfo) : Bool :=
  !pane.is_plugin &&
    (find_agent_by_command agents (pane.terminal_command.getD pane.title)).isSome

/-- The record created by the no-match branch of apply_pane_update, when any. -/
def mkNew (agents : List Agent) (tab_names : List String) (tab_idx : Nat)
    (pane : PaneInfo) : Option AgentPane :=
  if !pane.is_plugin then
    (find_agent_by_command agents (pane.terminal_command.getD pane.title)).map
      (freshPaneRec tab_names tab_idx pane)
  else none

/-- A pane manifest flattened to (tab index, reported pane) pairs in
traversal order. -/
def flattenManifest : PaneManifest → List (Nat × PaneInfo)
  | [] => []
  | e :: rest => e.2.map (fun p => (e.1, p)) ++ flattenManifest rest

/-- The pane-manifest fold of apply_pane_update over flattened pairs. -/
def paneFold (agents : List Agent) (tab_names : List String)
    (s : List AgentPane) (v : List (Nat × PaneInfo)) : List AgentPane :=
  v.foldl (fun s2 e => paneStep agents tab_names s2 e.1 e.2) s

/-- The write sequence of a flattened manifest. -/
def writesOf (v : List (Nat × PaneInfo)) : List Write :=
  v.map (fun e => (e.2.id, paneStatusOf e.2))

/-- The last status reported for a pane id in a flattened manifest. -/
def lastStatus (j : Nat) : List (Nat × PaneInfo) → Option PaneStatus
  | [] => none
  | e :: v =>
    match lastStatus j v with
    | some st => some st
    | none => if e.2.id == j then some (paneStatusOf e.2) else none

/-!
## Flattened form of the rehydration pass
-/

/-- One flattened rehydration entry: resolved tab name, tab index, reported
panes (the per-tab loop body data of rebuild_from_session_infos). -/
abbrev RebuildEntry := String × Nat × List PaneInfo

/-- The record created by the no-match branch of the rehydration pass. -/
def mkNewR (agents : List Agent) (tnfi : String) (ti : Nat)
    (pane : PaneInfo) : Option AgentPane :=
  if !pane.is_plugin then
    (find_agent_by_command agents (pane.terminal_command.getD pane.title)).map
      (freshRebuildRec tnfi ti pane)
  else none

/-- The per-entry store transition of the rehydration pass. -/
def rebuildEntry (agents : List Agent) (s : List AgentPane) (e : RebuildEntry) :
    List AgentPane :=
  let unmatched := if !e.1.isEmpty then collectUnmatched s e.1 else []
  (e.2.2.foldl (rebuildStep agents e.1 e.2.1) (s, unmatched)).1

/-- The rehydration fold over flattened entries. -/
def rebuildFold (agents : List Agent) (s : List AgentPane)
    (E : List RebuildEntry) : List AgentPane :=
  E.foldl (rebuildEntry agents) s

/-- The flattened entries of one session. -/
def entriesOf (session : SessionInfo) : List RebuildEntry :=
  session.panes.map (fun e => ((tabLookup session.tabs e.1).getD "", e.1, e.2))

/-- The entries processed by the session fold, honouring the pinning rule. -/
def flattenSessions : Option String → List SessionInfo → List RebuildEntry
  | _, [] => []
  | none, s1 :: rest => entriesOf s1 ++ flattenSessions (some s1.name) rest
  | some c, s1 :: rest =>
    (if s1.name == c then entriesOf s1 else []) ++ flattenSessions (some c) rest

/-- The session name pinned by the session fold. -/
def pinnedName : Option String → List SessionInfo → Option String
  | acc, [] => acc
  | none, s1 :: rest => pinnedName (some s1.name) rest
  | some c, _ :: rest => pinnedName (some c) rest

/-- The write sequence of one rehydration entry. -/
def entryWrites (e : RebuildEntry) : List Write :=
  e.2.2.map (fun p => (p.id, paneStatusOf p))

/-- The write sequence of an entry list. -/
def entriesWrites : List RebuildEntry → List Write
  | [] => []
  | e :: E => entryWrites e ++ entriesWrites E

/-- The pane-table transition shared by the exited / rerun handlers: update
the first matching record, otherwise leave the table unchanged. -/
def updOr (pred : AgentPane → Bool) (f : AgentPane → AgentPane)
    (l : List AgentPane) : List AgentPane :=
  match updateFirst pred f l with
  | some panes => panes
  | none => l

/-- The tab name left by the spawn-confirmation refresh step. -/
def openedTab (ctx_tab_name first_tab : Option String) (x : String) : String :=
  if x.isEmpty then
    match ctx_tab_name with
    | some tab_name => tab_name
    | none =>
      match first_tab with
      | some ft => ft
      | none => x
  else x

/-- The pending tab index left by the spawn-confirmation refresh step. -/
def openedPending (ctx_tab_name first_tab : Option String) (x : String)
    (p : Option Nat) : Option Nat :=
  if x.isEmpty then
    match ctx_tab_name with
    | some _ => none
    | none =>
      match first_tab with
      | some _ => none
      | none => p
  else p

/-- The fresh record appended by handle_command_pane_opened on no match. -/
def openedNewRec (pane_id : Nat) (title workspace_path agent_name : String)
    (ctx_tab_name first_tab : Option String) : AgentPane :=
  { pane_title := title,
    tab_name := (ctx_tab_name.orElse (fun _ => first_tab)).getD "",
    pending_tab_index := none, pane_id := some pane_id,
    workspace_path := workspace_path, agent_name := agent_name,
    status := PaneStatus.Running }

/-- The pane-table transition of handle_command_pane_opened. -/
def openedPanes (pane_id : Nat) (title workspace_path agent_name : String)
    (ctx_tab_name first_tab : Option String) (l : List AgentPane) : List AgentPane :=
  match updateFirst (openedPred pane_id title)
      (openedUpdate pane_id title workspace_path agent_name ctx_tab_name first_tab) l with
  | some panes => panes
  | none =>
    l ++ [openedNewRec pane_id title workspace_path agent_name ctx_tab_name first_tab]

/-- The current-session synchronisation step of handle_session_update. -/
def sessSync1 (m : Model) (sessions : List SessionInfo) : Model :=
  match (sessions.find? (·.is_current_session)).map (·.name) with
  | some new_session_name =>
    match m.session_name with
    | some old =>
      if old != new_session_name then
        { m with agent_panes := [], session_name := some new_session_name }
      else { m with session_name := some new_session_name }
    | none => { m with session_name := some new_session_name }
  | none => m

/-- The tab-roster synchronisation step of handle_session_update. -/
def sessSync (m : Model) (sessions : List SessionInfo) : Model :=
  let m1 := sessSync1 m sessions
  match m1.session_name with
  | some session_name =>
    match sessions.find? (fun s => s.name == session_name) with
    | some session => { m1 with tab_names := rosterNames session.tabs }
    | none => m1
  | none => m1

/-- The replay condition of the session-snapshot handler: a session name is
already pinned or the snapshot marks a current session. -/
def sessionReplaySafe (m : Model) : Event → Prop
  | Event.sessionUpdate ss =>
    m.session_name.isSome = true ∨ ss.any (·.is_current_session) = true
  | _ => True

instance (m : Model) (e : Event) : Decidable (sessionReplaySafe m e) := by
  unfold sessionReplaySafe
  cases e <;> infer_instance

/-- Whether some reported pane with the given id can create a record during
the manifest fold. -/
def anyCreates (agents : List Agent) (j : Nat) (v : List (Nat × PaneInfo)) : Bool :=
  v.any (fun e => e.2.id == j && canCreate agents e.2)

/-- The statuses carried by a pane id after the manifest fold, relative to
the starting store: an existing record keeps its position and takes the last
reported status for its id (or keeps its own status), while an absent id is
represented exactly when some reported pane with that id can create a
record, with the last reported status. -/
def foldSpec (agents : List Agent) (s : List AgentPane) (v : List (Nat × PaneInfo))
    (j : Nat) (st : PaneStatus) : Prop :=
  (∃ q r, firstIdx j (idsOf s) = some q ∧ s.get? q = some r ∧
    st = (lastStatus j v).getD r.status) ∨
  (firstIdx j (idsOf s) = none ∧ anyCreates agents j v = true ∧
    lastStatus j v = some st)

/-!
## General lemmas about the embedded operations
-/

theorem clamp_selections_agent_panes (m : Model) :
    (clamp_selections m).agent_panes = m.agent_panes := rfl

theorem clamp_selections_tab_names (m : Model) :
    (clamp_selections m).tab_names = m.tab_names := rfl

theorem clamp_selections_session_name (m : Model) :
    (clamp_selections m).session_name = m.session_name := rfl

theorem clamp_selections_agents (m : Model) :
    (clamp_selections m).agents = m.agents := rfl

theorem clamp_selections_filter_text (m : Model) :
    (clamp_selections m).filter_text = m.filter_text := rfl

theorem visiblePaneCount_congr {m₁ m₂ : Model} (h1 : m₁.agent_panes = m₂.agent_panes)
    (h2 : m₁.filter_text = m₂.filter_text) : visiblePaneCount m₁ = visiblePaneCount m₂ := by
  unfold visiblePaneCount
  rw [h1, h2]

theorem clamp_selections_selected_pane (m : Model) :
    (clamp_selections m).selected_pane =
      if visiblePaneCount m = 0 then 0
      else if visiblePaneCount m ≤ m.selected_pane then visiblePaneCount m - 1
      else m.selected_pane := by
  unfold clamp_selections
  dsimp only
  split <;> split <;> simp_all

theorem clamp_selections_selected_agent (m : Model) :
    (clamp_selections m).selected_agent =
      if m.agents.length = 0 then 0
      else if m.agents.length ≤ m.selected_agent then m.agents.length - 1
      else m.selected_agent := by
  unfold clamp_selections
  dsimp only
  split <;> split <;> simp_all

theorem clamp_selections_inv (m : Model) : selectionInvariant (clamp_selections m) := by
  have hpc : visiblePaneCount (clamp_selections m) = visiblePaneCount m :=
    visiblePaneCount_congr (clamp_selections_agent_panes m) (clamp_selections_filter_text m)
  have hag := clamp_selections_agents m
  have hsp := clamp_selections_selected_pane m
  have hsa := clamp_selections_selected_agent m
  unfold selectionInvariant
  rw [hpc, hag, hsp, hsa]
  refine ⟨?_, ?_, ?_, ?_⟩
  · intro h
    simp [h]
  · intro h
    split
    · omega
    · split <;> omega
  · intro h
    simp [h]
  · intro h
    split
    · omega
    · split <;> omega

theorem applyEvent_is_clamp (m : Model) (e : Event) :
    ∃ m', applyEvent m e = clamp_selections m' := by
  cases e <;> exact ⟨_, rfl⟩

theorem containsSub_of_isPrefixOf {pat s : List Char} (h : pat.isPrefixOf s = true) :
    containsSub pat s = true := by
  cases s with
  | nil =>
    cases pat with
    | nil => rfl
    | cons c t => simp [List.isPrefixOf] at h
  | cons c t => simp [containsSub, h]

theorem strContains_append_left (a b : String) : strContains (a ++ b) a = true := by
  have hd : (a ++ b).data = a.data ++ b.data := rfl
  unfold strContains
  rw [hd]
  apply containsSub_of_isPrefixOf
  rw [List.isPrefixOf_iff_prefix]
  exact List.prefix_append _ _

theorem containsSub_append_self (x y : List Char) : containsSub y (x ++ y) = true := by
  induction x with
  | nil =>
    rw [List.nil_append]
    apply containsSub_of_isPrefixOf
    rw [List.isPrefixOf_iff_prefix]
  | cons c t ih => simp [containsSub, ih]

theorem strContains_append_right (a b : String) : strContains (a ++ b) b = true := by
  have hd : (a ++ b).data = a.data ++ b.data := rfl
  unfold strContains
  rw [hd]
  exact containsSub_append_self _ _

theorem strContains_triple_left (a b c : String) : strContains (a ++ b ++ c) a = true := by
  unfold strContains
  have hd : (a ++ b ++ c).data = a.data ++ (b.data ++ c.data) := by
    show (a.data ++ b.data) ++ c.data = _
    rw [List.append_assoc]
  rw [hd]
  apply containsSub_of_isPrefixOf
  rw [List.isPrefixOf_iff_prefix]
  exact List.prefix_append _ _

theorem strContains_triple_right (a b c : String) : strContains (a ++ b ++ c) c = true :=
  strContains_append_right _ _

theorem updateFirst_eq_set {p : AgentPane → Bool} {f : AgentPane → AgentPane}
    {l : List AgentPane} {q : Nat} {r : AgentPane}
    (hg : l.get? q = some r) (hp : p r = true)
    (hlt : ∀ j, j < q → ∀ x, l.get? j = some x → p x = false) :
    updateFirst p f l = some (l.set q (f r)) := by
  induction l generalizing q with
  | nil => simp at hg
  | cons a t ih =>
    cases q with
    | zero =>
      simp only [List.get?] at hg
      injection hg with hg
      subst hg
      simp [updateFirst, hp]
    | succ n =>
      have ha : p a = false := hlt 0 (Nat.succ_pos n) a rfl
      simp only [List.get?] at hg
      have ht := ih hg (fun j hj x hx => hlt (j + 1) (Nat.succ_lt_succ hj) x hx)
      simp [updateFirst, ha, ht]

theorem updateFirst_none_iff {p : AgentPane → Bool} {f : AgentPane → AgentPane}
    {l : List AgentPane} : updateFirst p f l = none ↔ ∀ x ∈ l, p x = false := by
  induction l with
  | nil => simp [updateFirst]
  | cons a t ih =>
    by_cases h : p a = true
    · simp [updateFirst, h]
    · simp only [Bool.not_eq_true] at h
      simp [updateFirst, h, Option.map_eq_none', ih]

theorem resolveTab_cases (ns : List String) (r : AgentPane) :
    resolveTab ns r = r ∨ ∃ nm, resolveTab ns r = { r with tab_name := nm } := by
  unfold resolveTab
  split
  · split
    · split
      · exact Or.inr ⟨_, rfl⟩
      · exact Or.inl rfl
    · exact Or.inl rfl
  · exact Or.inl rfl

theorem resolveTab_pane_id (ns : List String) (r : AgentPane) :
    (resolveTab ns r).pane_id = r.pane_id := by
  rcases resolveTab_cases ns r with h | ⟨nm, h⟩ <;> rw [h]

theorem resolveTab_pending (ns : List String) (r : AgentPane) :
    (resolveTab ns r).pending_tab_index = r.pending_tab_index := by
  rcases resolveTab_cases ns r with h | ⟨nm, h⟩ <;> rw [h]

theorem resolveTab_of_pending_none {ns : List String} {r : AgentPane}
    (h : r.pending_tab_index = none) : resolveTab ns r = r := by
  unfold resolveTab
  rw [h]

theorem resolveTab_resolves {ns : List String} {r : AgentPane} {idx : Nat} {nm : String}
    (hp : r.pending_tab_index = some idx) (hn : ns.get? idx = some nm) :
    ((r.tab_name.isEmpty = true ∨ ns.contains r.tab_name = false) →
      resolveTab ns r = { r with tab_name := nm }) ∧
    ((r.tab_name.isEmpty = false ∧ ns.contains r.tab_name = true) →
      resolveTab ns r = r) := by
  unfold resolveTab
  rw [hp]
  dsimp only
  rw [hn]
  dsimp only
  constructor
  · intro h
    have hc : (r.tab_name.isEmpty || !ns.contains r.tab_name) = true := by
      rcases h with h | h
      · rw [h, Bool.true_or]
      · rw [h, Bool.not_false, Bool.or_true]
    rw [if_pos hc]
  · rintro ⟨h1, h2⟩
    have hc : ¬((r.tab_name.isEmpty || !ns.contains r.tab_name) = true) := by
      rw [h1, h2, Bool.not_true, Bool.or_false]
      exact Bool.false_ne_true
    rw [if_neg hc]

theorem apply_tab_update_agent_panes (m : Model) (tabs : List TabInfo) :
    (apply_tab_update m tabs).agent_panes =
      (m.agent_panes.map (resolveTab (rosterNames tabs))).filter
        (keepPane (rosterNames tabs)) := rfl

/-!
## The claims
-/

/-- C4 (amended): on a tab-roster update, a record whose `pending_tab_index`
is in range of the new roster has its `tab_name` set to the name at that
index when the current `tab_name` is empty or no longer present in the
roster, and is left entirely unchanged when its `tab_name` is already a
valid roster name; in both cases the record is retained, and
`pending_tab_index` is kept, not cleared. -/
theorem c4_pending_resolution (m : Model) (tabs : List TabInfo) (q idx : Nat)
    (nm : String) (r : AgentPane)
    (hq : m.agent_panes.get? q = some r)
    (hp : r.pending_tab_index = some idx)
    (hn : (rosterNames tabs).get? idx = some nm) :
    ((r.tab_name.isEmpty = true ∨ (rosterNames tabs).contains r.tab_name = false) →
      resolveTab (rosterNames tabs) r = { r with tab_name := nm }) ∧
    ((r.tab_name.isEmpty = false ∧ (rosterNames tabs).contains r.tab_name = true) →
      resolveTab (rosterNames tabs) r = r) ∧
    resolveTab (rosterNames tabs) r ∈ (apply_tab_update m tabs).agent_panes ∧
    (resolveTab (rosterNames tabs) r).pending_tab_index = some idx := by
  have hres := resolveTab_resolves hp hn
  refine ⟨hres.1, hres.2, ?_, ?_⟩
  · rw [apply_tab_update_agent_panes]
    apply List.mem_filter.mpr
    refine ⟨List.mem_map_of_mem _ (List.get?_mem hq), ?_⟩
    unfold keepPane
    rw [resolveTab_pending, hp]
    simp
  · rw [resolveTab_pending, hp]

/-- C4 counterexample: the record with `pending_tab_index = some 0` and empty
`tab_name` has its `tab_name` resolved to the roster name, but its
`pending_tab_index` is not cleared to `none` as the claim states. -/
theorem c4_counterexample :
    ((apply_tab_update wModelPendingIdx wTabsA).agent_panes.map
      (fun r => (r.tab_name, r.pending_tab_index))) = [("a", some 0)] := by decide

/-- C4 witness: the amended claim evaluated on the concrete scenario. -/
theorem c4_pending_resolution_witness :
    ((wRecPendingIdx.tab_name.isEmpty = true ∨
        (rosterNames wTabsA).contains wRecPendingIdx.tab_name = false) →
      resolveTab (rosterNames wTabsA) wRecPendingIdx =
        { wRecPendingIdx with tab_name := "a" }) ∧
    ((wRecPendingIdx.tab_name.isEmpty = false ∧
        (rosterNames wTabsA).contains wRecPendingIdx.tab_name = true) →
      resolveTab (rosterNames wTabsA) wRecPendingIdx = wRecPendingIdx) ∧
    resolveTab (rosterNames wTabsA) wRecPendingIdx ∈
      (apply_tab_update wModelPendingIdx wTabsA).agent_panes ∧
    (resolveTab (rosterNames wTabsA) wRecPendingIdx).pending_tab_index = some 0 :=
  c4_pending_resolution wModelPendingIdx wTabsA 0 0 "a" wRecPendingIdx
    (by decide) (by decide) (by decide)

/-- C6: after a tab-roster update, no surviving record is simultaneously
pending (no pane id), without a pending tab index, and outside the new
roster; conversely every record with a pane id, or a roster tab name, or a
pending tab index survives (in resolved form). -/
theorem c6_garbage_collection (m : Model) (tabs : List TabInfo) :
    (∀ r ∈ (apply_tab_update m tabs).agent_panes,
      r.pane_id = none → r.pending_tab_index = none →
        (rosterNames tabs).contains r.tab_name = true) ∧
    (∀ r ∈ m.agent_panes,
      (r.pane_id.isSome = true ∨ (rosterNames tabs).contains r.tab_name = true ∨
        r.pending_tab_index.isSome = true) →
      resolveTab (rosterNames tabs) r ∈ (apply_tab_update m tabs).agent_panes) := by
  constructor
  · intro r hr hid hpend
    rw [apply_tab_update_agent_panes] at hr
    have hk := (List.mem_filter.mp hr).2
    unfold keepPane at hk
    rw [hid, hpend] at hk
    simpa using hk
  · intro r hr hkeep
    rw [apply_tab_update_agent_panes]
    apply List.mem_filter.mpr
    refine ⟨List.mem_map_of_mem _ hr, ?_⟩
    unfold keepPane
    rcases hkeep with h | h | h
    · rw [resolveTab_pane_id]
      simp only [h, Bool.true_or]
    · rcases hpend : r.pending_tab_index with _ | idx
      · rw [resolveTab_of_pending_none hpend]
        simp only [h, Bool.true_or, Bool.or_true]
      · rw [resolveTab_pending, hpend]
        simp
    · rw [resolveTab_pending]
      simp only [h, Bool.or_true]

/-- C6 witness: the concrete record with a pane id survives the roster update. -/
theorem c6_garbage_collection_witness :
    resolveTab (rosterNames wTabsA) wRecPendingIdx ∈
      (apply_tab_update wModelPendingIdx wTabsA).agent_panes :=
  (c6_garbage_collection wModelPendingIdx wTabsA).2 wRecPendingIdx (by decide)
    (Or.inl (by decide))

/-- C10: every event handler re-establishes the selection-bounds invariant:
after any handler returns, the selected pane index is within the
filter-visible pane count and the selected agent index within the agent
list, each index being 0 when the corresponding list is empty. -/
theorem c10_selection_bounds (m : Model) (e : Event) :
    selectionInvariant (applyEvent m e) := by
  obtain ⟨m', hm⟩ := applyEvent_is_clamp m e
  rw [hm]
  exact clamp_selections_inv m'

/-- C10 witness: the invariant after a concrete tab update. -/
theorem c10_selection_bounds_witness :
    selectionInvariant (applyEvent wModelPendingIdx (Event.tabUpdate wTabsA)) :=
  c10_selection_bounds wModelPendingIdx (Event.tabUpdate wTabsA)

/-- C9: a spawn request for an unknown agent name fails with the
AgentNotFound error surfaced as the error message, and leaves the pane
table and the tab roster unchanged. -/
theorem c9_agent_not_found (m : Model) (workspace_path agent_name : String)
    (tc : TabChoice) (uuid : String)
    (hperm : m.permissions_granted = true)
    (habs : ∀ a ∈ m.agents, a.name ≠ agent_name) :
    (spawn_agent_pane m workspace_path agent_name tc uuid).agent_panes = m.agent_panes ∧
    (spawn_agent_pane m workspace_path agent_name tc uuid).tab_names = m.tab_names ∧
    (spawn_agent_pane m workspace_path agent_name tc uuid).error_message =
      "Agent not found: " ++ agent_name := by
  have hfind : m.agents.find? (fun a => a.name == agent_name) = none := by
    rw [List.find?_eq_none]
    intro a ha
    simpa using habs a ha
  unfold spawn_agent_pane
  rw [hperm, hfind]
  simp

/-- C9 witness: a concrete unknown-agent spawn request. -/
theorem c9_agent_not_found_witness :
    (spawn_agent_pane wModelSpawn "/w" "gpt" TabChoice.New "u1").agent_panes =
      wModelSpawn.agent_panes ∧
    (spawn_agent_pane wModelSpawn "/w" "gpt" TabChoice.New "u1").tab_names =
      wModelSpawn.tab_names ∧
    (spawn_agent_pane wModelSpawn "/w" "gpt" TabChoice.New "u1").error_message =
      "Agent not found: " ++ "gpt" :=
  c9_agent_not_found wModelSpawn "/w" "gpt" TabChoice.New "u1" (by decide) (by decide)

/-- C8 (amended): the reserved title generated at spawn embeds the workspace
basename (or the agent name when the basename is empty) plus the random
disambiguator; the agent name is not embedded when the basename is
non-empty. -/
theorem c8_reserved_title (m : Model) (workspace_path agent_name : String)
    (tc : TabChoice) (uuid : String) (a : Agent)
    (hperm : m.permissions_granted = true)
    (hfind : m.agents.find? (fun x => x.name == agent_name) = some a) :
    ∃ r : AgentPane,
      (spawn_agent_pane m workspace_path agent_name tc uuid).agent_panes =
        m.agent_panes ++ [r] ∧
      r.pane_title =
        (if (workspace_basename workspace_path).isEmpty then agent_name
         else workspace_basename workspace_path) ++ ":" ++ uuid ∧
      ((workspace_basename workspace_path).isEmpty = false →
        strContains r.pane_title (workspace_basename workspace_path) = true) ∧
      ((workspace_basename workspace_path).isEmpty = true →
        strContains r.pane_title agent_name = true) ∧
      strContains r.pane_title uuid = true ∧
      r.pane_id = none ∧ r.agent_name = agent_name ∧
      r.status = PaneStatus.Running := by
  have hside : ∀ m' : Model,
      ((workspace_basename workspace_path).isEmpty = false →
        strContains
          ((if (workspace_basename workspace_path).isEmpty then agent_name
            else workspace_basename workspace_path) ++ ":" ++ uuid)
          (workspace_basename workspace_path) = true) ∧
      ((workspace_basename workspace_path).isEmpty = true →
        strContains
          ((if (workspace_basename workspace_path).isEmpty then agent_name
            else workspace_basename workspace_path) ++ ":" ++ uuid)
          agent_name = true) := by
    intro m'
    constructor
    · intro h
      rw [if_neg (by simp [h])]
      exact strContains_triple_left _ _ _
    · intro h
      rw [if_pos h]
      exact strContains_triple_left _ _ _
  unfold spawn_agent_pane
  rw [hperm, hfind]
  simp only [Bool.not_true, Bool.false_eq_true, if_false]
  cases tc with
  | Existing name =>
    dsimp only
    exact ⟨_, rfl, rfl, (hside m).1, (hside m).2, strContains_triple_right _ _ _,
      rfl, rfl, rfl⟩
  | New =>
    dsimp only
    split
    · exact ⟨_, rfl, rfl, (hside m).1, (hside m).2, strContains_triple_right _ _ _,
        rfl, rfl, rfl⟩
    · exact ⟨_, rfl, rfl, (hside m).1, (hside m).2, strContains_triple_right _ _ _,
        rfl, rfl, rfl⟩

/-- C8 counterexample: for workspace `/a/b` and agent claude the generated
title is `b:u1`; the workspace basename is embedded but the agent name is
not, contradicting the claim that both occur. -/
theorem c8_counterexample :
    ((spawn_agent_pane wModelSpawn "/a/b" "claude" TabChoice.New "u1").agent_panes.map
      (fun r => r.pane_title)) = ["b:u1"] ∧
    strContains "b:u1" "claude" = false ∧
    workspace_basename "/a/b" = "b" := by decide

/-- C8 witness: the amended claim evaluated on the concrete spawn. -/
theorem c8_reserved_title_witness :
    ∃ r : AgentPane,
      (spawn_agent_pane wModelSpawn "/a/b" "claude" TabChoice.New "u1").agent_panes =
        wModelSpawn.agent_panes ++ [r] ∧
      r.pane_title =
        (if (workspace_basename "/a/b").isEmpty then "claude"
         else workspace_basename "/a/b") ++ ":" ++ "u1" ∧
      ((workspace_basename "/a/b").isEmpty = false →
        strContains r.pane_title (workspace_basename "/a/b") = true) ∧
      ((workspace_basename "/a/b").isEmpty = true →
        strContains r.pane_title "claude" = true) ∧
      strContains r.pane_title "u1" = true ∧
      r.pane_id = none ∧ r.agent_name = "claude" ∧
      r.status = PaneStatus.Running :=
  c8_reserved_title wModelSpawn "/a/b" "claude" TabChoice.New "u1" wClaude
    (by decide) (by decide)

/-- C2 counterexample: with an exited pane in the manifest, applying the
pane-manifest event and the spawn-confirmation event in the two orders
yields different statuses for pane 5, so the two stores do not agree as
sets of records keyed by pane id with statuses. -/
theorem c2_counterexample :
    hasIdStatus (applyEvents wModelAgents
      [Event.paneOpened 5 wCtx5, Event.paneUpdate [(0, [wPane5])]]).agent_panes 5
      (PaneStatus.Exited (some 0)) ∧
    ¬ hasIdStatus (applyEvents wModelAgents
      [Event.paneUpdate [(0, [wPane5])], Event.paneOpened 5 wCtx5]).agent_panes 5
      (PaneStatus.Exited (some 0)) := by decide

/-- C3 counterexample: pane 7 is reported with a title equal to the pending
record's reserved title and no record carries id 7, yet the pane-manifest
handler leaves the store unchanged: the pending record does not adopt the
id. -/
theorem c3_counterexample :
    wRecPending.pane_id = none ∧ wPane7.title = wRecPending.pane_title ∧
    (∀ r ∈ wModelPending.agent_panes, r.pane_id ≠ some 7) ∧
    (apply_pane_update wModelPending [(0, [wPane7])]).agent_panes = [wRecPending] := by
  decide

/-- C7 counterexample: replaying a session snapshot that marks no current
session onto a fresh model changes the tab roster on the second
application, so the session-snapshot handler is not idempotent. -/
theorem c7_counterexample :
    (applyEvent (applyEvent ({} : Model) (Event.sessionUpdate wSessionsNoCurrent))
        (Event.sessionUpdate wSessionsNoCurrent)).tab_names ≠
      (applyEvent ({} : Model) (Event.sessionUpdate wSessionsNoCurrent)).tab_names := by
  decide

theorem openedUpdate_pane_id (pid : Nat) (T w a : String) (ct ft : Option String)
    (r : AgentPane) : (openedUpdate pid T w a ct ft r).pane_id = some pid := by
  unfold openedUpdate
  dsimp only
  repeat' split
  all_goals rfl

theorem openedUpdate_status (pid : Nat) (T w a : String) (ct ft : Option String)
    (r : AgentPane) : (openedUpdate pid T w a ct ft r).status = PaneStatus.Running := by
  unfold openedUpdate
  dsimp only
  repeat' split
  all_goals rfl

/-- C3 (amended): reserved-title adoption happens on the spawn-confirmation
event, not on pane-manifest updates: when a spawn confirmation names a pane
id that no record carries and its context title equals the reserved title
of a pending record, the first such pending record adopts the id in place
(no record is created), its status becoming Running; tab resolution comes
from the context map or the first roster tab, not from a manifest index. -/
theorem c3_reserved_title_adoption (m : Model) (pid : Nat) (ctx : Ctx) (T : String)
    (q : Nat) (r : AgentPane)
    (hT : ctxGet ctx "pane_title" = some T)
    (hnone : ∀ p ∈ m.agent_panes, p.pane_id ≠ some pid)
    (hq : m.agent_panes.get? q = some r)
    (hr : r.pane_id = none) (hrt : r.pane_title = T)
    (hfirst : ∀ j, j < q → ∀ x, m.agent_panes.get? j = some x →
      ¬(x.pane_id = none ∧ x.pane_title = T)) :
    (handle_command_pane_opened m pid ctx).agent_panes =
      m.agent_panes.set q
        (openedUpdate pid T ((ctxGet ctx "cwd").getD "") ((ctxGet ctx "agent").getD "")
          (ctxGet ctx "tab_name") m.tab_names.head? r) ∧
    (handle_command_pane_opened m pid ctx).agent_panes.length =
      m.agent_panes.length ∧
    ((handle_command_pane_opened m pid ctx).agent_panes.get? q).map
      (fun x => x.pane_id) = some (some pid) ∧
    ((handle_command_pane_opened m pid ctx).agent_panes.get? q).map
      (fun x => x.status) = some PaneStatus.Running := by
  have hqlen : q < m.agent_panes.length := by
    rcases List.get?_eq_some.mp hq with ⟨h, _⟩
    exact h
  have hpred : openedPred pid T r = true := by
    unfold openedPred
    rw [hr, hrt]
    simp
  have hlt : ∀ j, j < q → ∀ x, m.agent_panes.get? j = some x →
      openedPred pid T x = false := by
    intro j hj x hx
    unfold openedPred
    have h1 := hnone x (List.get?_mem hx)
    have h2 := hfirst j hj x hx
    cases hxi : x.pane_id with
    | none =>
      have hxt : (x.pane_title == T) = false := by
        cases hb : x.pane_title == T
        · rfl
        · exact absurd ⟨hxi, by simpa using hb⟩ h2
      simp [hxi, hxt]
    | some v =>
      have hv : (some v == some pid) = false := by
        cases hb : some v == some pid
        · rfl
        · rw [hxi] at h1
          exact absurd (by simpa using hb) h1
      simp [hxi, hv]
  have hupd := updateFirst_eq_set
    (f := openedUpdate pid T ((ctxGet ctx "cwd").getD "")
      ((ctxGet ctx "agent").getD "") (ctxGet ctx "tab_name") m.tab_names.head?)
    hq hpred hlt
  have hmain : (handle_command_pane_opened m pid ctx).agent_panes =
      m.agent_panes.set q
        (openedUpdate pid T ((ctxGet ctx "cwd").getD "") ((ctxGet ctx "agent").getD "")
          (ctxGet ctx "tab_name") m.tab_names.head? r) := by
    unfold handle_command_pane_opened
    rw [hT]
    simp only [Option.getD_some]
    rw [hupd]
    rfl
  refine ⟨hmain, ?_, ?_, ?_⟩
  · rw [hmain, List.length_set]
  · rw [hmain, List.get?_eq_getElem?, List.getElem?_set_self (by simpa using hqlen)]
    dsimp only [Option.map]
    rw [openedUpdate_pane_id]
  · rw [hmain, List.get?_eq_getElem?, List.getElem?_set_self (by simpa using hqlen)]
    dsimp only [Option.map]
    rw [openedUpdate_status]

/-- C3 witness: the concrete pending record adopts pane id 7 on the
spawn-confirmation event. -/
theorem c3_reserved_title_adoption_witness :
    (handle_command_pane_opened wModelPending 7 wCtx7).agent_panes =
      wModelPending.agent_panes.set 0
        (openedUpdate 7 "w:abc" ((ctxGet wCtx7 "cwd").getD "")
          ((ctxGet wCtx7 "agent").getD "") (ctxGet wCtx7 "tab_name")
          wModelPending.tab_names.head? wRecPending) ∧
    (handle_command_pane_opened wModelPending 7 wCtx7).agent_panes.length =
      wModelPending.agent_panes.length ∧
    ((handle_command_pane_opened wModelPending 7 wCtx7).agent_panes.get? 0).map
      (fun x => x.pane_id) = some (some 7) ∧
    ((handle_command_pane_opened wModelPending 7 wCtx7).agent_panes.get? 0).map
      (fun x => x.status) = some PaneStatus.Running :=
  c3_reserved_title_adoption wModelPending 7 wCtx7 "w:abc" 0 wRecPending
    (by decide) (by decide) (by decide) (by decide) (by decide)
    (fun j hj => absurd hj (Nat.not_lt_zero j))

theorem updateFirst_get? {p : AgentPane → Bool} {f : AgentPane → AgentPane}
    {l l' : List AgentPane} (h : updateFirst p f l = some l') :
    ∀ q r, l.get? q = some r → l'.get? q = some r ∨ l'.get? q = some (f r) := by
  induction l generalizing l' with
  | nil => simp [updateFirst] at h
  | cons a t ih =>
    by_cases hp : p a = true
    · simp only [updateFirst, if_pos hp, Option.some.injEq] at h
      subst h
      intro q r hq
      cases q with
      | zero =>
        simp only [List.get?, Option.some.injEq] at hq
        subst hq
        right
        rfl
      | succ n =>
        left
        simpa using hq
    · simp only [updateFirst, hp, if_false, Bool.false_eq_true] at h
      rcases ho : updateFirst p f t with _ | t'
      · rw [ho] at h
        simp at h
      · rw [ho] at h
        simp only [Option.map, Option.some.injEq] at h
        subst h
        intro q r hq
        cases q with
        | zero =>
          left
          simpa using hq
        | succ n => exact ih ho n r (by simpa using hq)

theorem adoptAt_eq_set (i : Nat) (st : PaneStatus) (q : Nat) (l : List AgentPane) :
    adoptAt i st q l =
      match l.get? q with
      | some r => l.set q { r with pane_id := some i, status := st }
      | none => l := by
  induction l generalizing q with
  | nil => cases q <;> rfl
  | cons a t ih =>
    cases q with
    | zero => rfl
    | succ n =>
      have hc : (a :: t).get? (n + 1) = t.get? n := rfl
      show a :: adoptAt i st n t = _
      rw [ih n, hc]
      cases t.get? n with
      | none => rfl
      | some x => rfl

theorem statusRefines_refl (s : List AgentPane) : statusRefines s s :=
  fun _ r hq => ⟨r.status, hq⟩

theorem statusRefines_trans {s t u : List AgentPane}
    (h1 : statusRefines s t) (h2 : statusRefines t u) : statusRefines s u := by
  intro q r hq
  obtain ⟨st1, ht⟩ := h1 q r hq
  obtain ⟨st2, hu⟩ := h2 q _ ht
  exact ⟨st2, hu⟩

theorem tabRefines_refl (s : List AgentPane) : tabRefines s s :=
  fun _ r hq => ⟨r, hq, rfl⟩

theorem tabRefines_trans {s t u : List AgentPane}
    (h1 : tabRefines s t) (h2 : tabRefines t u) : tabRefines s u := by
  intro q r hq
  obtain ⟨r1, ht, e1⟩ := h1 q r hq
  obtain ⟨r2, hu, e2⟩ := h2 q r1 ht
  exact ⟨r2, hu, e2.trans e1⟩

theorem foldl_refines_id {β : Type} {R : List AgentPane → List AgentPane → Prop}
    (htrans : ∀ {a b c : List AgentPane}, R a b → R b c → R a c)
    (step : List AgentPane → β → List AgentPane)
    (hstep : ∀ a b, R a (step a b)) (hrefl : ∀ s, R s s) :
    ∀ (bs : List β) (a : List AgentPane), R a (bs.foldl step a) := by
  intro bs
  induction bs with
  | nil => intro a; exact hrefl _
  | cons b bs ih => intro a; exact htrans (hstep a b) (ih (step a b))

theorem foldl_refines_fst {β γ : Type} {R : List AgentPane → List AgentPane → Prop}
    (htrans : ∀ {a b c : List AgentPane}, R a b → R b c → R a c)
    (step : List AgentPane × γ → β → List AgentPane × γ)
    (hstep : ∀ a b, R a.1 (step a b).1) (hrefl : ∀ s, R s s) :
    ∀ (bs : List β) (a : List AgentPane × γ), R a.1 (bs.foldl step a).1 := by
  intro bs
  induction bs with
  | nil => intro a; exact hrefl _
  | cons b bs ih => intro a; exact htrans (hstep a b) (ih (step a b))

theorem foldl_refines_snd {β γ : Type} {R : List AgentPane → List AgentPane → Prop}
    (htrans : ∀ {a b c : List AgentPane}, R a b → R b c → R a c)
    (step : γ × List AgentPane → β → γ × List AgentPane)
    (hstep : ∀ a b, R a.2 (step a b).2) (hrefl : ∀ s, R s s) :
    ∀ (bs : List β) (a : γ × List AgentPane), R a.2 (bs.foldl step a).2 := by
  intro bs
  induction bs with
  | nil => intro a; exact hrefl _
  | cons b bs ih => intro a; exact htrans (hstep a b) (ih (step a b))

theorem get?_append_left_rec {l₁ l₂ : List AgentPane} {q : Nat} {r : AgentPane}
    (h : l₁.get? q = some r) : (l₁ ++ l₂).get? q = some r := by
  have hlen : q < l₁.length := by
    rcases List.get?_eq_some.mp h with ⟨hl, _⟩
    exact hl
  rw [List.get?_append hlen]
  exact h

theorem paneStep_cases (agents : List Agent) (ns : List String)
    (s : List AgentPane) (ti : Nat) (p : PaneInfo) :
    (∃ s', updateFirst (identityPred p.id)
        (setStatusFn (statusOf p.exited p.exit_status)) s = some s' ∧
      paneStep agents ns s ti p = s') ∨
    (updateFirst (identityPred p.id)
        (setStatusFn (statusOf p.exited p.exit_status)) s = none ∧
      ((∃ agent, find_agent_by_command agents (p.terminal_command.getD p.title) =
          some agent ∧ p.is_plugin = false ∧
          paneStep agents ns s ti p = s ++ [freshPaneRec ns ti p agent]) ∨
        paneStep agents ns s ti p = s)) := by
  unfold paneStep
  cases hu : updateFirst (identityPred p.id)
      (setStatusFn (statusOf p.exited p.exit_status)) s with
  | some s' => exact Or.inl ⟨s', rfl, rfl⟩
  | none =>
    refine Or.inr ⟨rfl, ?_⟩
    dsimp only
    cases hp : p.is_plugin with
    | true => simp [hp]
    | false =>
      cases hf : find_agent_by_command agents (p.terminal_command.getD p.title) with
      | some agent => simp [hp, hf]
      | none => simp [hp, hf]

theorem rebuildStep_cases (agents : List Agent) (tn : String) (ti : Nat)
    (a : List AgentPane × List Nat) (p : PaneInfo) :
    (∃ s', updateFirst (identityPred p.id)
        (setStatusFn (statusOf p.exited p.exit_status)) a.1 = some s' ∧
      rebuildStep agents tn ti a p = (s', a.2)) ∨
    (updateFirst (identityPred p.id)
        (setStatusFn (statusOf p.exited p.exit_status)) a.1 = none ∧
      ((∃ idx, a.2.getLast? = some idx ∧
          rebuildStep agents tn ti a p =
            (adoptAt p.id (statusOf p.exited p.exit_status) idx a.1, a.2.dropLast)) ∨
        (a.2.getLast? = none ∧
          ((∃ agent, find_agent_by_command agents (p.terminal_command.getD p.title) =
              some agent ∧ p.is_plugin = false ∧
              rebuildStep agents tn ti a p =
                (a.1 ++ [freshRebuildRec tn ti p agent], a.2)) ∨
            rebuildStep agents tn ti a p = (a.1, a.2))))) := by
  unfold rebuildStep
  dsimp only
  cases hu : updateFirst (identityPred p.id)
      (setStatusFn (statusOf p.exited p.exit_status)) a.1 with
  | some s' => exact Or.inl ⟨s', rfl, rfl⟩
  | none =>
    refine Or.inr ⟨rfl, ?_⟩
    cases hl : a.2.getLast? with
    | some idx => exact Or.inl ⟨idx, rfl, rfl⟩
    | none =>
      refine Or.inr ⟨rfl, ?_⟩
      dsimp only
      cases hp : p.is_plugin with
      | true => simp [hp]
      | false =>
        cases hf : find_agent_by_command agents (p.terminal_command.getD p.title) with
        | some agent => simp [hp, hf]
        | none => simp [hp, hf]

theorem adoptAt_tabRefines (i : Nat) (st : PaneStatus) (idx : Nat)
    (l : List AgentPane) : tabRefines l (adoptAt i st idx l) := by
  intro q r hq
  rw [adoptAt_eq_set]
  cases hg : l.get? idx with
  | none => exact ⟨r, hq, rfl⟩
  | some x =>
    by_cases hqi : idx = q
    · subst hqi
      rw [hq] at hg
      injection hg with hg
      subst hg
      have hqlen : idx < l.length := by
        rcases List.get?_eq_some.mp hq with ⟨hl2, _⟩
        exact hl2
      refine ⟨{ r with pane_id := some i, status := st }, ?_, rfl⟩
      rw [List.get?_eq_getElem?, List.getElem?_set_self (by simpa using hqlen)]
    · refine ⟨r, ?_, rfl⟩
      rw [List.get?_eq_getElem?, List.getElem?_set, if_neg hqi]
      rw [← List.get?_eq_getElem?]
      exact hq

theorem paneStep_statusRefines (agents : List Agent) (ns : List String)
    (s : List AgentPane) (ti : Nat) (p : PaneInfo) :
    statusRefines s (paneStep agents ns s ti p) := by
  intro q r hq
  rcases paneStep_cases agents ns s ti p with ⟨s', hu, he⟩ | ⟨hu, hrest⟩
  · rw [he]
    rcases updateFirst_get? hu q r hq with h | h
    · exact ⟨r.status, h⟩
    · exact ⟨statusOf p.exited p.exit_status, h⟩
  · rcases hrest with ⟨agent, _, _, he⟩ | he
    · rw [he]
      exact ⟨r.status, get?_append_left_rec hq⟩
    · rw [he]
      exact ⟨r.status, hq⟩

theorem rebuildStep_tabRefines (agents : List Agent) (tn : String) (ti : Nat)
    (a : List AgentPane × List Nat) (p : PaneInfo) :
    tabRefines a.1 ((rebuildStep agents tn ti a p).1) := by
  intro q r hq
  rcases rebuildStep_cases agents tn ti a p with ⟨s', hu, he⟩ | ⟨hu, hrest⟩
  · rw [he]
    rcases updateFirst_get? hu q r hq with h | h
    · exact ⟨r, h, rfl⟩
    · exact ⟨_, h, rfl⟩
  · rcases hrest with ⟨idx, hl, he⟩ | ⟨hl, ⟨agent, _, _, he⟩ | he⟩
    · rw [he]
      exact adoptAt_tabRefines _ _ _ _ q r hq
    · rw [he]
      exact ⟨r, get?_append_left_rec hq, rfl⟩
    · rw [he]
      exact ⟨r, hq, rfl⟩

theorem rebuildTab_tabRefines (agents : List Agent) (tabs : List TabInfo)
    (s : List AgentPane) (entry : Nat × List PaneInfo) :
    tabRefines s (rebuildTab agents tabs s entry) := by
  unfold rebuildTab
  dsimp only
  exact foldl_refines_fst (R := tabRefines) (fun h1 h2 => tabRefines_trans h1 h2)
    (rebuildStep agents ((tabLookup tabs entry.1).getD "") entry.1)
    (fun a p => rebuildStep_tabRefines agents _ entry.1 a p) tabRefines_refl entry.2
    (s, if (!((tabLookup tabs entry.1).getD "").isEmpty) = true then
      collectUnmatched s ((tabLookup tabs entry.1).getD "") else [])

theorem rebuildSession_tabRefines (agents : List Agent)
    (acc : Option String × List AgentPane) (session : SessionInfo) :
    tabRefines acc.2 ((rebuildSession agents acc session).2) := by
  unfold rebuildSession
  cases acc.1 with
  | some current =>
    dsimp only
    split
    · exact foldl_refines_id (R := tabRefines) (fun h1 h2 => tabRefines_trans h1 h2)
        (rebuildTab agents session.tabs)
        (fun a e => rebuildTab_tabRefines agents session.tabs a e) tabRefines_refl
        session.panes acc.2
    · exact tabRefines_refl _
  | none =>
    dsimp only
    exact foldl_refines_id (R := tabRefines) (fun h1 h2 => tabRefines_trans h1 h2)
      (rebuildTab agents session.tabs)
      (fun a e => rebuildTab_tabRefines agents session.tabs a e) tabRefines_refl
      session.panes acc.2

theorem apply_pane_update_statusRefines (m : Model) (u : PaneManifest) :
    statusRefines m.agent_panes (apply_pane_update m u).agent_panes := by
  have hproj : (apply_pane_update m u).agent_panes = u.foldl
      (fun s entry => entry.2.foldl
        (fun s2 pane => paneStep m.agents m.tab_names s2 entry.1 pane) s)
      m.agent_panes := rfl
  rw [hproj]
  exact foldl_refines_id (R := statusRefines) (fun h1 h2 => statusRefines_trans h1 h2)
    (fun s entry => entry.2.foldl
      (fun s2 pane => paneStep m.agents m.tab_names s2 entry.1 pane) s)
    (fun s entry => foldl_refines_id (R := statusRefines)
      (fun h1 h2 => statusRefines_trans h1 h2)
      (fun s2 pane => paneStep m.agents m.tab_names s2 entry.1 pane)
      (fun s2 pane => paneStep_statusRefines m.agents m.tab_names s2 entry.1 pane)
      statusRefines_refl entry.2 s)
    statusRefines_refl u m.agent_panes

theorem rebuild_tabRefines (m : Model) (sessions : List SessionInfo) :
    tabRefines m.agent_panes (rebuild_from_session_infos m sessions).agent_panes := by
  have hproj : (rebuild_from_session_infos m sessions).agent_panes =
      (sessions.foldl (rebuildSession m.agents) (m.session_name, m.agent_panes)).2 := rfl
  rw [hproj]
  exact foldl_refines_snd (R := tabRefines) (fun h1 h2 => tabRefines_trans h1 h2)
    (rebuildSession m.agents)
    (fun a session => rebuildSession_tabRefines m.agents a session) tabRefines_refl
    sessions (m.session_name, m.agent_panes)

/-- C5: a pane-manifest update preserves every pre-existing record in place,
changing at most its status (in particular identity-matched panes get only a
status update and no tab name ever changes); a session-rehydration pass
preserves every pre-existing record's tab name in place. -/
theorem c5_tab_name_stability (m : Model) (u : PaneManifest)
    (sessions : List SessionInfo) (q : Nat) (r : AgentPane)
    (hq : m.agent_panes.get? q = some r) :
    (∃ st, (apply_pane_update m u).agent_panes.get? q = some { r with status := st }) ∧
    (∃ r', (rebuild_from_session_infos m sessions).agent_panes.get? q = some r' ∧
      r'.tab_name = r.tab_name) :=
  ⟨apply_pane_update_statusRefines m u q r hq, rebuild_tabRefines m sessions q r hq⟩

theorem storeInv_nil : storeInv [] := by
  constructor
  · intro i hi
    simp [idsOf] at hi
  · simp [idsOf]

theorem storeInv_of_idsOf_eq {l l' : List AgentPane} (h : idsOf l' = idsOf l)
    (hi : storeInv l) : storeInv l' := by
  constructor
  · rw [h]
    exact hi.1
  · rw [h]
    exact hi.2

theorem updateFirst_idsOf {p : AgentPane → Bool} {f : AgentPane → AgentPane}
    {l l' : List AgentPane} (h : updateFirst p f l = some l')
    (hf : ∀ x ∈ l, p x = true → (f x).pane_id = x.pane_id) : idsOf l' = idsOf l := by
  induction l generalizing l' with
  | nil => simp [updateFirst] at h
  | cons a t ih =>
    by_cases hp : p a = true
    · simp only [updateFirst, if_pos hp, Option.some.injEq] at h
      subst h
      unfold idsOf
      simp only [List.map_cons]
      rw [hf a (by simp) hp]
    · simp only [updateFirst, hp, if_false, Bool.false_eq_true] at h
      rcases ho : updateFirst p f t with _ | t'
      · rw [ho] at h
        simp at h
      · rw [ho] at h
        simp only [Option.map, Option.some.injEq] at h
        subst h
        unfold idsOf
        simp only [List.map_cons]
        have hrec := ih ho (fun x hx => hf x (by simp [hx]))
        unfold idsOf at hrec
        rw [hrec]

theorem not_mem_idsOf_of_identity_none {f : AgentPane → AgentPane}
    {l : List AgentPane} {i : Nat}
    (h : updateFirst (identityPred i) f l = none) : some i ∉ idsOf l := by
  rw [updateFirst_none_iff] at h
  intro hmem
  rcases List.mem_map.mp hmem with ⟨r, hr, hid⟩
  have hfalse := h r hr
  unfold identityPred at hfalse
  rw [hid] at hfalse
  simp at hfalse

theorem not_mem_idsOf_of_opened_none {f : AgentPane → AgentPane}
    {l : List AgentPane} {i : Nat} {T : String}
    (h : updateFirst (openedPred i T) f l = none) : some i ∉ idsOf l := by
  rw [updateFirst_none_iff] at h
  intro hmem
  rcases List.mem_map.mp hmem with ⟨r, hr, hid⟩
  have hfalse := h r hr
  unfold openedPred at hfalse
  rw [Bool.or_eq_false_iff] at hfalse
  have h1 := hfalse.1
  rw [hid] at h1
  simp at h1

theorem storeInv_append {l : List AgentPane} {r : AgentPane} {i : Nat}
    (h : storeInv l) (hr : r.pane_id = some i) (hni : some i ∉ idsOf l) :
    storeInv (l ++ [r]) := by
  have hids : idsOf (l ++ [r]) = idsOf l ++ [some i] := by
    unfold idsOf
    rw [List.map_append]
    simp [hr]
  constructor
  · rw [hids]
    intro x hx
    rcases List.mem_append.mp hx with hx | hx
    · exact h.1 x hx
    · simp at hx
      subst hx
      rfl
  · rw [hids, List.nodup_append]
    refine ⟨h.2, List.nodup_singleton _, ?_⟩
    intro a ha hb
    simp at hb
    subst hb
    exact hni ha

theorem storeInv_filter (p : AgentPane → Bool) {l : List AgentPane}
    (h : storeInv l) : storeInv (l.filter p) := by
  constructor
  · intro x hx
    rcases List.mem_map.mp hx with ⟨r, hr, hid⟩
    subst hid
    exact h.1 _ (List.mem_map_of_mem _ (List.mem_of_mem_filter hr))
  · have hsub : List.Sublist (idsOf (l.filter p)) (idsOf l) :=
      List.Sublist.map _ (List.filter_sublist l)
    exact h.2.sublist hsub

theorem idsOf_map_resolveTab (ns : List String) (l : List AgentPane) :
    idsOf (l.map (resolveTab ns)) = idsOf l := by
  unfold idsOf
  rw [List.map_map]
  apply List.map_congr_left
  intro a _
  exact resolveTab_pane_id ns a

theorem collectUnmatched_eq_nil {panes : List AgentPane} {tn : String}
    (h : ∀ i ∈ idsOf panes, i.isSome = true) : collectUnmatched panes tn = [] := by
  unfold collectUnmatched
  rw [List.filter_eq_nil]
  intro q _
  cases hg : panes.get? q with
  | none => simp
  | some p =>
    have hp := h p.pane_id (List.mem_map_of_mem _ (List.get?_mem hg))
    cases hpi : p.pane_id with
    | none =>
      rw [hpi] at hp
      simp at hp
    | some v => simp [hpi]

theorem foldl_preserves {σ β : Type} (P : σ → Prop) (step : σ → β → σ)
    (hstep : ∀ a b, P a → P (step a b)) :
    ∀ (bs : List β) (a : σ), P a → P (bs.foldl step a) := by
  intro bs
  induction bs with
  | nil => exact fun _ h => h
  | cons b bs ih => exact fun a h => ih _ (hstep a b h)

theorem storeInv_match_updateFirst {pred : AgentPane → Bool}
    {f : AgentPane → AgentPane} {l : List AgentPane} {rec : AgentPane} {i : Nat}
    (h : storeInv l)
    (hf : ∀ x ∈ l, pred x = true → (f x).pane_id = x.pane_id)
    (hnone : updateFirst pred f l = none → some i ∉ idsOf l)
    (hrec : rec.pane_id = some i) :
    storeInv (match updateFirst pred f l with
              | some panes => panes
              | none => l ++ [rec]) := by
  cases hu : updateFirst pred f l with
  | some s' => exact storeInv_of_idsOf_eq (updateFirst_idsOf hu hf) h
  | none => exact storeInv_append h hrec (hnone hu)

theorem storeInv_match_updateFirst_noop {pred : AgentPane → Bool}
    {f : AgentPane → AgentPane} {l : List AgentPane}
    (h : storeInv l)
    (hf : ∀ x ∈ l, pred x = true → (f x).pane_id = x.pane_id) :
    storeInv (match updateFirst pred f l with
              | some panes => panes
              | none => l) := by
  cases hu : updateFirst pred f l with
  | some s' => exact storeInv_of_idsOf_eq (updateFirst_idsOf hu hf) h
  | none => exact h

theorem openedPred_id_of_isSome {i : Nat} {T : String} {x : AgentPane}
    (hsome : x.pane_id.isSome = true) (hp : openedPred i T x = true) :
    x.pane_id = some i := by
  unfold openedPred at hp
  cases hx : x.pane_id with
  | none =>
    rw [hx] at hsome
    simp at hsome
  | some v =>
    rw [hx] at hp
    simp at hp
    rw [hp]

theorem storeInv_apply_tab_update (m : Model) (tabs : List TabInfo)
    (h : storeInv m.agent_panes) : storeInv (apply_tab_update m tabs).agent_panes := by
  rw [apply_tab_update_agent_panes]
  exact storeInv_filter _ (storeInv_of_idsOf_eq (idsOf_map_resolveTab _ _) h)

theorem storeInv_paneStep (agents : List Agent) (ns : List String) (ti : Nat)
    (p : PaneInfo) {s : List AgentPane} (h : storeInv s) :
    storeInv (paneStep agents ns s ti p) := by
  rcases paneStep_cases agents ns s ti p with ⟨s', hu, he⟩ | ⟨hu, hrest⟩
  · rw [he]
    exact storeInv_of_idsOf_eq (updateFirst_idsOf hu (fun x _ _ => rfl)) h
  · rcases hrest with ⟨agent, _, _, he⟩ | he
    · rw [he]
      exact storeInv_append h rfl (not_mem_idsOf_of_identity_none hu)
    · rw [he]
      exact h

theorem storeInv_apply_pane_update (m : Model) (u : PaneManifest)
    (h : storeInv m.agent_panes) : storeInv (apply_pane_update m u).agent_panes := by
  have hproj : (apply_pane_update m u).agent_panes = u.foldl
      (fun s entry => entry.2.foldl
        (fun s2 pane => paneStep m.agents m.tab_names s2 entry.1 pane) s)
      m.agent_panes := rfl
  rw [hproj]
  exact foldl_preserves storeInv _
    (fun s entry hs => foldl_preserves storeInv _
      (fun s2 pane hs2 => storeInv_paneStep m.agents m.tab_names entry.1 pane hs2)
      entry.2 s hs)
    u m.agent_panes h

theorem storeInv_opened (m : Model) (pid : Nat) (ctx : Ctx)
    (h : storeInv m.agent_panes) :
    storeInv (handle_command_pane_opened m pid ctx).agent_panes := by
  unfold handle_command_pane_opened
  dsimp only
  rw [clamp_selections_agent_panes]
  exact storeInv_match_updateFirst h
    (fun x hx hp => by
      rw [openedUpdate_pane_id]
      rw [openedPred_id_of_isSome (h.1 _ (List.mem_map_of_mem _ hx)) hp])
    (fun hn => not_mem_idsOf_of_opened_none hn)
    rfl

theorem storeInv_exited (m : Model) (pid : Nat) (es : Option Int) (ctx : Ctx)
    (h : storeInv m.agent_panes) :
    storeInv (handle_command_pane_exited m pid es ctx).agent_panes := by
  unfold handle_command_pane_exited
  dsimp only
  rw [clamp_selections_agent_panes]
  exact storeInv_match_updateFirst_noop h (fun x _ _ => rfl)

theorem storeInv_rerun (m : Model) (pid : Nat) (ctx : Ctx)
    (h : storeInv m.agent_panes) :
    storeInv (handle_command_pane_rerun m pid ctx).agent_panes := by
  unfold handle_command_pane_rerun
  dsimp only
  rw [clamp_selections_agent_panes]
  exact storeInv_match_updateFirst_noop h (fun x _ _ => rfl)

theorem storeInv_closed (m : Model) (pid : PaneId)
    (h : storeInv m.agent_panes) :
    storeInv (handle_pane_closed m pid).agent_panes := by
  unfold handle_pane_closed
  dsimp only
  rw [clamp_selections_agent_panes]
  exact storeInv_filter _ h

theorem rebuildStep_inv (agents : List Agent) (tn : String) (ti : Nat)
    (a : List AgentPane × List Nat) (p : PaneInfo)
    (h1 : storeInv a.1) (h2 : a.2 = []) :
    storeInv (rebuildStep agents tn ti a p).1 ∧ (rebuildStep agents tn ti a p).2 = [] := by
  rcases rebuildStep_cases agents tn ti a p with ⟨s', hu, he⟩ | ⟨hu, hrest⟩
  · rw [he]
    exact ⟨storeInv_of_idsOf_eq (updateFirst_idsOf hu (fun x _ _ => rfl)) h1, h2⟩
  · rcases hrest with ⟨idx, hl, he⟩ | ⟨hl, ⟨agent, _, _, he⟩ | he⟩
    · rw [h2] at hl
      simp at hl
    · rw [he]
      exact ⟨storeInv_append h1 rfl (not_mem_idsOf_of_identity_none hu), h2⟩
    · rw [he]
      exact ⟨h1, h2⟩

theorem rebuildTab_inv (agents : List Agent) (tabs : List TabInfo)
    {s : List AgentPane} (entry : Nat × List PaneInfo) (h : storeInv s) :
    storeInv (rebuildTab agents tabs s entry) := by
  unfold rebuildTab
  dsimp only
  have hum : (if (!((tabLookup tabs entry.1).getD "").isEmpty) = true
      then collectUnmatched s ((tabLookup tabs entry.1).getD "") else []) = [] := by
    split
    · exact collectUnmatched_eq_nil h.1
    · rfl
  rw [hum]
  have hall := foldl_preserves (σ := List AgentPane × List Nat)
    (fun a => storeInv a.1 ∧ a.2 = [])
    (rebuildStep agents ((tabLookup tabs entry.1).getD "") entry.1)
    (fun a p hp => rebuildStep_inv _ _ _ a p hp.1 hp.2)
    entry.2 (s, []) ⟨h, rfl⟩
  exact hall.1

theorem rebuildSession_inv (agents : List Agent)
    (acc : Option String × List AgentPane) (session : SessionInfo)
    (h : storeInv acc.2) : storeInv ((rebuildSession agents acc session).2) := by
  unfold rebuildSession
  cases acc.1 with
  | some current =>
    dsimp only
    split
    · exact foldl_preserves (σ := List AgentPane) storeInv _
        (fun s e hs => rebuildTab_inv agents session.tabs e hs) session.panes acc.2 h
    · exact h
  | none =>
    dsimp only
    exact foldl_preserves (σ := List AgentPane) storeInv _
      (fun s e hs => rebuildTab_inv agents session.tabs e hs) session.panes acc.2 h

theorem storeInv_rebuild (m : Model) (sessions : List SessionInfo)
    (h : storeInv m.agent_panes) :
    storeInv (rebuild_from_session_infos m sessions).agent_panes := by
  have hproj : (rebuild_from_session_infos m sessions).agent_panes =
      (sessions.foldl (rebuildSession m.agents) (m.session_name, m.agent_panes)).2 := rfl
  rw [hproj]
  exact foldl_preserves (σ := Option String × List AgentPane) (fun a => storeInv a.2)
    (rebuildSession m.agents)
    (fun a session ha => rebuildSession_inv m.agents a session ha)
    sessions (m.session_name, m.agent_panes) h

theorem storeInv_session_update (m : Model) (sessions : List SessionInfo)
    (h : storeInv m.agent_panes) :
    storeInv (handle_session_update m sessions).agent_panes := by
  unfold handle_session_update
  dsimp only
  apply storeInv_rebuild
  repeat' split
  all_goals first
    | exact h
    | exact storeInv_nil

theorem storeInv_applyEvent (m : Model) (e : Event) (h : storeInv m.agent_panes) :
    storeInv (applyEvent m e).agent_panes := by
  cases e with
  | tabUpdate tabs => exact storeInv_apply_tab_update m tabs h
  | paneUpdate u => exact storeInv_apply_pane_update m u h
  | paneOpened id ctx => exact storeInv_opened m id ctx h
  | paneExited id es ctx => exact storeInv_exited m id es ctx h
  | paneRerun id ctx => exact storeInv_rerun m id ctx h
  | paneClosed pid => exact storeInv_closed m pid h
  | sessionUpdate ss => exact storeInv_session_update m ss h

theorem storeInv_applyEvents (es : List Event) (m : Model)
    (h : storeInv m.agent_panes) : storeInv (applyEvents m es).agent_panes := by
  induction es generalizing m with
  | nil => exact h
  | cons e es ih => exact ih (applyEvent m e) (storeInv_applyEvent m e h)

theorem length_filter_le_one_of_nodup {panes : List AgentPane}
    (h : (idsOf panes).Nodup) (i : Nat) :
    (panes.filter (fun r => r.pane_id == some i)).length ≤ 1 := by
  induction panes with
  | nil => simp
  | cons a t ih =>
    unfold idsOf at h
    rw [List.map_cons, List.nodup_cons] at h
    rw [List.filter_cons]
    by_cases ha : (a.pane_id == some i) = true
    · rw [if_pos ha]
      have hnil : t.filter (fun r => r.pane_id == some i) = [] := by
        rw [List.filter_eq_nil]
        intro r hr hcon
        apply h.1
        have hai : a.pane_id = some i := by simpa using ha
        have hri : r.pane_id = some i := by simpa using hcon
        rw [hai, ← hri]
        exact List.mem_map_of_mem _ hr
      rw [hnil]
      simp
    · rw [if_neg ha]
      exact ih h.2

/-- C1: starting from an empty pane table, any sequence of engine events
leaves at most one record carrying any given host pane id. -/
theorem c1_no_duplicate_identity (es : List Event) (m : Model)
    (h : m.agent_panes = []) (i : Nat) :
    ((applyEvents m es).agent_panes.filter
      (fun r => r.pane_id == some i)).length ≤ 1 := by
  have hinv : storeInv (applyEvents m es).agent_panes :=
    storeInv_applyEvents es m (by rw [h]; exact storeInv_nil)
  exact length_filter_le_one_of_nodup hinv.2 i

/-- C1 witness: the concrete two-event sequence leaves at most one record
with pane id 5. -/
theorem c1_no_duplicate_identity_witness :
    ((applyEvents wModelAgents
      [Event.paneUpdate [(0, [wPane5])], Event.paneOpened 5 wCtx5]).agent_panes.filter
        (fun r => r.pane_id == some 5)).length ≤ 1 :=
  c1_no_duplicate_identity
    [Event.paneUpdate [(0, [wPane5])], Event.paneOpened 5 wCtx5]
    wModelAgents (by decide) 5

/-- C5 witness: the concrete pending record's tab name survives a manifest
update and a rehydration pass. -/
theorem c5_tab_name_stability_witness :
    (∃ st, (apply_pane_update wModelPending [(0, [wPane5])]).agent_panes.get? 0 =
      some { wRecPending with status := st }) ∧
    (∃ r', (rebuild_from_session_infos wModelPending wSessionsNoCurrent).agent_panes.get? 0 =
      some r' ∧ r'.tab_name = wRecPending.tab_name) :=
  c5_tab_name_stability wModelPending [(0, [wPane5])] wSessionsNoCurrent 0 wRecPending
    (by decide)

/-!
## Positional lemmas: firstIdx, setStatusAt, idsOf, lastW
-/

theorem idsOf_length (l : List AgentPane) : (idsOf l).length = l.length := by
  simp [idsOf]

theorem idsOf_get? (l : List AgentPane) (q : Nat) :
    (idsOf l).get? q = (l.get? q).map (fun r => r.pane_id) := by
  simp [idsOf, List.get?_map]

theorem idsOf_append (l t : List AgentPane) : idsOf (l ++ t) = idsOf l ++ idsOf t := by
  simp [idsOf]

theorem idsOf_set (l : List AgentPane) (u : Nat) (r : AgentPane) :
    idsOf (l.set u r) = (idsOf l).set u r.pane_id := by
  simp [idsOf, List.map_set]

theorem idsOf_eq_shape_fst (l : List AgentPane) :
    idsOf l = (shapeOf l).map Prod.fst := by
  simp [idsOf, shapeOf]

theorem shapeOf_length (l : List AgentPane) : (shapeOf l).length = l.length := by
  simp [shapeOf]

theorem firstIdx_eq_some_iff {i : Nat} {I : List (Option Nat)} {u : Nat} :
    firstIdx i I = some u ↔
      (I.get? u = some (some i) ∧ ∀ j, j < u → I.get? j ≠ some (some i)) := by
  induction I generalizing u with
  | nil => simp [firstIdx]
  | cons x xs ih =>
    by_cases hx : (x == some i) = true
    · have hxe : x = some i := by simpa using hx
      subst hxe
      constructor
      · intro h
        rw [firstIdx, if_pos hx] at h
        injection h with h
        subst h
        exact ⟨rfl, fun j hj => absurd hj (Nat.not_lt_zero j)⟩
      · intro ⟨hg, hlt⟩
        cases u with
        | zero => rw [firstIdx, if_pos hx]
        | succ n => exact absurd rfl (hlt 0 (Nat.succ_pos n))
    · have hxne : x ≠ some i := by
        intro hc
        rw [hc] at hx
        simp at hx
      constructor
      · intro h
        rw [firstIdx, if_neg hx] at h
        cases hq : firstIdx i xs with
        | none => rw [hq] at h; simp at h
        | some q0 =>
          rw [hq] at h
          simp only [Option.map_some'] at h
          injection h with h
          subst h
          obtain ⟨hg, hlt⟩ := ih.mp hq
          refine ⟨hg, ?_⟩
          intro j hj
          cases j with
          | zero => simpa using hxne
          | succ j0 => exact hlt j0 (Nat.lt_of_succ_lt_succ hj)
      · intro ⟨hg, hlt⟩
        cases u with
        | zero =>
          simp only [List.get?] at hg
          injection hg with hg
          exact absurd hg hxne
        | succ n =>
          simp only [List.get?] at hg
          have := ih.mpr ⟨hg, fun j hj => hlt (j + 1) (Nat.succ_lt_succ hj)⟩
          rw [firstIdx, if_neg hx, this]
          rfl

theorem firstIdx_get {i : Nat} {I : List (Option Nat)} {u : Nat}
    (h : firstIdx i I = some u) : I.get? u = some (some i) :=
  (firstIdx_eq_some_iff.mp h).1

theorem firstIdx_lt {i : Nat} {I : List (Option Nat)} {u : Nat}
    (h : firstIdx i I = some u) : u < I.length :=
  List.get?_eq_some.mp (firstIdx_get h) |>.1

theorem firstIdx_eq_none_iff {i : Nat} {I : List (Option Nat)} :
    firstIdx i I = none ↔ some i ∉ I := by
  induction I with
  | nil => simp [firstIdx]
  | cons x xs ih =>
    by_cases hx : (x == some i) = true
    · have hxe : x = some i := by simpa using hx
      subst hxe
      simp [firstIdx, hx]
    · have hxne : x ≠ some i := by
        intro hc; rw [hc] at hx; simp at hx
      rw [firstIdx, if_neg hx]
      constructor
      · intro h hm
        have hnone : firstIdx i xs = none := by
          cases hq : firstIdx i xs with
          | none => rfl
          | some q0 => rw [hq] at h; simp at h
        rcases List.mem_cons.mp hm with hc | hc
        · exact hxne hc.symm
        · exact (ih.mp hnone) hc
      · intro h
        have : some i ∉ xs := fun hc => h (List.mem_cons_of_mem x hc)
        rw [ih.mpr this]
        rfl

theorem firstIdx_isSome_of_mem {i : Nat} {I : List (Option Nat)}
    (h : some i ∈ I) : ∃ u, firstIdx i I = some u := by
  cases hq : firstIdx i I with
  | none => exact absurd h (firstIdx_eq_none_iff.mp hq)
  | some u => exact ⟨u, rfl⟩

theorem firstIdx_append_of_some {i : Nat} {I J : List (Option Nat)} {u : Nat}
    (h : firstIdx i I = some u) : firstIdx i (I ++ J) = some u := by
  obtain ⟨hg, hlt⟩ := firstIdx_eq_some_iff.mp h
  have hu : u < I.length := firstIdx_lt h
  refine firstIdx_eq_some_iff.mpr ⟨?_, ?_⟩
  · rw [List.get?_append hu]
    exact hg
  · intro j hj
    rw [List.get?_append (Nat.lt_trans hj hu)]
    exact hlt j hj

theorem setStatusAt_length (st : PaneStatus) (q : Nat) (l : List AgentPane) :
    (setStatusAt st q l).length = l.length := by
  induction l generalizing q with
  | nil => cases q <;> rfl
  | cons a t ih =>
    cases q with
    | zero => rfl
    | succ n => simp [setStatusAt, ih]

theorem shapeOf_setStatusAt (st : PaneStatus) (q : Nat) (l : List AgentPane) :
    shapeOf (setStatusAt st q l) = shapeOf l := by
  induction l generalizing q with
  | nil => cases q <;> rfl
  | cons a t ih =>
    cases q with
    | zero => rfl
    | succ n => simp only [setStatusAt, shapeOf, List.map_cons]; rw [← shapeOf, ← shapeOf, ih]

theorem idsOf_setStatusAt (st : PaneStatus) (q : Nat) (l : List AgentPane) :
    idsOf (setStatusAt st q l) = idsOf l := by
  rw [idsOf_eq_shape_fst, idsOf_eq_shape_fst, shapeOf_setStatusAt]

theorem setStatusAt_get?_self {st : PaneStatus} {q : Nat} {l : List AgentPane} :
    (setStatusAt st q l).get? q = (l.get? q).map (setStatusFn st) := by
  induction l generalizing q with
  | nil => cases q <;> rfl
  | cons a t ih =>
    cases q with
    | zero => rfl
    | succ n => simpa [setStatusAt] using ih

theorem setStatusAt_get?_ne {st : PaneStatus} {q r : Nat} {l : List AgentPane}
    (h : r ≠ q) : (setStatusAt st q l).get? r = l.get? r := by
  induction l generalizing q r with
  | nil => cases q <;> rfl
  | cons a t ih =>
    cases q with
    | zero =>
      cases r with
      | zero => exact absurd rfl h
      | succ n => rfl
    | succ n =>
      cases r with
      | zero => rfl
      | succ m => exact ih (fun hc => h (by rw [hc]))

theorem setStatusFn_self {st : PaneStatus} {r : AgentPane} (h : r.status = st) :
    setStatusFn st r = r := by
  cases r
  simp [setStatusFn] at h ⊢
  exact h.symm

theorem lastW_eq_none_iff {I : List (Option Nat)} {q : Nat} {v : List Write} :
    lastW I q v = none ↔ ∀ e ∈ v, firstIdx e.1 I ≠ some q := by
  induction v with
  | nil => simp [lastW]
  | cons e v ih =>
    rw [lastW]
    constructor
    · intro h
      have hv : lastW I q v = none := by
        cases hq : lastW I q v with
        | none => rfl
        | some st => rw [hq] at h; simp at h
      rw [hv] at h
      have he : firstIdx e.1 I ≠ some q := by
        intro hc
        rw [hc] at h
        simp at h
      intro x hx
      rcases List.mem_cons.mp hx with hc | hc
      · subst hc; exact he
      · exact (ih.mp hv) x hc
    · intro h
      have hv : lastW I q v = none := ih.mpr (fun x hx => h x (List.mem_cons_of_mem e hx))
      rw [hv]
      have he := h e (List.mem_cons_self e v)
      have : (firstIdx e.1 I == some q) = false := by
        cases hb : firstIdx e.1 I == some q
        · rfl
        · exact absurd (by simpa using hb) he
      rw [this]
      rfl

theorem lastW_some_exists {I : List (Option Nat)} {q : Nat} {v : List Write}
    {st : PaneStatus} (h : lastW I q v = some st) :
    ∃ e ∈ v, firstIdx e.1 I = some q := by
  by_contra hc
  push_neg at hc
  rw [lastW_eq_none_iff.mpr hc] at h
  exact Option.noConfusion h

theorem lastW_append (I : List (Option Nat)) (q : Nat) (v1 v2 : List Write) :
    lastW I q (v1 ++ v2) =
      match lastW I q v2 with
      | some st => some st
      | none => lastW I q v1 := by
  induction v1 with
  | nil =>
    simp only [List.nil_append]
    cases h2 : lastW I q v2 <;> simp [lastW, h2]
  | cons e v ih =>
    rw [List.cons_append, lastW, ih, lastW]
    cases lastW I q v2 <;> cases lastW I q v <;> rfl

theorem applyLastW_comp (a b : Option PaneStatus) (o : Option AgentPane) :
    applyLastW b (applyLastW a o) =
      applyLastW (match b with | some st => some st | none => a) o := by
  cases b with
  | none => rfl
  | some st =>
    cases a with
    | none => rfl
    | some st2 =>
      cases o with
      | none => rfl
      | some r => rfl

/-!
## The abstract fold-trace theory
-/

theorem firstIdx_grow {i : Nat} {s : List AgentPane} {r : AgentPane}
    (h : firstIdx i (idsOf s) = none) (hid : r.pane_id = some i) :
    firstIdx i (idsOf (s ++ [r])) = some s.length := by
  rw [idsOf_append]
  refine firstIdx_eq_some_iff.mpr ⟨?_, ?_⟩
  · have hr : idsOf [r] = [some i] := by simp [idsOf, hid]
    rw [hr, ← idsOf_length s, List.get?_concat_length]
  · intro j hj
    rw [List.get?_append (by rw [idsOf_length]; exact hj)]
    intro hc
    exact (firstIdx_eq_none_iff.mp h) (List.get?_mem hc)

theorem firstIdx_adopt {i : Nat} {s : List AgentPane} {u : Nat} {r : AgentPane}
    {st : PaneStatus} (h : firstIdx i (idsOf s) = none) (hu : s.get? u = some r) :
    firstIdx i (idsOf (s.set u { r with pane_id := some i, status := st })) = some u := by
  rw [idsOf_set]
  have hul : u < s.length := (List.get?_eq_some.mp hu).1
  have hulI : u < (idsOf s).length := by rw [idsOf_length]; exact hul
  refine firstIdx_eq_some_iff.mpr ⟨?_, ?_⟩
  · rw [List.get?_eq_getElem?, List.getElem?_set_self (by simpa using hulI)]
  · intro j hj
    have hju : u ≠ j := fun hc => Nat.ne_of_lt hj hc.symm
    rw [List.get?_eq_getElem?, List.getElem?_set_ne hju, ← List.get?_eq_getElem?]
    intro hc
    exact (firstIdx_eq_none_iff.mp h) (List.get?_mem hc)

theorem StepShape.length_le {i : Nat} {st : PaneStatus} {s t : List AgentPane}
    (h : StepShape i st s t) : s.length ≤ t.length := by
  cases h with
  | write q h0 => rw [setStatusAt_length]
  | grow r h0 hid hst => simp
  | adopt u r h0 hu hr => rw [List.length_set]
  | skip h0 => exact Nat.le_refl _

theorem StepShape.firstIdx_keep {i : Nat} {st : PaneStatus} {s t : List AgentPane}
    (h : StepShape i st s t) {j q : Nat} (hj : firstIdx j (idsOf s) = some q) :
    firstIdx j (idsOf t) = some q := by
  cases h with
  | write q0 h0 => rwa [idsOf_setStatusAt]
  | grow r h0 hid hst => rw [idsOf_append]; exact firstIdx_append_of_some hj
  | adopt u r h0 hu hr =>
    obtain ⟨hg, hlt⟩ := firstIdx_eq_some_iff.mp hj
    have hji : j ≠ i := by
      intro hc
      subst hc
      rw [hj] at h0
      exact Option.noConfusion h0
    rw [idsOf_set]
    have hul : u < s.length := (List.get?_eq_some.mp hu).1
    have hulI : u < (idsOf s).length := by rw [idsOf_length]; exact hul
    have hvu : (idsOf s).get? u = some none := by
      rw [idsOf_get?, hu]
      simp [hr]
    refine firstIdx_eq_some_iff.mpr ⟨?_, ?_⟩
    · by_cases hqu : q = u
      · subst hqu
        rw [hvu] at hg
        exact absurd hg (by simp)
      · rw [List.get?_eq_getElem?,
          List.getElem?_set_ne (fun hc => hqu hc.symm), ← List.get?_eq_getElem?]
        exact hg
    · intro j0 hj0
      by_cases hj0u : j0 = u
      · subst hj0u
        rw [List.get?_eq_getElem?, List.getElem?_set_self (by simpa using hulI)]
        intro hc
        have : some i = some j := by
          have h1 : ({ r with pane_id := some i, status := st } : AgentPane).pane_id
              = some j := by
            injection hc
          simpa using h1
        exact hji (by injection this with h2; exact h2.symm)
      · rw [List.get?_eq_getElem?, List.getElem?_set_ne (fun hc => hj0u hc.symm),
          ← List.get?_eq_getElem?]
        exact hlt j0 hj0
  | skip h0 => exact hj

theorem StepShape.mem_keep {i : Nat} {st : PaneStatus} {s t : List AgentPane}
    (h : StepShape i st s t) {j : Nat} (hm : some j ∈ idsOf s) : some j ∈ idsOf t := by
  obtain ⟨u, hu⟩ := firstIdx_isSome_of_mem hm
  exact List.get?_mem (firstIdx_get (h.firstIdx_keep hu))

theorem FoldShape.comp {v1 v2 : List Write} {s t u : List AgentPane}
    (h1 : FoldShape v1 s t) (h2 : FoldShape v2 t u) : FoldShape (v1 ++ v2) s u := by
  induction h1 with
  | nil s0 => simpa using h2
  | cons e w s0 t0 u0 hs hf ih => exact FoldShape.cons e (w ++ v2) s0 t0 u (hs) (ih h2)

theorem FoldShape.length_mono {v : List Write} {s t : List AgentPane}
    (h : FoldShape v s t) : s.length ≤ t.length := by
  induction h with
  | nil s0 => exact Nat.le_refl _
  | cons e w s0 t0 u0 hs hf ih => exact Nat.le_trans hs.length_le ih

theorem FoldShape.firstIdx_stable {v : List Write} {s t : List AgentPane}
    (h : FoldShape v s t) {j q : Nat} (hj : firstIdx j (idsOf s) = some q) :
    firstIdx j (idsOf t) = some q := by
  induction h generalizing q with
  | nil s0 => exact hj
  | cons e w s0 t0 u0 hs hf ih => exact ih (hs.firstIdx_keep hj)

theorem FoldShape.mem_mono {v : List Write} {s t : List AgentPane}
    (h : FoldShape v s t) {j : Nat} (hm : some j ∈ idsOf s) : some j ∈ idsOf t := by
  obtain ⟨u, hu⟩ := firstIdx_isSome_of_mem hm
  exact List.get?_mem (firstIdx_get (h.firstIdx_stable hu))

theorem FoldShape.mem_origin {v : List Write} {s t : List AgentPane}
    (h : FoldShape v s t) {j : Nat} (hm : some j ∈ idsOf t) :
    some j ∈ idsOf s ∨ ∃ e ∈ v, e.1 = j := by
  induction h with
  | nil s0 => exact Or.inl hm
  | cons e w s0 t0 u0 hs hf ih =>
    rcases ih hm with hm0 | ⟨e0, he0, hej⟩
    · cases hs with
      | write q h0 =>
        rw [idsOf_setStatusAt] at hm0
        exact Or.inl hm0
      | grow r h0 hid hst =>
        rw [idsOf_append] at hm0
        rcases List.mem_append.mp hm0 with hl | hl
        · exact Or.inl hl
        · right
          refine ⟨e, List.mem_cons_self _ _, ?_⟩
          have h2 : some j = some e.1 := by simpa [idsOf, hid] using hl
          injection h2 with h2
          exact h2.symm
      | adopt u r h0 hu hr =>
        rw [idsOf_set] at hm0
        rcases List.mem_or_eq_of_mem_set hm0 with hl | hl
        · exact Or.inl hl
        · right
          refine ⟨e, List.mem_cons_self _ _, ?_⟩
          have h2 : some j = some e.1 := by simpa using hl
          injection h2 with h2
          exact h2.symm
      | skip h0 => exact Or.inl hm0
    · exact Or.inr ⟨e0, List.mem_cons_of_mem e he0, hej⟩

theorem lastW_cons_none {I : List (Option Nat)} {q : Nat} {e : Write}
    {v : List Write} (h : lastW I q (e :: v) = none) :
    lastW I q v = none ∧ firstIdx e.1 I ≠ some q := by
  rw [lastW] at h
  have hv : lastW I q v = none := by
    cases hx : lastW I q v with
    | none => rfl
    | some st => rw [hx] at h; exact Option.noConfusion h
  rw [hv] at h
  refine ⟨hv, ?_⟩
  intro hc
  rw [hc] at h
  simp at h

theorem FoldShape.no_write_get? {v : List Write} {s t : List AgentPane}
    (h : FoldShape v s t) {q : Nat} (hw : lastW (idsOf t) q v = none)
    (hq : q < s.length) : t.get? q = s.get? q := by
  induction h with
  | nil s0 => rfl
  | cons e w s0 t0 u0 hs hf ih =>
    obtain ⟨hw0, hne⟩ := lastW_cons_none hw
    have hq0 : q < t0.length := Nat.lt_of_lt_of_le hq hs.length_le
    rw [ih hw0 hq0]
    cases hs with
    | write q0 h0 =>
      have h1 : firstIdx e.1 (idsOf (setStatusAt e.2 q0 s0)) = some q0 := by
        rwa [idsOf_setStatusAt]
      have h2 := hf.firstIdx_stable h1
      have hqq0 : q ≠ q0 := fun hc => hne (by rw [hc]; exact h2)
      exact setStatusAt_get?_ne hqq0
    | grow r h0 hid hst => exact List.get?_append hq
    | adopt u r h0 hu hr =>
      have h2 := hf.firstIdx_stable (firstIdx_adopt h0 hu)
      have hqu : u ≠ q := fun hc => hne (hc ▸ h2)
      rw [List.get?_eq_getElem?, List.getElem?_set_ne hqu, ← List.get?_eq_getElem?]
    | skip h0 => rfl

theorem FoldShape.last_write_status {v : List Write} {s t : List AgentPane}
    {st : PaneStatus} (h : FoldShape v s t) {q : Nat}
    (hw : lastW (idsOf t) q v = some st) :
    ∃ r, t.get? q = some r ∧ r.status = st := by
  induction h generalizing st with
  | nil s0 => exact absurd hw (by rw [lastW]; simp)
  | cons e w s0 t0 u0 hs hf ih =>
    rw [lastW] at hw
    cases hx : lastW (idsOf u0) q w with
    | some st2 =>
      rw [hx] at hw
      injection hw with hw
      subst hw
      exact ih hx
    | none =>
      rw [hx] at hw
      by_cases hc : (firstIdx e.1 (idsOf u0) == some q) = true
      · rw [if_pos hc] at hw
        injection hw with hw
        subst hw
        have hfi : firstIdx e.1 (idsOf u0) = some q := by simpa using hc
        cases hs with
        | write q0 h0 =>
          have h2 := hf.firstIdx_stable
            (show firstIdx e.1 (idsOf (setStatusAt e.2 q0 s0)) = some q0 by
              rwa [idsOf_setStatusAt])
          have hqe : q = q0 := by
            rw [h2] at hfi
            injection hfi with h3
            exact h3.symm
          subst hqe
          have hqlen : q < s0.length := by
            have h4 := firstIdx_lt h0
            rwa [idsOf_length] at h4
          have hnw := hf.no_write_get? hx
            (by rw [setStatusAt_length]; exact hqlen)
          rw [hnw, setStatusAt_get?_self]
          cases hg : s0.get? q with
          | none =>
            exfalso
            rw [List.get?_eq_none] at hg
            omega
          | some r0 => exact ⟨setStatusFn e.2 r0, rfl, rfl⟩
        | grow r h0 hid hst2 =>
          have h2 := hf.firstIdx_stable (firstIdx_grow h0 hid)
          have hqe : q = s0.length := by
            rw [h2] at hfi
            injection hfi with h3
            exact h3.symm
          rw [hqe] at hx ⊢
          have hnw := hf.no_write_get? hx (by simp)
          rw [hnw, List.get?_concat_length]
          exact ⟨r, rfl, hst2⟩
        | adopt u r h0 hu hr =>
          have h2 := hf.firstIdx_stable (firstIdx_adopt h0 hu)
          have hqe : q = u := by
            rw [h2] at hfi
            injection hfi with h3
            exact h3.symm
          subst hqe
          have hul : q < s0.length := (List.get?_eq_some.mp hu).1
          have hnw := hf.no_write_get? hx (by rw [List.length_set]; exact hul)
          rw [hnw, List.get?_eq_getElem?, List.getElem?_set_self (by simpa using hul)]
          exact ⟨{ r with pane_id := some e.1, status := e.2 }, rfl, rfl⟩
        | skip h0 =>
          exfalso
          have hmem : some e.1 ∈ idsOf u0 := List.get?_mem (firstIdx_get hfi)
          rcases hf.mem_origin hmem with hm | ⟨e2, he2, he2j⟩
          · exact (firstIdx_eq_none_iff.mp h0) hm
          · have := lastW_eq_none_iff.mp hx e2 he2
            rw [he2j] at this
            exact this hfi
      · rw [if_neg hc] at hw
        exact Option.noConfusion hw

theorem FoldShape.pending_stable {v : List Write} {s t : List AgentPane}
    (h : FoldShape v s t) {q : Nat} {r : AgentPane} (hg : t.get? q = some r)
    (hr : r.pane_id = none) : s.get? q = some r := by
  induction h with
  | nil s0 => exact hg
  | cons e w s0 t0 u0 hs hf ih =>
    have h0 := ih hg
    cases hs with
    | write q0 hq0 =>
      by_cases hqq : q = q0
      · subst hqq
        exfalso
        rw [setStatusAt_get?_self] at h0
        cases hgs : s0.get? q with
        | none => rw [hgs] at h0; exact Option.noConfusion h0
        | some r0 =>
          rw [hgs] at h0
          injection h0 with h0
          have hid : r0.pane_id = some e.1 := by
            have h1 := firstIdx_get hq0
            rw [idsOf_get?, hgs] at h1
            simpa using h1
          rw [← h0] at hr
          have h2 : (setStatusFn e.2 r0).pane_id = r0.pane_id := rfl
          rw [h2, hid] at hr
          exact Option.noConfusion hr
      · rwa [setStatusAt_get?_ne hqq] at h0
    | grow r2 hnone hid hst =>
      rcases Nat.lt_trichotomy q s0.length with hlt | heq | hgt
      · rwa [List.get?_append hlt] at h0
      · exfalso
        subst heq
        rw [List.get?_concat_length] at h0
        injection h0 with h0
        rw [← h0, hid] at hr
        exact Option.noConfusion hr
      · exfalso
        have hnn : (s0 ++ [r2]).get? q = none := by
          rw [List.get?_eq_none]
          simpa using hgt
        rw [hnn] at h0
        exact Option.noConfusion h0
    | adopt u r2 hnone hu hr2 =>
      by_cases hqu : q = u
      · exfalso
        subst hqu
        have hul : q < s0.length := (List.get?_eq_some.mp hu).1
        rw [List.get?_eq_getElem?, List.getElem?_set_self (by simpa using hul)] at h0
        injection h0 with h0
        rw [← h0] at hr
        have h2 : ({ r2 with pane_id := some e.1, status := e.2 } : AgentPane).pane_id
            = some e.1 := rfl
        rw [h2] at hr
        exact Option.noConfusion hr
      · rwa [List.get?_eq_getElem?,
          List.getElem?_set_ne (fun hc => hqu hc.symm), ← List.get?_eq_getElem?] at h0
    | skip h0x => exact h0

/-!
## The pane-manifest fold as a fold trace
-/

theorem updateFirst_eq_firstIdx (i : Nat) (st : PaneStatus) (s : List AgentPane) :
    updateFirst (identityPred i) (setStatusFn st) s =
      (firstIdx i (idsOf s)).map (fun q => setStatusAt st q s) := by
  induction s with
  | nil => rfl
  | cons a t ih =>
    show (if identityPred i a then some (setStatusFn st a :: t)
        else (updateFirst (identityPred i) (setStatusFn st) t).map (a :: ·)) = _
    have hids : idsOf (a :: t) = a.pane_id :: idsOf t := rfl
    rw [hids]
    by_cases h : (a.pane_id == some i) = true
    · rw [if_pos (show identityPred i a = true from h)]
      show _ = ((if a.pane_id == some i then some 0
        else (firstIdx i (idsOf t)).map (· + 1)).map (fun q => setStatusAt st q (a :: t)))
      rw [if_pos h]
      rfl
    · rw [if_neg (show ¬identityPred i a = true from h)]
      show _ = ((if a.pane_id == some i then some 0
        else (firstIdx i (idsOf t)).map (· + 1)).map (fun q => setStatusAt st q (a :: t)))
      rw [if_neg h, ih]
      cases firstIdx i (idsOf t) <;> rfl

theorem paneStep_char (agents : List Agent) (ns : List String) (s : List AgentPane)
    (ti : Nat) (pane : PaneInfo) :
    paneStep agents ns s ti pane =
      match firstIdx pane.id (idsOf s) with
      | some q => setStatusAt (paneStatusOf pane) q s
      | none =>
        match mkNew agents ns ti pane with
        | some r => s ++ [r]
        | none => s := by
  unfold paneStep
  rw [show statusOf pane.exited pane.exit_status = paneStatusOf pane from rfl,
    updateFirst_eq_firstIdx]
  cases hf : firstIdx pane.id (idsOf s) with
  | some q => rfl
  | none =>
    dsimp only
    unfold mkNew
    by_cases hp : (!pane.is_plugin) = true
    · rw [if_pos hp, if_pos hp]
      cases find_agent_by_command agents (pane.terminal_command.getD pane.title) <;> rfl
    · rw [if_neg hp, if_neg hp]
      rfl

theorem mkNew_some {agents : List Agent} {ns : List String} {ti : Nat}
    {pane : PaneInfo} {r : AgentPane} (h : mkNew agents ns ti pane = some r) :
    r.pane_id = some pane.id ∧ r.status = paneStatusOf pane := by
  unfold mkNew at h
  by_cases hp : (!pane.is_plugin) = true
  · rw [if_pos hp] at h
    cases hfa : find_agent_by_command agents (pane.terminal_command.getD pane.title) with
    | none => rw [hfa] at h; exact Option.noConfusion h
    | some agent =>
      rw [hfa] at h
      injection h with h
      rw [← h]
      exact ⟨rfl, rfl⟩
  · rw [if_neg hp] at h
    exact Option.noConfusion h

theorem paneFold_cons (agents : List Agent) (ns : List String) (s : List AgentPane)
    (e : Nat × PaneInfo) (v : List (Nat × PaneInfo)) :
    paneFold agents ns s (e :: v) = paneFold agents ns (paneStep agents ns s e.1 e.2) v :=
  rfl

theorem writesOf_cons (e : Nat × PaneInfo) (v : List (Nat × PaneInfo)) :
    writesOf (e :: v) = (e.2.id, paneStatusOf e.2) :: writesOf v := rfl

theorem paneFold_foldShape (agents : List Agent) (ns : List String)
    (v : List (Nat × PaneInfo)) (s : List AgentPane) :
    FoldShape (writesOf v) s (paneFold agents ns s v) := by
  induction v generalizing s with
  | nil => exact FoldShape.nil s
  | cons e v ih =>
    rw [paneFold_cons, writesOf_cons]
    refine FoldShape.cons _ _ _ (paneStep agents ns s e.1 e.2) _ ?_ (ih _)
    rw [paneStep_char]
    cases hf : firstIdx e.2.id (idsOf s) with
    | some q => exact StepShape.write s q hf
    | none =>
      cases hn : mkNew agents ns e.1 e.2 with
      | some r =>
        obtain ⟨hid, hst⟩ := mkNew_some hn
        exact StepShape.grow s r hf hid hst
      | none => exact StepShape.skip s hf

theorem paneFold_append (agents : List Agent) (ns : List String) (s : List AgentPane)
    (v1 v2 : List (Nat × PaneInfo)) :
    paneFold agents ns s (v1 ++ v2) = paneFold agents ns (paneFold agents ns s v1) v2 := by
  unfold paneFold
  rw [List.foldl_append]

theorem flattenManifest_entry (agents : List Agent) (ns : List String)
    (s : List AgentPane) (ti : Nat) (ps : List PaneInfo) :
    ps.foldl (fun s2 pane => paneStep agents ns s2 ti pane) s =
      paneFold agents ns s (ps.map (fun p => (ti, p))) := by
  unfold paneFold
  rw [List.foldl_map]

theorem apply_pane_update_flatten (m : Model) (u : PaneManifest) :
    apply_pane_update m u =
      clamp_selections
        { m with
          agent_panes := paneFold m.agents m.tab_names m.agent_panes (flattenManifest u) } := by
  unfold apply_pane_update
  have hfold : ∀ (u : PaneManifest) (s : List AgentPane),
      u.foldl (fun s2 entry =>
        entry.2.foldl (fun s3 pane => paneStep m.agents m.tab_names s3 entry.1 pane) s2) s =
        paneFold m.agents m.tab_names s (flattenManifest u) := by
    intro u
    induction u with
    | nil => intro s; rfl
    | cons e rest ih =>
      intro s
      show rest.foldl _ (e.2.foldl _ s) = _
      rw [show flattenManifest (e :: rest) =
        e.2.map (fun p => (e.1, p)) ++ flattenManifest rest from rfl,
        paneFold_append, ← flattenManifest_entry, ih]
  rw [hfold]

theorem applyLastW_some (st : PaneStatus) (o : Option AgentPane) :
    applyLastW (some st) o = o.map (setStatusFn st) := rfl

theorem applyLastW_none (o : Option AgentPane) : applyLastW none o = o := rfl

theorem lastW_cons_of_some {I : List (Option Nat)} {q : Nat} {e : Write}
    {v : List Write} {st : PaneStatus} (hv : lastW I q v = some st) :
    lastW I q (e :: v) = some st := by
  rw [lastW, hv]

theorem lastW_cons_of_hit {I : List (Option Nat)} {q : Nat} {e : Write}
    {v : List Write} (h : firstIdx e.1 I = some q) (hv : lastW I q v = none) :
    lastW I q (e :: v) = some e.2 := by
  rw [lastW, hv]
  simp [h]

theorem lastW_cons_of_miss {I : List (Option Nat)} {q : Nat} {e : Write}
    {v : List Write} (h : firstIdx e.1 I ≠ some q) (hv : lastW I q v = none) :
    lastW I q (e :: v) = none := by
  rw [lastW, hv]
  have hb : (firstIdx e.1 I == some q) = false := by
    cases hx : firstIdx e.1 I == some q
    · rfl
    · exact absurd (by simpa using hx) h
  rw [hb]
  rfl

theorem paneFold_settled_get? (agents : List Agent) (ns : List String)
    (v : List (Nat × PaneInfo)) (s : List AgentPane) (I : List (Option Nat))
    (hI : idsOf s = I)
    (hset : ∀ e ∈ v, some e.2.id ∈ I ∨ mkNew agents ns e.1 e.2 = none) :
    idsOf (paneFold agents ns s v) = I ∧
      ∀ q, (paneFold agents ns s v).get? q =
        applyLastW (lastW I q (writesOf v)) (s.get? q) := by
  induction v generalizing s with
  | nil => exact ⟨hI, fun q => rfl⟩
  | cons e v ih =>
    rw [paneFold_cons]
    cases hf : firstIdx e.2.id (idsOf s) with
    | some q0 =>
      have hq0I : firstIdx e.2.id I = some q0 := by rwa [hI] at hf
      have hstep : paneStep agents ns s e.1 e.2 =
          setStatusAt (paneStatusOf e.2) q0 s := by
        rw [paneStep_char, hf]
      rw [hstep]
      have hI2 : idsOf (setStatusAt (paneStatusOf e.2) q0 s) = I := by
        rw [idsOf_setStatusAt]
        exact hI
      obtain ⟨hids, hq⟩ := ih _ hI2 (fun e2 he2 => hset e2 (List.mem_cons_of_mem e he2))
      refine ⟨hids, ?_⟩
      intro q
      rw [hq q, writesOf_cons]
      cases hlw : lastW I q (writesOf v) with
      | some st =>
        rw [lastW_cons_of_some hlw, applyLastW_some, applyLastW_some]
        by_cases hqq : q = q0
        · subst hqq
          rw [setStatusAt_get?_self]
          cases s.get? q <;> rfl
        · rw [setStatusAt_get?_ne hqq]
      | none =>
        by_cases hqq : q = q0
        · subst hqq
          rw [lastW_cons_of_hit hq0I hlw, applyLastW_none, applyLastW_some,
            setStatusAt_get?_self]
        · rw [lastW_cons_of_miss (fun hc => hqq (by
              rw [hq0I] at hc
              injection hc with hc
              exact hc.symm)) hlw,
            applyLastW_none, applyLastW_none, setStatusAt_get?_ne hqq]
    | none =>
      have hfI : firstIdx e.2.id I = none := by rwa [hI] at hf
      have hnew : mkNew agents ns e.1 e.2 = none := by
        rcases hset e (List.mem_cons_self e v) with hm | hn
        · exact absurd hm (by rw [← hI]; exact firstIdx_eq_none_iff.mp hf)
        · exact hn
      have hstep : paneStep agents ns s e.1 e.2 = s := by
        rw [paneStep_char, hf, hnew]
      rw [hstep]
      obtain ⟨hids, hq⟩ := ih _ hI (fun e2 he2 => hset e2 (List.mem_cons_of_mem e he2))
      refine ⟨hids, ?_⟩
      intro q
      rw [hq q, writesOf_cons]
      cases hlw : lastW I q (writesOf v) with
      | some st => rw [lastW_cons_of_some hlw]
      | none =>
        rw [lastW_cons_of_miss (by rw [hfI]; exact fun hc => Option.noConfusion hc) hlw]

theorem paneFold_settled (agents : List Agent) (ns : List String)
    (v : List (Nat × PaneInfo)) : ∀ s, ∀ e ∈ v,
    some e.2.id ∈ idsOf (paneFold agents ns s v) ∨ mkNew agents ns e.1 e.2 = none := by
  induction v with
  | nil =>
    intro s e he
    exact absurd he (List.not_mem_nil e)
  | cons e0 v ih =>
    intro s e he
    rw [paneFold_cons]
    rcases List.mem_cons.mp he with rfl | hev
    · cases hf : firstIdx e.2.id (idsOf s) with
      | some q =>
        left
        refine (paneFold_foldShape agents ns v _).mem_mono ?_
        rw [paneStep_char, hf, idsOf_setStatusAt]
        exact List.get?_mem (firstIdx_get hf)
      | none =>
        cases hn : mkNew agents ns e.1 e.2 with
        | some r =>
          left
          refine (paneFold_foldShape agents ns v _).mem_mono ?_
          rw [paneStep_char, hf, hn, idsOf_append]
          refine List.mem_append.mpr (Or.inr ?_)
          have hid := (mkNew_some hn).1
          simp [idsOf, hid]
        | none => exact Or.inr rfl
    · exact ih (paneStep agents ns s e0.1 e0.2) e hev

theorem paneFold_idem (agents : List Agent) (ns : List String)
    (v : List (Nat × PaneInfo)) (s : List AgentPane) :
    paneFold agents ns (paneFold agents ns s v) v = paneFold agents ns s v := by
  obtain ⟨hids, hq⟩ := paneFold_settled_get? agents ns v (paneFold agents ns s v)
    (idsOf (paneFold agents ns s v)) rfl (paneFold_settled agents ns v s)
  apply List.ext_get?
  intro q
  rw [hq q]
  cases hlw : lastW (idsOf (paneFold agents ns s v)) q (writesOf v) with
  | none => rw [applyLastW_none]
  | some st =>
    obtain ⟨r, hg, hst⟩ := (paneFold_foldShape agents ns v s).last_write_status hlw
    rw [applyLastW_some, hg]
    show some (setStatusFn st r) = some r
    rw [setStatusFn_self hst]

/-!
## Idempotence of the event handlers
-/

theorem modelExt {m₁ m₂ : Model}
    (h1 : m₁.permissions_granted = m₂.permissions_granted)
    (h2 : m₁.permissions_denied = m₂.permissions_denied)
    (h3 : m₁.agents = m₂.agents)
    (h4 : m₁.agent_panes = m₂.agent_panes)
    (h5 : m₁.tab_names = m₂.tab_names)
    (h6 : m₁.error_message = m₂.error_message)
    (h7 : m₁.filter_text = m₂.filter_text)
    (h8 : m₁.session_name = m₂.session_name)
    (h9 : m₁.selected_pane = m₂.selected_pane)
    (h10 : m₁.selected_agent = m₂.selected_agent)
    (h11 : m₁.custom_tab_name = m₂.custom_tab_name)
    (h12 : m₁.wizard_agent_filter = m₂.wizard_agent_filter) : m₁ = m₂ := by
  cases m₁
  cases m₂
  simp_all

theorem clamp_selections_idem (m : Model) :
    clamp_selections (clamp_selections m) = clamp_selections m := by
  have hpc : visiblePaneCount (clamp_selections m) = visiblePaneCount m :=
    visiblePaneCount_congr (clamp_selections_agent_panes m) (clamp_selections_filter_text m)
  refine modelExt rfl rfl rfl rfl rfl rfl rfl rfl ?_ ?_ rfl rfl
  · rw [clamp_selections_selected_pane (clamp_selections m), hpc,
      clamp_selections_selected_pane m]
    split_ifs <;> omega
  · rw [clamp_selections_selected_agent (clamp_selections m), clamp_selections_agents m,
      clamp_selections_selected_agent m]
    split_ifs <;> omega

theorem clamp_update_eq_self (n : Model) (P : List AgentPane) (N : List String)
    (hP : P = n.agent_panes) (hN : N = n.tab_names)
    (hn : ∃ m', n = clamp_selections m') :
    clamp_selections { n with agent_panes := P, tab_names := N } = n := by
  subst hP
  subst hN
  obtain ⟨m', rfl⟩ := hn
  show clamp_selections (clamp_selections m') = clamp_selections m'
  exact clamp_selections_idem m'

theorem clamp_update_panes_eq_self (n : Model) (P : List AgentPane)
    (hP : P = n.agent_panes) (hn : ∃ m', n = clamp_selections m') :
    clamp_selections { n with agent_panes := P } = n := by
  subst hP
  obtain ⟨m', rfl⟩ := hn
  show clamp_selections (clamp_selections m') = clamp_selections m'
  exact clamp_selections_idem m'

theorem resolveTab_of_get_none {ns : List String} {r : AgentPane} {idx : Nat}
    (hp : r.pending_tab_index = some idx) (hn : ns.get? idx = none) :
    resolveTab ns r = r := by
  unfold resolveTab
  rw [hp]
  dsimp only
  rw [hn]

theorem resolveTab_idem (ns : List String) (p : AgentPane) :
    resolveTab ns (resolveTab ns p) = resolveTab ns p := by
  cases hpi : p.pending_tab_index with
  | none => rw [resolveTab_of_pending_none hpi, resolveTab_of_pending_none hpi]
  | some idx =>
    cases hg : ns.get? idx with
    | none =>
      rw [resolveTab_of_get_none hpi hg, resolveTab_of_get_none hpi hg]
    | some nm =>
      by_cases hc : p.tab_name.isEmpty = true ∨ ns.contains p.tab_name = false
      · have h1 : resolveTab ns p = { p with tab_name := nm } :=
          (resolveTab_resolves hpi hg).1 hc
        rw [h1]
        have hnm : nm ∈ ns := by
          have := List.get?_mem hg
          exact this
        have hcontains : ns.contains nm = true := List.elem_eq_true_of_mem hnm
        by_cases hne : nm.isEmpty = true
        · have h2 := (resolveTab_resolves (r := { p with tab_name := nm })
            (show ({ p with tab_name := nm } : AgentPane).pending_tab_index = some idx
              from hpi) hg).1 (Or.inl hne)
          rw [h2]
        · have h2 := (resolveTab_resolves (r := { p with tab_name := nm })
            (show ({ p with tab_name := nm } : AgentPane).pending_tab_index = some idx
              from hpi) hg).2 ⟨by simpa using hne, hcontains⟩
          rw [h2]
      · push_neg at hc
        have h1 : resolveTab ns p = p := (resolveTab_resolves hpi hg).2
          ⟨by
            cases hb : p.tab_name.isEmpty
            · rfl
            · exact absurd hb hc.1, by
            cases hb : ns.contains p.tab_name
            · exact absurd hb hc.2
            · rfl⟩
        rw [h1, h1]

theorem apply_tab_update_tab_names (m : Model) (tabs : List TabInfo) :
    (apply_tab_update m tabs).tab_names = rosterNames tabs := rfl

theorem apply_tab_update_idem (m : Model) (tabs : List TabInfo) :
    apply_tab_update (apply_tab_update m tabs) tabs = apply_tab_update m tabs := by
  have hP : ∀ p ∈ (apply_tab_update m tabs).agent_panes,
      resolveTab (rosterNames tabs) p = p ∧ keepPane (rosterNames tabs) p = true := by
    intro p hp
    rw [apply_tab_update_agent_panes] at hp
    have hkeep := (List.mem_filter.mp hp).2
    obtain ⟨p0, hp0, hpe⟩ := List.mem_map.mp (List.mem_filter.mp hp).1
    exact ⟨by rw [← hpe]; exact resolveTab_idem _ p0, hkeep⟩
  have hmap : (apply_tab_update m tabs).agent_panes.map (resolveTab (rosterNames tabs)) =
      (apply_tab_update m tabs).agent_panes := by
    have h1 : ∀ p ∈ (apply_tab_update m tabs).agent_panes,
        resolveTab (rosterNames tabs) p = id p := fun p hp => (hP p hp).1
    rw [List.map_congr_left h1, List.map_id]
  have hfil : (apply_tab_update m tabs).agent_panes.filter (keepPane (rosterNames tabs)) =
      (apply_tab_update m tabs).agent_panes :=
    List.filter_eq_self.mpr (fun p hp => (hP p hp).2)
  show clamp_selections
      { apply_tab_update m tabs with
        agent_panes := ((apply_tab_update m tabs).agent_panes.map
          (resolveTab (rosterNames tabs))).filter (keepPane (rosterNames tabs)),
        tab_names := rosterNames tabs } = apply_tab_update m tabs
  rw [hmap, hfil]
  exact clamp_update_eq_self _ _ _ rfl (apply_tab_update_tab_names m tabs).symm ⟨_, rfl⟩

theorem updateFirst_some_inv {p : AgentPane → Bool} {f : AgentPane → AgentPane}
    {l l' : List AgentPane} (h : updateFirst p f l = some l') :
    ∃ q r, l.get? q = some r ∧ p r = true ∧
      (∀ j, j < q → ∀ x, l.get? j = some x → p x = false) ∧ l' = l.set q (f r) := by
  induction l generalizing l' with
  | nil => exact Option.noConfusion h
  | cons a t ih =>
    rw [updateFirst] at h
    by_cases ha : p a = true
    · rw [if_pos ha] at h
      injection h with h
      exact ⟨0, a, rfl, ha, fun j hj x hx => absurd hj (Nat.not_lt_zero j),
        by rw [← h]; rfl⟩
    · have ha2 : p a = false := by
        cases hb : p a
        · rfl
        · exact absurd hb ha
      rw [if_neg ha] at h
      cases hu : updateFirst p f t with
      | none =>
        rw [hu] at h
        exact Option.noConfusion h
      | some t2 =>
        rw [hu] at h
        injection h with h
        obtain ⟨q, r, hg, hp2, hlt, he⟩ := ih hu
        refine ⟨q + 1, r, hg, hp2, ?_, ?_⟩
        · intro j hj x hx
          cases j with
          | zero =>
            injection hx with hx
            rw [← hx]
            exact ha2
          | succ j0 => exact hlt j0 (Nat.lt_of_succ_lt_succ hj) x hx
        · rw [← h, he]
          rfl

theorem set_get_self {l : List AgentPane} {q : Nat} {x : AgentPane}
    (h : l.get? q = some x) : l.set q x = l := by
  induction l generalizing q with
  | nil => rfl
  | cons a t ih =>
    cases q with
    | zero =>
      injection h with h
      rw [List.set, h]
    | succ n =>
      rw [List.set, ih h]

theorem updOr_setStatus_idem (pred : AgentPane → Bool) (st : PaneStatus)
    (hpred : ∀ r, pred (setStatusFn st r) = pred r) (l : List AgentPane) :
    updOr pred (setStatusFn st) (updOr pred (setStatusFn st) l) =
      updOr pred (setStatusFn st) l := by
  cases hu : updateFirst pred (setStatusFn st) l with
  | none =>
    have h1 : updOr pred (setStatusFn st) l = l := by rw [updOr, hu]
    rw [h1]
    exact h1
  | some l2 =>
    have h1 : updOr pred (setStatusFn st) l = l2 := by rw [updOr, hu]
    rw [h1]
    obtain ⟨q, r, hg, hp, hlt, he⟩ := updateFirst_some_inv hu
    have hql : q < l.length := (List.get?_eq_some.mp hg).1
    have hg2 : l2.get? q = some (setStatusFn st r) := by
      rw [he, List.get?_eq_getElem?,
        List.getElem?_set_self (by simpa using hql)]
    have hp2 : pred (setStatusFn st r) = true := by rw [hpred]; exact hp
    have hu2 : updateFirst pred (setStatusFn st) l2 =
        some (l2.set q (setStatusFn st (setStatusFn st r))) :=
      updateFirst_eq_set hg2 hp2 (by
        intro j hj x hx
        rw [he, List.get?_eq_getElem?,
          List.getElem?_set_ne (fun hc => (Nat.ne_of_lt hj) hc.symm),
          ← List.get?_eq_getElem?] at hx
        exact hlt j hj x hx)
    show updOr pred (setStatusFn st) l2 = l2
    rw [updOr, hu2]
    show l2.set q (setStatusFn st (setStatusFn st r)) = l2
    have hcomp : setStatusFn st (setStatusFn st r) = setStatusFn st r := rfl
    rw [hcomp]
    exact set_get_self hg2

theorem titlePred_setStatusFn (i : Nat) (T : String) (st : PaneStatus) (r : AgentPane) :
    titlePred i T (setStatusFn st r) = titlePred i T r := rfl

theorem handle_command_pane_exited_eq (m : Model) (pid : Nat) (es : Option Int)
    (ctx : Ctx) :
    handle_command_pane_exited m pid es ctx =
      clamp_selections
        { m with
          agent_panes := updOr
            (titlePred pid ((ctxGet ctx "pane_title").getD ("pane:" ++ toString pid)))
            (setStatusFn (PaneStatus.Exited es)) m.agent_panes } := rfl

theorem handle_command_pane_exited_idem (m : Model) (pid : Nat) (es : Option Int)
    (ctx : Ctx) :
    handle_command_pane_exited (handle_command_pane_exited m pid es ctx) pid es ctx =
      handle_command_pane_exited m pid es ctx := by
  rw [handle_command_pane_exited_eq (handle_command_pane_exited m pid es ctx)]
  refine clamp_update_panes_eq_self _ _ ?_ ⟨_, rfl⟩
  have hn : (handle_command_pane_exited m pid es ctx).agent_panes =
      updOr (titlePred pid ((ctxGet ctx "pane_title").getD ("pane:" ++ toString pid)))
        (setStatusFn (PaneStatus.Exited es)) m.agent_panes := rfl
  rw [hn]
  exact updOr_setStatus_idem
    (titlePred pid ((ctxGet ctx "pane_title").getD ("pane:" ++ toString pid)))
    (PaneStatus.Exited es) (fun r => rfl) m.agent_panes

theorem handle_command_pane_rerun_eq (m : Model) (pid : Nat) (ctx : Ctx) :
    handle_command_pane_rerun m pid ctx =
      clamp_selections
        { m with
          agent_panes := updOr
            (titlePred pid ((ctxGet ctx "pane_title").getD ("pane:" ++ toString pid)))
            (setStatusFn PaneStatus.Running) m.agent_panes } := rfl

theorem handle_command_pane_rerun_idem (m : Model) (pid : Nat) (ctx : Ctx) :
    handle_command_pane_rerun (handle_command_pane_rerun m pid ctx) pid ctx =
      handle_command_pane_rerun m pid ctx := by
  rw [handle_command_pane_rerun_eq (handle_command_pane_rerun m pid ctx)]
  refine clamp_update_panes_eq_self _ _ ?_ ⟨_, rfl⟩
  have hn : (handle_command_pane_rerun m pid ctx).agent_panes =
      updOr (titlePred pid ((ctxGet ctx "pane_title").getD ("pane:" ++ toString pid)))
        (setStatusFn PaneStatus.Running) m.agent_panes := rfl
  rw [hn]
  exact updOr_setStatus_idem
    (titlePred pid ((ctxGet ctx "pane_title").getD ("pane:" ++ toString pid)))
    PaneStatus.Running (fun r => rfl) m.agent_panes

theorem handle_pane_closed_idem (m : Model) (pid : PaneId) :
    handle_pane_closed (handle_pane_closed m pid) pid = handle_pane_closed m pid := by
  cases pid with
  | Terminal i =>
    refine clamp_update_panes_eq_self _ _ ?_ ⟨_, rfl⟩
    have hn : (handle_pane_closed m (PaneId.Terminal i)).agent_panes =
        m.agent_panes.filter (fun p => p.pane_id != some i) := rfl
    rw [hn]
    exact List.filter_eq_self.mpr (fun p hp => (List.mem_filter.mp hp).2)
  | Plugin i =>
    refine clamp_update_panes_eq_self _ _ ?_ ⟨_, rfl⟩
    have hn : (handle_pane_closed m (PaneId.Plugin i)).agent_panes =
        m.agent_panes.filter (fun p => p.pane_id != some i) := rfl
    rw [hn]
    exact List.filter_eq_self.mpr (fun p hp => (List.mem_filter.mp hp).2)

theorem openedPred_of_id {i : Nat} {T : String} {p : AgentPane}
    (h : p.pane_id = some i) : openedPred i T p = true := by
  unfold openedPred
  rw [h]
  simp

theorem openedUpdate_char (pid : Nat) (T w a : String) (ct ft : Option String)
    (r : AgentPane) :
    openedUpdate pid T w a ct ft r =
      { pane_title := T,
        tab_name := openedTab ct ft r.tab_name,
        pending_tab_index := openedPending ct ft r.tab_name r.pending_tab_index,
        pane_id := some pid,
        workspace_path := if !w.isEmpty then w else r.workspace_path,
        agent_name := if !a.isEmpty then a else r.agent_name,
        status := PaneStatus.Running } := by
  unfold openedUpdate openedTab openedPending
  dsimp only
  by_cases h : r.tab_name.isEmpty = true
  · rw [if_pos h, if_pos h, if_pos h]
    cases ct with
    | some n => split_ifs <;> rfl
    | none =>
      cases ft with
      | some f => split_ifs <;> rfl
      | none => split_ifs <;> rfl
  · rw [if_neg h, if_neg h, if_neg h]
    split_ifs <;> rfl

theorem openedTab_idem (ct ft : Option String) (x : String) :
    openedTab ct ft (openedTab ct ft x) = openedTab ct ft x := by
  by_cases h : x.isEmpty = true
  · cases ct with
    | some n =>
      have h1 : openedTab (some n) ft x = n := by
        unfold openedTab
        rw [if_pos h]
      rw [h1]
      unfold openedTab
      split_ifs <;> rfl
    | none =>
      cases ft with
      | some f =>
        have h1 : openedTab none (some f) x = f := by
          unfold openedTab
          rw [if_pos h]
        rw [h1]
        unfold openedTab
        split_ifs <;> rfl
      | none =>
        have h1 : openedTab none none x = x := by
          unfold openedTab
          rw [if_pos h]
        rw [h1, h1]
  · have h1 : openedTab ct ft x = x := by
      unfold openedTab
      rw [if_neg h]
    rw [h1, h1]

theorem openedPending_absorb (ct ft : Option String) (x : String) (p : Option Nat) :
    openedPending ct ft (openedTab ct ft x) (openedPending ct ft x p) =
      openedPending ct ft x p := by
  by_cases h : x.isEmpty = true
  · cases ct with
    | some n =>
      have h1 : openedTab (some n) ft x = n := by
        unfold openedTab
        rw [if_pos h]
      have h2 : openedPending (some n) ft x p = none := by
        unfold openedPending
        rw [if_pos h]
      rw [h1, h2]
      unfold openedPending
      split_ifs <;> rfl
    | none =>
      cases ft with
      | some f =>
        have h1 : openedTab none (some f) x = f := by
          unfold openedTab
          rw [if_pos h]
        have h2 : openedPending none (some f) x p = none := by
          unfold openedPending
          rw [if_pos h]
        rw [h1, h2]
        unfold openedPending
        split_ifs <;> rfl
      | none =>
        have h1 : openedTab none none x = x := by
          unfold openedTab
          rw [if_pos h]
        have h2 : openedPending none none x p = p := by
          unfold openedPending
          rw [if_pos h]
        rw [h1, h2]
        exact h2
  · have h1 : openedTab ct ft x = x := by
      unfold openedTab
      rw [if_neg h]
    have h2 : openedPending ct ft x p = p := by
      unfold openedPending
      rw [if_neg h]
    rw [h1, h2]
    exact h2

theorem ite_self_absorb {c : Prop} [Decidable c] (w z : String) :
    (if c then w else (if c then w else z)) = if c then w else z := by
  split_ifs <;> rfl

theorem openedUpdate_idem (pid : Nat) (T w a : String) (ct ft : Option String)
    (r : AgentPane) :
    openedUpdate pid T w a ct ft (openedUpdate pid T w a ct ft r) =
      openedUpdate pid T w a ct ft r := by
  rw [openedUpdate_char pid T w a ct ft r, openedUpdate_char]
  dsimp only
  rw [openedTab_idem, openedPending_absorb, ite_self_absorb, ite_self_absorb]

theorem openedUpdate_newRec (pid : Nat) (T w a : String) (ct ft : Option String) :
    openedUpdate pid T w a ct ft (openedNewRec pid T w a ct ft) =
      openedNewRec pid T w a ct ft := by
  rw [openedUpdate_char]
  unfold openedNewRec
  dsimp only
  cases ct with
  | some n =>
    have h1 : ((some n).orElse fun _ => ft).getD "" = n := rfl
    rw [h1]
    have h2 : openedTab (some n) ft n = n := by
      unfold openedTab
      split_ifs <;> rfl
    have h3 : openedPending (some n) ft n none = none := by
      unfold openedPending
      split_ifs <;> rfl
    rw [h2, h3]
    split_ifs <;> rfl
  | none =>
    cases ft with
    | some f =>
      have h1 : ((none : Option String).orElse fun _ => some f).getD "" = f := rfl
      rw [h1]
      have h2 : openedTab none (some f) f = f := by
        unfold openedTab
        split_ifs <;> rfl
      have h3 : openedPending none (some f) f none = none := by
        unfold openedPending
        split_ifs <;> rfl
      rw [h2, h3]
      split_ifs <;> rfl
    | none =>
      have h1 : ((none : Option String).orElse fun _ => (none : Option String)).getD ""
          = "" := rfl
      rw [h1]
      have h2 : openedTab none none "" = "" := rfl
      have h3 : openedPending none none "" none = none := rfl
      rw [h2, h3]
      split_ifs <;> rfl

theorem openedPanes_idem (pid : Nat) (T w a : String) (ct ft : Option String)
    (l : List AgentPane) :
    openedPanes pid T w a ct ft (openedPanes pid T w a ct ft l) =
      openedPanes pid T w a ct ft l := by
  cases hu : updateFirst (openedPred pid T) (openedUpdate pid T w a ct ft) l with
  | some l2 =>
    have h1 : openedPanes pid T w a ct ft l = l2 := by rw [openedPanes, hu]
    rw [h1]
    obtain ⟨q, r, hg, hp, hlt, he⟩ := updateFirst_some_inv hu
    have hql : q < l.length := (List.get?_eq_some.mp hg).1
    have hg2 : l2.get? q = some (openedUpdate pid T w a ct ft r) := by
      rw [he, List.get?_eq_getElem?, List.getElem?_set_self (by simpa using hql)]
    have hp2 : openedPred pid T (openedUpdate pid T w a ct ft r) = true :=
      openedPred_of_id (openedUpdate_pane_id pid T w a ct ft r)
    have hu2 : updateFirst (openedPred pid T) (openedUpdate pid T w a ct ft) l2 =
        some (l2.set q (openedUpdate pid T w a ct ft (openedUpdate pid T w a ct ft r))) :=
      updateFirst_eq_set hg2 hp2 (by
        intro j hj x hx
        rw [he, List.get?_eq_getElem?,
          List.getElem?_set_ne (fun hc => (Nat.ne_of_lt hj) hc.symm),
          ← List.get?_eq_getElem?] at hx
        exact hlt j hj x hx)
    rw [openedPanes, hu2]
    show l2.set q (openedUpdate pid T w a ct ft (openedUpdate pid T w a ct ft r)) = l2
    rw [openedUpdate_idem]
    exact set_get_self hg2
  | none =>
    have hall := updateFirst_none_iff.mp hu
    have h1 : openedPanes pid T w a ct ft l =
        l ++ [openedNewRec pid T w a ct ft] := by rw [openedPanes, hu]
    rw [h1]
    have hg2 : (l ++ [openedNewRec pid T w a ct ft]).get? l.length =
        some (openedNewRec pid T w a ct ft) := List.get?_concat_length _ _
    have hp2 : openedPred pid T (openedNewRec pid T w a ct ft) = true :=
      openedPred_of_id rfl
    have hu2 : updateFirst (openedPred pid T) (openedUpdate pid T w a ct ft)
        (l ++ [openedNewRec pid T w a ct ft]) =
        some ((l ++ [openedNewRec pid T w a ct ft]).set l.length
          (openedUpdate pid T w a ct ft (openedNewRec pid T w a ct ft))) :=
      updateFirst_eq_set hg2 hp2 (by
        intro j hj x hx
        rw [List.get?_append hj] at hx
        exact hall x (List.get?_mem hx))
    rw [openedPanes, hu2]
    show (l ++ [openedNewRec pid T w a ct ft]).set l.length
        (openedUpdate pid T w a ct ft (openedNewRec pid T w a ct ft)) =
      l ++ [openedNewRec pid T w a ct ft]
    rw [openedUpdate_newRec]
    exact set_get_self hg2

theorem handle_command_pane_opened_eq (m : Model) (pid : Nat) (ctx : Ctx) :
    handle_command_pane_opened m pid ctx =
      clamp_selections
        { m with
          agent_panes := openedPanes pid
            ((ctxGet ctx "pane_title").getD ("pane:" ++ toString pid))
            ((ctxGet ctx "cwd").getD "") ((ctxGet ctx "agent").getD "")
            (ctxGet ctx "tab_name") m.tab_names.head? m.agent_panes } := rfl

theorem handle_command_pane_opened_idem (m : Model) (pid : Nat) (ctx : Ctx) :
    handle_command_pane_opened (handle_command_pane_opened m pid ctx) pid ctx =
      handle_command_pane_opened m pid ctx := by
  rw [handle_command_pane_opened_eq (handle_command_pane_opened m pid ctx)]
  refine clamp_update_panes_eq_self _ _ ?_ ⟨_, rfl⟩
  have htn : (handle_command_pane_opened m pid ctx).tab_names = m.tab_names := by
    rw [handle_command_pane_opened_eq]
    rfl
  have hn : (handle_command_pane_opened m pid ctx).agent_panes =
      openedPanes pid ((ctxGet ctx "pane_title").getD ("pane:" ++ toString pid))
        ((ctxGet ctx "cwd").getD "") ((ctxGet ctx "agent").getD "")
        (ctxGet ctx "tab_name") m.tab_names.head? m.agent_panes := rfl
  rw [htn, hn]
  exact openedPanes_idem _ _ _ _ _ _ _

theorem apply_pane_update_idem (m : Model) (u : PaneManifest) :
    apply_pane_update (apply_pane_update m u) u = apply_pane_update m u := by
  rw [apply_pane_update_flatten m, apply_pane_update_flatten (clamp_selections
    { m with
      agent_panes := paneFold m.agents m.tab_names m.agent_panes (flattenManifest u) })]
  refine clamp_update_panes_eq_self _ _ ?_ ⟨_, rfl⟩
  show paneFold m.agents m.tab_names
      (paneFold m.agents m.tab_names m.agent_panes (flattenManifest u))
      (flattenManifest u) =
    paneFold m.agents m.tab_names m.agent_panes (flattenManifest u)
  exact paneFold_idem _ _ _ _

/-!
## The rehydration pass as a fold trace
-/

theorem rebuildStep_char (agents : List Agent) (tnfi : String) (ti : Nat)
    (s : List AgentPane) (U : List Nat) (pane : PaneInfo) :
    rebuildStep agents tnfi ti (s, U) pane =
      match firstIdx pane.id (idsOf s) with
      | some q => (setStatusAt (paneStatusOf pane) q s, U)
      | none =>
        match U.getLast? with
        | some u => (adoptAt pane.id (paneStatusOf pane) u s, U.dropLast)
        | none =>
          match mkNewR agents tnfi ti pane with
          | some r => (s ++ [r], U)
          | none => (s, U) := by
  unfold rebuildStep
  dsimp only
  rw [show statusOf pane.exited pane.exit_status = paneStatusOf pane from rfl,
    updateFirst_eq_firstIdx]
  cases firstIdx pane.id (idsOf s) with
  | some q => rfl
  | none =>
    cases U.getLast? with
    | some u => rfl
    | none =>
      unfold mkNewR
      by_cases hp : (!pane.is_plugin) = true
      · rw [if_pos hp, if_pos hp]
        cases find_agent_by_command agents (pane.terminal_command.getD pane.title) <;> rfl
      · rw [if_neg hp, if_neg hp]
        rfl

theorem mkNewR_some {agents : List Agent} {tnfi : String} {ti : Nat}
    {pane : PaneInfo} {r : AgentPane} (h : mkNewR agents tnfi ti pane = some r) :
    r.pane_id = some pane.id ∧ r.status = paneStatusOf pane := by
  unfold mkNewR at h
  by_cases hp : (!pane.is_plugin) = true
  · rw [if_pos hp] at h
    cases hfa : find_agent_by_command agents (pane.terminal_command.getD pane.title) with
    | none =>
      rw [hfa] at h
      exact Option.noConfusion h
    | some agent =>
      rw [hfa] at h
      injection h with h
      rw [← h]
      exact ⟨rfl, rfl⟩
  · rw [if_neg hp] at h
    exact Option.noConfusion h

theorem getLast?_decomp {U : List Nat} {u : Nat} (h : U.getLast? = some u) :
    U.dropLast ++ [u] = U := by
  cases hU : U with
  | nil => rw [hU] at h; exact Option.noConfusion h
  | cons a t =>
    rw [← hU]
    have hne : U ≠ [] := by rw [hU]; exact List.cons_ne_nil a t
    have h2 : U.getLast hne = u := by
      rw [List.getLast?_eq_getLast U hne] at h
      injection h with h
    rw [← h2]
    exact List.dropLast_append_getLast hne

theorem mem_of_getLast? {U : List Nat} {u : Nat} (h : U.getLast? = some u) : u ∈ U := by
  rw [← getLast?_decomp h]
  exact List.mem_append.mpr (Or.inr (List.mem_singleton.mpr rfl))

theorem not_mem_dropLast_of_nodup {U : List Nat} {u : Nat} (hn : U.Nodup)
    (h : U.getLast? = some u) : u ∉ U.dropLast := by
  have hd := getLast?_decomp h
  rw [← hd] at hn
  have := List.disjoint_of_nodup_append hn
  intro hc
  exact this hc (List.mem_singleton.mpr rfl)

theorem collectUnmatched_nodup (panes : List AgentPane) (tn : String) :
    (collectUnmatched panes tn).Nodup := by
  unfold collectUnmatched
  exact (List.nodup_range _).filter _

theorem collectUnmatched_mem_iff (panes : List AgentPane) (tn : String) (q : Nat) :
    q ∈ collectUnmatched panes tn ↔
      ∃ r, panes.get? q = some r ∧ r.pane_id = none ∧ r.tab_name = tn := by
  unfold collectUnmatched
  rw [List.mem_filter, List.mem_range]
  constructor
  · rintro ⟨hq, hcond⟩
    cases hg : panes.get? q with
    | none =>
      rw [hg] at hcond
      exact absurd hcond (by simp)
    | some r =>
      rw [hg] at hcond
      simp only [Bool.and_eq_true, beq_iff_eq] at hcond
      exact ⟨r, rfl, hcond.1, hcond.2⟩
  · rintro ⟨r, hg, h1, h2⟩
    refine ⟨(List.get?_eq_some.mp hg).1, ?_⟩
    rw [hg]
    simp [h1, h2]

theorem rebuildInner_foldShape (agents : List Agent) (tnfi : String) (ti : Nat)
    (panes : List PaneInfo) :
    ∀ (s : List AgentPane) (U : List Nat), U.Nodup →
      (∀ u ∈ U, ∃ r, s.get? u = some r ∧ r.pane_id = none) →
      FoldShape (panes.map (fun p => (p.id, paneStatusOf p)))
        s (panes.foldl (rebuildStep agents tnfi ti) (s, U)).1 := by
  induction panes with
  | nil =>
    intro s U hnd hU
    exact FoldShape.nil s
  | cons p panes ih =>
    intro s U hnd hU
    show FoldShape _ s
      (panes.foldl (rebuildStep agents tnfi ti) (rebuildStep agents tnfi ti (s, U) p)).1
    cases hf : firstIdx p.id (idsOf s) with
    | some q =>
      have hstep : rebuildStep agents tnfi ti (s, U) p =
          (setStatusAt (paneStatusOf p) q s, U) := by
        rw [rebuildStep_char, hf]
      rw [hstep]
      refine FoldShape.cons _ _ _ (setStatusAt (paneStatusOf p) q s) _
        (StepShape.write s q hf) (ih _ U hnd ?_)
      intro u hu
      obtain ⟨r, hg, hr⟩ := hU u hu
      by_cases hqu : u = q
      · exfalso
        subst hqu
        have h1 := firstIdx_get hf
        rw [idsOf_get?, hg] at h1
        injection h1 with h1
        have h2 : r.pane_id = some p.id := h1
        rw [hr] at h2
        exact Option.noConfusion h2
      · exact ⟨r, by rw [setStatusAt_get?_ne hqu]; exact hg, hr⟩
    | none =>
      cases hL : U.getLast? with
      | some u =>
        obtain ⟨r, hg, hr⟩ := hU u (mem_of_getLast? hL)
        have hstep : rebuildStep agents tnfi ti (s, U) p =
            (s.set u { r with pane_id := some p.id, status := paneStatusOf p },
              U.dropLast) := by
          rw [rebuildStep_char, hf, hL]
          dsimp only
          rw [adoptAt_eq_set, hg]
        rw [hstep]
        refine FoldShape.cons _ _ _ _ _ (StepShape.adopt s u r hf hg hr)
          (ih _ U.dropLast (hnd.sublist (List.dropLast_sublist U)) ?_)
        intro u2 hu2
        have hu2U : u2 ∈ U := (List.dropLast_sublist U).subset hu2
        obtain ⟨r2, hg2, hr2⟩ := hU u2 hu2U
        have hne : u ≠ u2 := by
          intro hc
          exact not_mem_dropLast_of_nodup hnd hL (hc ▸ hu2)
        refine ⟨r2, ?_, hr2⟩
        rw [List.get?_eq_getElem?, List.getElem?_set_ne hne, ← List.get?_eq_getElem?]
        exact hg2
      | none =>
        cases hn : mkNewR agents tnfi ti p with
        | some r =>
          have hstep : rebuildStep agents tnfi ti (s, U) p = (s ++ [r], U) := by
            rw [rebuildStep_char, hf, hL, hn]
          rw [hstep]
          refine FoldShape.cons _ _ _ _ _
            (StepShape.grow s r hf (mkNewR_some hn).1 (mkNewR_some hn).2)
            (ih _ U hnd ?_)
          intro u hu
          obtain ⟨r2, hg2, hr2⟩ := hU u hu
          refine ⟨r2, ?_, hr2⟩
          rw [List.get?_append (List.get?_eq_some.mp hg2).1]
          exact hg2
        | none =>
          have hstep : rebuildStep agents tnfi ti (s, U) p = (s, U) := by
            rw [rebuildStep_char, hf, hL, hn]
          rw [hstep]
          exact FoldShape.cons _ _ _ _ _ (StepShape.skip s hf) (ih _ U hnd hU)

theorem rebuildEntry_foldShape (agents : List Agent) (s : List AgentPane)
    (e : RebuildEntry) : FoldShape (entryWrites e) s (rebuildEntry agents s e) := by
  unfold rebuildEntry entryWrites
  dsimp only
  by_cases hc : (!e.1.isEmpty) = true
  · rw [if_pos hc]
    refine rebuildInner_foldShape agents e.1 e.2.1 e.2.2 s _
      (collectUnmatched_nodup s e.1) ?_
    intro u hu
    obtain ⟨r, hg, h1, h2⟩ := (collectUnmatched_mem_iff s e.1 u).mp hu
    exact ⟨r, hg, h1⟩
  · rw [if_neg hc]
    refine rebuildInner_foldShape agents e.1 e.2.1 e.2.2 s [] List.nodup_nil ?_
    intro u hu
    exact absurd hu (List.not_mem_nil u)

theorem entriesWrites_cons (e : RebuildEntry) (E : List RebuildEntry) :
    entriesWrites (e :: E) = entryWrites e ++ entriesWrites E := rfl

theorem rebuildFold_cons (agents : List Agent) (s : List AgentPane)
    (e : RebuildEntry) (E : List RebuildEntry) :
    rebuildFold agents s (e :: E) = rebuildFold agents (rebuildEntry agents s e) E := rfl

theorem rebuildFold_foldShape (agents : List Agent) (E : List RebuildEntry) :
    ∀ s, FoldShape (entriesWrites E) s (rebuildFold agents s E) := by
  induction E with
  | nil =>
    intro s
    exact FoldShape.nil s
  | cons e E ih =>
    intro s
    rw [rebuildFold_cons, entriesWrites_cons]
    exact (rebuildEntry_foldShape agents s e).comp (ih _)

theorem rebuildTab_fold_eq (agents : List Agent) (session : SessionInfo)
    (s : List AgentPane) :
    session.panes.foldl (rebuildTab agents session.tabs) s =
      rebuildFold agents s (entriesOf session) := by
  unfold rebuildFold entriesOf
  rw [List.foldl_map]
  rfl

theorem rebuildFold_append (agents : List Agent) (s : List AgentPane)
    (E1 E2 : List RebuildEntry) :
    rebuildFold agents s (E1 ++ E2) = rebuildFold agents (rebuildFold agents s E1) E2 := by
  unfold rebuildFold
  rw [List.foldl_append]

theorem pinnedName_some (c : String) (ss : List SessionInfo) :
    pinnedName (some c) ss = some c := by
  induction ss with
  | nil => rfl
  | cons s1 rest ih => exact ih

theorem pinnedName_none_cons (s1 : SessionInfo) (rest : List SessionInfo) :
    pinnedName none (s1 :: rest) = some s1.name := by
  show pinnedName (some s1.name) rest = some s1.name
  exact pinnedName_some s1.name rest

theorem flattenSessions_none_cons (s1 : SessionInfo) (rest : List SessionInfo) :
    flattenSessions none (s1 :: rest) =
      flattenSessions (some s1.name) (s1 :: rest) := by
  show entriesOf s1 ++ flattenSessions (some s1.name) rest =
    (if s1.name == s1.name then entriesOf s1 else []) ++ flattenSessions (some s1.name) rest
  rw [if_pos (beq_self_eq_true s1.name)]

theorem rebuildSessions_eq (agents : List Agent) (ss : List SessionInfo) :
    ∀ (acc1 : Option String) (s : List AgentPane),
      ss.foldl (rebuildSession agents) (acc1, s) =
        (pinnedName acc1 ss, rebuildFold agents s (flattenSessions acc1 ss)) := by
  induction ss with
  | nil =>
    intro acc1 s
    cases acc1 <;> rfl
  | cons s1 rest ih =>
    intro acc1 s
    show rest.foldl (rebuildSession agents) (rebuildSession agents (acc1, s) s1) = _
    cases acc1 with
    | none =>
      have h1 : rebuildSession agents (none, s) s1 =
          (some s1.name, rebuildFold agents s (entriesOf s1)) := by
        unfold rebuildSession
        dsimp only
        rw [rebuildTab_fold_eq]
      rw [h1, ih]
      rw [show flattenSessions none (s1 :: rest) =
        entriesOf s1 ++ flattenSessions (some s1.name) rest from rfl, rebuildFold_append]
      rfl
    | some c =>
      by_cases hc : (s1.name == c) = true
      · have h1 : rebuildSession agents (some c, s) s1 =
            (some c, rebuildFold agents s (entriesOf s1)) := by
          unfold rebuildSession
          dsimp only
          rw [if_pos hc, rebuildTab_fold_eq]
        rw [h1, ih]
        have h2 : flattenSessions (some c) (s1 :: rest) =
            entriesOf s1 ++ flattenSessions (some c) rest := by
          rw [show flattenSessions (some c) (s1 :: rest) =
            (if s1.name == c then entriesOf s1 else []) ++ flattenSessions (some c) rest
            from rfl, if_pos hc]
        rw [h2, rebuildFold_append]
        rfl
      · have h1 : rebuildSession agents (some c, s) s1 = (some c, s) := by
          unfold rebuildSession
          dsimp only
          rw [if_neg hc]
        rw [h1, ih]
        have h2 : flattenSessions (some c) (s1 :: rest) = flattenSessions (some c) rest := by
          rw [show flattenSessions (some c) (s1 :: rest) =
            (if s1.name == c then entriesOf s1 else []) ++ flattenSessions (some c) rest
            from rfl, if_neg hc]
          rw [List.nil_append]
        rw [h2, pinnedName_some, pinnedName_some]

theorem shapeOf_get? (l : List AgentPane) (q : Nat) :
    (shapeOf l).get? q = (l.get? q).map (fun r => (r.pane_id, r.tab_name)) := by
  simp [shapeOf, List.get?_map]

theorem collectUnmatched_congr {s t : List AgentPane} (h : shapeOf s = shapeOf t)
    (tn : String) : collectUnmatched s tn = collectUnmatched t tn := by
  unfold collectUnmatched
  have hlen : s.length = t.length := by
    rw [← shapeOf_length s, h, shapeOf_length]
  rw [hlen]
  apply List.filter_congr
  intro q hq
  have h2 : (s.get? q).map (fun r => (r.pane_id, r.tab_name)) =
      (t.get? q).map (fun r => (r.pane_id, r.tab_name)) := by
    rw [← shapeOf_get?, ← shapeOf_get?, h]
  cases hgs : s.get? q with
  | none =>
    cases hgt : t.get? q with
    | none => rfl
    | some rt =>
      rw [hgs, hgt] at h2
      exact absurd h2 (by simp)
  | some rs =>
    cases hgt : t.get? q with
    | none =>
      rw [hgs, hgt] at h2
      exact absurd h2 (by simp)
    | some rt =>
      rw [hgs, hgt] at h2
      injection h2 with h2
      have hpi : rs.pane_id = rt.pane_id := congrArg Prod.fst h2
      have htn : rs.tab_name = rt.tab_name := congrArg Prod.snd h2
      dsimp only
      rw [hpi, htn]

theorem rebuildInnerPass2 (agents : List Agent) (tnfi : String) (ti : Nat)
    (t : List AgentPane) (panes : List PaneInfo) :
    ∀ (s : List AgentPane) (U : List Nat), shapeOf s = shapeOf t →
      (U = [] ∨ U = (if !tnfi.isEmpty then collectUnmatched t tnfi else [])) →
      (∀ P ∈ panes, some P.id ∈ idsOf t ∨
        ((if !tnfi.isEmpty then collectUnmatched t tnfi else []) = [] ∧
          mkNewR agents tnfi ti P = none)) →
      shapeOf (panes.foldl (rebuildStep agents tnfi ti) (s, U)).1 = shapeOf t ∧
      ∀ q, (panes.foldl (rebuildStep agents tnfi ti) (s, U)).1.get? q =
        applyLastW (lastW (idsOf t) q (panes.map (fun p => (p.id, paneStatusOf p))))
          (s.get? q) := by
  induction panes with
  | nil =>
    intro s U hsh hU hset
    exact ⟨hsh, fun q => rfl⟩
  | cons p panes ih =>
    intro s U hsh hU hset
    have hids : idsOf s = idsOf t := by
      rw [idsOf_eq_shape_fst, idsOf_eq_shape_fst, hsh]
    show shapeOf (panes.foldl (rebuildStep agents tnfi ti)
        (rebuildStep agents tnfi ti (s, U) p)).1 = shapeOf t ∧
      ∀ q, (panes.foldl (rebuildStep agents tnfi ti)
        (rebuildStep agents tnfi ti (s, U) p)).1.get? q =
        applyLastW (lastW (idsOf t) q
          ((p :: panes).map (fun p => (p.id, paneStatusOf p)))) (s.get? q)
    have hmap : (p :: panes).map (fun p => (p.id, paneStatusOf p)) =
        (p.id, paneStatusOf p) :: panes.map (fun p => (p.id, paneStatusOf p)) := rfl
    cases hf : firstIdx p.id (idsOf s) with
    | some q0 =>
      have hq0I : firstIdx p.id (idsOf t) = some q0 := by rwa [hids] at hf
      have hstep : rebuildStep agents tnfi ti (s, U) p =
          (setStatusAt (paneStatusOf p) q0 s, U) := by
        rw [rebuildStep_char, hf]
      rw [hstep]
      have hsh2 : shapeOf (setStatusAt (paneStatusOf p) q0 s) = shapeOf t := by
        rw [shapeOf_setStatusAt]
        exact hsh
      obtain ⟨h1, h2⟩ := ih _ U hsh2 hU (fun P hP => hset P (List.mem_cons_of_mem p hP))
      refine ⟨h1, ?_⟩
      intro q
      rw [h2 q, hmap]
      cases hlw : lastW (idsOf t) q (panes.map (fun p => (p.id, paneStatusOf p))) with
      | some st =>
        rw [lastW_cons_of_some hlw, applyLastW_some, applyLastW_some]
        by_cases hqq : q = q0
        · subst hqq
          rw [setStatusAt_get?_self]
          cases s.get? q <;> rfl
        · rw [setStatusAt_get?_ne hqq]
      | none =>
        by_cases hqq : q = q0
        · subst hqq
          rw [lastW_cons_of_hit hq0I hlw, applyLastW_none, applyLastW_some,
            setStatusAt_get?_self]
        · rw [lastW_cons_of_miss (fun hc => hqq (by
              rw [hq0I] at hc
              injection hc with hc
              exact hc.symm)) hlw,
            applyLastW_none, applyLastW_none, setStatusAt_get?_ne hqq]
    | none =>
      have hfI : firstIdx p.id (idsOf t) = none := by rwa [hids] at hf
      have hcc : (if !tnfi.isEmpty then collectUnmatched t tnfi else []) = [] ∧
          mkNewR agents tnfi ti p = none := by
        rcases hset p (List.mem_cons_self p panes) with hm | hcc
        · exact absurd hm (firstIdx_eq_none_iff.mp hfI)
        · exact hcc
      have hUe : U = [] := by
        rcases hU with h | h
        · exact h
        · rw [h]
          exact hcc.1
      subst hUe
      have hstep : rebuildStep agents tnfi ti (s, []) p = (s, []) := by
        rw [rebuildStep_char, hf]
        rw [show ([] : List Nat).getLast? = (none : Option Nat) from rfl]
        dsimp only
        rw [hcc.2]
      rw [hstep]
      obtain ⟨h1, h2⟩ := ih _ [] hsh (Or.inl rfl)
        (fun P hP => hset P (List.mem_cons_of_mem p hP))
      refine ⟨h1, ?_⟩
      intro q
      rw [h2 q, hmap]
      cases hlw : lastW (idsOf t) q (panes.map (fun p => (p.id, paneStatusOf p))) with
      | some st => rw [lastW_cons_of_some hlw]
      | none =>
        rw [lastW_cons_of_miss (by rw [hfI]; exact fun hc => Option.noConfusion hc) hlw]

theorem rebuildEntryPass2 (agents : List Agent) (t : List AgentPane)
    (e : RebuildEntry) (s : List AgentPane) (hsh : shapeOf s = shapeOf t)
    (hset : ∀ P ∈ e.2.2, some P.id ∈ idsOf t ∨
      ((if !e.1.isEmpty then collectUnmatched t e.1 else []) = [] ∧
        mkNewR agents e.1 e.2.1 P = none)) :
    shapeOf (rebuildEntry agents s e) = shapeOf t ∧
    ∀ q, (rebuildEntry agents s e).get? q =
      applyLastW (lastW (idsOf t) q (entryWrites e)) (s.get? q) := by
  unfold rebuildEntry entryWrites
  dsimp only
  by_cases hc : (!e.1.isEmpty) = true
  · rw [if_pos hc]
    refine rebuildInnerPass2 agents e.1 e.2.1 t e.2.2 s _ hsh (Or.inr ?_) ?_
    · rw [if_pos hc]
      exact collectUnmatched_congr hsh e.1
    · intro P hP
      rcases hset P hP with hm | ⟨h1, h2⟩
      · exact Or.inl hm
      · rw [if_pos hc] at h1
        exact Or.inr ⟨by rw [if_pos hc]; exact h1, h2⟩
  · rw [if_neg hc]
    refine rebuildInnerPass2 agents e.1 e.2.1 t e.2.2 s [] hsh (Or.inl rfl) ?_
    intro P hP
    rcases hset P hP with hm | ⟨h1, h2⟩
    · exact Or.inl hm
    · exact Or.inr ⟨by rw [if_neg hc], h2⟩

theorem rebuildFoldPass2 (agents : List Agent) (t : List AgentPane)
    (E : List RebuildEntry) :
    ∀ s, shapeOf s = shapeOf t →
      (∀ e ∈ E, ∀ P ∈ e.2.2, some P.id ∈ idsOf t ∨
        ((if !e.1.isEmpty then collectUnmatched t e.1 else []) = [] ∧
          mkNewR agents e.1 e.2.1 P = none)) →
      shapeOf (rebuildFold agents s E) = shapeOf t ∧
      ∀ q, (rebuildFold agents s E).get? q =
        applyLastW (lastW (idsOf t) q (entriesWrites E)) (s.get? q) := by
  induction E with
  | nil =>
    intro s hsh hset
    exact ⟨hsh, fun q => rfl⟩
  | cons e E ih =>
    intro s hsh hset
    rw [rebuildFold_cons, entriesWrites_cons]
    obtain ⟨h1, h2⟩ := rebuildEntryPass2 agents t e s hsh
      (hset e (List.mem_cons_self e E))
    obtain ⟨h3, h4⟩ := ih _ h1 (fun e2 he2 => hset e2 (List.mem_cons_of_mem e he2))
    refine ⟨h3, ?_⟩
    intro q
    rw [h4 q, h2 q, applyLastW_comp, lastW_append]

theorem getLast?_eq_none {U : List Nat} (h : U.getLast? = none) : U = [] := by
  cases U with
  | nil => rfl
  | cons a t =>
    exfalso
    have h2 : (a :: t).getLast?.isSome = true :=
      List.getLast?_isSome.mpr (List.cons_ne_nil a t)
    rw [h] at h2
    exact Bool.noConfusion h2

theorem rebuildInner_settled_empty (agents : List Agent) (tnfi : String) (ti : Nat)
    (panes : List PaneInfo) :
    ∀ s, ∀ P ∈ panes,
      some P.id ∈ idsOf (panes.foldl (rebuildStep agents tnfi ti) (s, ([] : List Nat))).1 ∨
        mkNewR agents tnfi ti P = none := by
  induction panes with
  | nil =>
    intro s P hP
    exact absurd hP (List.not_mem_nil P)
  | cons p panes ih =>
    intro s P hP
    show some P.id ∈ idsOf (panes.foldl (rebuildStep agents tnfi ti)
      (rebuildStep agents tnfi ti (s, []) p)).1 ∨ _
    cases hf : firstIdx p.id (idsOf s) with
    | some q0 =>
      have hstep : rebuildStep agents tnfi ti (s, ([] : List Nat)) p =
          (setStatusAt (paneStatusOf p) q0 s, []) := by
        rw [rebuildStep_char, hf]
      rw [hstep]
      rcases List.mem_cons.mp hP with rfl | hPt
      · left
        refine (rebuildInner_foldShape agents tnfi ti panes _ [] List.nodup_nil
          (fun u hu => absurd hu (List.not_mem_nil u))).mem_mono ?_
        rw [idsOf_setStatusAt]
        exact List.get?_mem (firstIdx_get hf)
      · exact ih _ P hPt
    | none =>
      cases hn : mkNewR agents tnfi ti p with
      | some r =>
        have hstep : rebuildStep agents tnfi ti (s, ([] : List Nat)) p =
            (s ++ [r], []) := by
          rw [rebuildStep_char, hf]
          rw [show ([] : List Nat).getLast? = (none : Option Nat) from rfl]
          dsimp only
          rw [hn]
        rw [hstep]
        rcases List.mem_cons.mp hP with rfl | hPt
        · left
          refine (rebuildInner_foldShape agents tnfi ti panes _ [] List.nodup_nil
            (fun u hu => absurd hu (List.not_mem_nil u))).mem_mono ?_
          rw [idsOf_append]
          refine List.mem_append.mpr (Or.inr ?_)
          simp [idsOf, (mkNewR_some hn).1]
        · exact ih _ P hPt
      | none =>
        have hstep : rebuildStep agents tnfi ti (s, ([] : List Nat)) p = (s, []) := by
          rw [rebuildStep_char, hf]
          rw [show ([] : List Nat).getLast? = (none : Option Nat) from rfl]
          dsimp only
          rw [hn]
        rw [hstep]
        rcases List.mem_cons.mp hP with rfl | hPt
        · exact Or.inr hn
        · exact ih _ P hPt

theorem rebuildInner_settled (agents : List Agent) (tnfi : String) (ti : Nat)
    (panes : List PaneInfo) :
    ∀ (s : List AgentPane) (U : List Nat), U.Nodup →
      (∀ u ∈ U, ∃ r, s.get? u = some r ∧ r.pane_id = none) →
      (∀ q r, s.get? q = some r → r.pane_id = none → r.tab_name = tnfi → q ∈ U) →
      ∀ P ∈ panes,
        some P.id ∈ idsOf (panes.foldl (rebuildStep agents tnfi ti) (s, U)).1 ∨
        ((∀ q r, (panes.foldl (rebuildStep agents tnfi ti) (s, U)).1.get? q = some r →
            r.pane_id = none → r.tab_name ≠ tnfi) ∧ mkNewR agents tnfi ti P = none) := by
  induction panes with
  | nil =>
    intro s U _ _ _ P hP
    exact absurd hP (List.not_mem_nil P)
  | cons p panes ih =>
    intro s U hnd hpend hall P hP
    show some P.id ∈ idsOf (panes.foldl (rebuildStep agents tnfi ti)
        (rebuildStep agents tnfi ti (s, U) p)).1 ∨
      ((∀ q r, (panes.foldl (rebuildStep agents tnfi ti)
          (rebuildStep agents tnfi ti (s, U) p)).1.get? q = some r →
          r.pane_id = none → r.tab_name ≠ tnfi) ∧ mkNewR agents tnfi ti P = none)
    cases hf : firstIdx p.id (idsOf s) with
    | some q0 =>
      have hstep : rebuildStep agents tnfi ti (s, U) p =
          (setStatusAt (paneStatusOf p) q0 s, U) := by
        rw [rebuildStep_char, hf]
      rw [hstep]
      have hpend2 : ∀ u ∈ U, ∃ r, (setStatusAt (paneStatusOf p) q0 s).get? u = some r ∧
          r.pane_id = none := by
        intro u hu
        obtain ⟨r, hg, hr⟩ := hpend u hu
        by_cases hqu : u = q0
        · exfalso
          subst hqu
          have h1 := firstIdx_get hf
          rw [idsOf_get?, hg] at h1
          injection h1 with h1
          have h2 : r.pane_id = some p.id := h1
          rw [hr] at h2
          exact Option.noConfusion h2
        · exact ⟨r, by rw [setStatusAt_get?_ne hqu]; exact hg, hr⟩
      have hall2 : ∀ q r, (setStatusAt (paneStatusOf p) q0 s).get? q = some r →
          r.pane_id = none → r.tab_name = tnfi → q ∈ U := by
        intro q r hg hrid hrtn
        by_cases hqq : q = q0
        · subst hqq
          rw [setStatusAt_get?_self] at hg
          cases hgs : s.get? q with
          | none =>
            rw [hgs] at hg
            exact Option.noConfusion hg
          | some r0 =>
            rw [hgs] at hg
            injection hg with hg
            have hid0 : r0.pane_id = none := by
              have : (setStatusFn (paneStatusOf p) r0).pane_id = r0.pane_id := rfl
              rw [← hg, this] at hrid
              exact hrid
            have htn0 : r0.tab_name = tnfi := by
              have : (setStatusFn (paneStatusOf p) r0).tab_name = r0.tab_name := rfl
              rw [← hg, this] at hrtn
              exact hrtn
            exact hall q r0 hgs hid0 htn0
        · rw [setStatusAt_get?_ne hqq] at hg
          exact hall q r hg hrid hrtn
      rcases List.mem_cons.mp hP with rfl | hPt
      · left
        refine (rebuildInner_foldShape agents tnfi ti panes _ U hnd hpend2).mem_mono ?_
        rw [idsOf_setStatusAt]
        exact List.get?_mem (firstIdx_get hf)
      · exact ih _ U hnd hpend2 hall2 P hPt
    | none =>
      cases hL : U.getLast? with
      | some u =>
        obtain ⟨r, hg, hr⟩ := hpend u (mem_of_getLast? hL)
        have hstep : rebuildStep agents tnfi ti (s, U) p =
            (s.set u { r with pane_id := some p.id, status := paneStatusOf p },
              U.dropLast) := by
          rw [rebuildStep_char, hf, hL]
          dsimp only
          rw [adoptAt_eq_set, hg]
        rw [hstep]
        have hnd2 : U.dropLast.Nodup := hnd.sublist (List.dropLast_sublist U)
        have hpend2 : ∀ u2 ∈ U.dropLast, ∃ r2,
            (s.set u { r with pane_id := some p.id, status := paneStatusOf p }).get? u2 =
              some r2 ∧ r2.pane_id = none := by
          intro u2 hu2
          obtain ⟨r2, hg2, hr2⟩ := hpend u2 ((List.dropLast_sublist U).subset hu2)
          have hne : u ≠ u2 := by
            intro hc
            exact not_mem_dropLast_of_nodup hnd hL (hc ▸ hu2)
          refine ⟨r2, ?_, hr2⟩
          rw [List.get?_eq_getElem?, List.getElem?_set_ne hne, ← List.get?_eq_getElem?]
          exact hg2
        have hall2 : ∀ q r2,
            (s.set u { r with pane_id := some p.id, status := paneStatusOf p }).get? q =
              some r2 → r2.pane_id = none → r2.tab_name = tnfi → q ∈ U.dropLast := by
          intro q r2 hg2 hrid hrtn
          by_cases hqu : q = u
          · exfalso
            subst hqu
            have hul : q < s.length := (List.get?_eq_some.mp hg).1
            rw [List.get?_eq_getElem?, List.getElem?_set_self (by simpa using hul)] at hg2
            injection hg2 with hg2
            rw [← hg2] at hrid
            exact Option.noConfusion hrid
          · rw [List.get?_eq_getElem?,
              List.getElem?_set_ne (fun hc => hqu hc.symm), ← List.get?_eq_getElem?] at hg2
            have hqU : q ∈ U := hall q r2 hg2 hrid hrtn
            have hdec := getLast?_decomp hL
            rw [← hdec] at hqU
            rcases List.mem_append.mp hqU with h | h
            · exact h
            · exact absurd (List.mem_singleton.mp h) hqu
        rcases List.mem_cons.mp hP with rfl | hPt
        · left
          refine (rebuildInner_foldShape agents tnfi ti panes _ U.dropLast hnd2
            hpend2).mem_mono ?_
          have hgu : (idsOf (s.set u
              { r with pane_id := some P.id, status := paneStatusOf P })).get? u =
              some (some P.id) := by
            rw [idsOf_get?, List.get?_eq_getElem?,
              List.getElem?_set_self (by simpa using (List.get?_eq_some.mp hg).1)]
            rfl
          exact List.get?_mem hgu
        · exact ih _ U.dropLast hnd2 hpend2 hall2 P hPt
      | none =>
        have hUe : U = [] := getLast?_eq_none hL
        subst hUe
        cases hn : mkNewR agents tnfi ti p with
        | some r =>
          have hstep : rebuildStep agents tnfi ti (s, ([] : List Nat)) p =
              (s ++ [r], []) := by
            rw [rebuildStep_char, hf]
            rw [show ([] : List Nat).getLast? = (none : Option Nat) from rfl]
            dsimp only
            rw [hn]
          rw [hstep]
          have hpend2 : ∀ u ∈ ([] : List Nat), ∃ r2, (s ++ [r]).get? u = some r2 ∧
              r2.pane_id = none := fun u hu => absurd hu (List.not_mem_nil u)
          have hall2 : ∀ q r2, (s ++ [r]).get? q = some r2 → r2.pane_id = none →
              r2.tab_name = tnfi → q ∈ ([] : List Nat) := by
            intro q r2 hg2 hrid hrtn
            rcases Nat.lt_trichotomy q s.length with hlt | heq | hgt
            · rw [List.get?_append hlt] at hg2
              exact hall q r2 hg2 hrid hrtn
            · exfalso
              subst heq
              rw [List.get?_concat_length] at hg2
              injection hg2 with hg2
              rw [← hg2, (mkNewR_some hn).1] at hrid
              exact Option.noConfusion hrid
            · exfalso
              have hnn : (s ++ [r]).get? q = none := by
                rw [List.get?_eq_none]
                simpa using hgt
              rw [hnn] at hg2
              exact Option.noConfusion hg2
          rcases List.mem_cons.mp hP with rfl | hPt
          · left
            refine (rebuildInner_foldShape agents tnfi ti panes _ [] List.nodup_nil
              hpend2).mem_mono ?_
            rw [idsOf_append]
            refine List.mem_append.mpr (Or.inr ?_)
            simp [idsOf, (mkNewR_some hn).1]
          · exact ih _ [] List.nodup_nil hpend2 hall2 P hPt
        | none =>
          have hstep : rebuildStep agents tnfi ti (s, ([] : List Nat)) p = (s, []) := by
            rw [rebuildStep_char, hf]
            rw [show ([] : List Nat).getLast? = (none : Option Nat) from rfl]
            dsimp only
            rw [hn]
          rw [hstep]
          rcases List.mem_cons.mp hP with rfl | hPt
          · right
            refine ⟨?_, hn⟩
            intro q r2 hgF hrid hrtn
            have hback := (rebuildInner_foldShape agents tnfi ti panes s []
              List.nodup_nil (fun u hu => absurd hu (List.not_mem_nil u))).pending_stable
              hgF hrid
            exact absurd (hall q r2 hback hrid hrtn) (List.not_mem_nil q)
          · exact ih _ [] List.nodup_nil
              (fun u hu => absurd hu (List.not_mem_nil u)) hall P hPt

theorem rebuildEntry_settled (agents : List Agent) (e : RebuildEntry)
    (s : List AgentPane) :
    ∀ P ∈ e.2.2,
      some P.id ∈ idsOf (rebuildEntry agents s e) ∨
        ((e.1.isEmpty = true ∨
          ∀ q r, (rebuildEntry agents s e).get? q = some r → r.pane_id = none →
            r.tab_name ≠ e.1) ∧ mkNewR agents e.1 e.2.1 P = none) := by
  intro P hP
  unfold rebuildEntry
  dsimp only
  by_cases hc : (!e.1.isEmpty) = true
  · rw [if_pos hc]
    have hres := rebuildInner_settled agents e.1 e.2.1 e.2.2 s (collectUnmatched s e.1)
      (collectUnmatched_nodup s e.1)
      (by
        intro u hu
        obtain ⟨r, hg, h1, h2⟩ := (collectUnmatched_mem_iff s e.1 u).mp hu
        exact ⟨r, hg, h1⟩)
      (by
        intro q r hg h1 h2
        exact (collectUnmatched_mem_iff s e.1 q).mpr ⟨r, hg, h1, h2⟩)
      P hP
    rcases hres with h | ⟨h1, h2⟩
    · exact Or.inl h
    · exact Or.inr ⟨Or.inr h1, h2⟩
  · rw [if_neg hc]
    rcases rebuildInner_settled_empty agents e.1 e.2.1 e.2.2 s P hP with h | h
    · exact Or.inl h
    · refine Or.inr ⟨Or.inl ?_, h⟩
      cases hb : e.1.isEmpty
      · exfalso
        apply hc
        rw [hb]
        rfl
      · rfl

theorem rebuildFold_settled (agents : List Agent) (E : List RebuildEntry) :
    ∀ s, ∀ e ∈ E, ∀ P ∈ e.2.2,
      some P.id ∈ idsOf (rebuildFold agents s E) ∨
        ((if !e.1.isEmpty then collectUnmatched (rebuildFold agents s E) e.1 else [])
            = [] ∧ mkNewR agents e.1 e.2.1 P = none) := by
  induction E with
  | nil =>
    intro s e he
    exact absurd he (List.not_mem_nil e)
  | cons e0 E ih =>
    intro s e he P hP
    rw [rebuildFold_cons]
    rcases List.mem_cons.mp he with rfl | het
    · rcases rebuildEntry_settled agents e s P hP with h | ⟨h1, h2⟩
      · left
        exact (rebuildFold_foldShape agents E _).mem_mono h
      · right
        refine ⟨?_, h2⟩
        rcases h1 with hemp | hnp
        · rw [if_neg (by rw [hemp]; exact fun hcon => Bool.noConfusion hcon)]
        · by_cases hbc : (!e.1.isEmpty) = true
          · rw [if_pos hbc]
            refine List.eq_nil_iff_forall_not_mem.mpr ?_
            intro q hq
            obtain ⟨r, hg, hid, htn⟩ :=
              (collectUnmatched_mem_iff (rebuildFold agents (rebuildEntry agents s e) E)
                e.1 q).mp hq
            have hback := (rebuildFold_foldShape agents E
              (rebuildEntry agents s e)).pending_stable hg hid
            exact hnp q r hback hid htn
          · rw [if_neg hbc]
    · exact ih (rebuildEntry agents s e0) e het P hP

theorem rebuildFold_idem (agents : List Agent) (E : List RebuildEntry)
    (s : List AgentPane) :
    rebuildFold agents (rebuildFold agents s E) E = rebuildFold agents s E := by
  obtain ⟨hsh, hq⟩ := rebuildFoldPass2 agents (rebuildFold agents s E) E
    (rebuildFold agents s E) rfl (rebuildFold_settled agents E s)
  apply List.ext_get?
  intro q
  rw [hq q]
  cases hlw : lastW (idsOf (rebuildFold agents s E)) q (entriesWrites E) with
  | none => rw [applyLastW_none]
  | some st =>
    obtain ⟨r, hg, hst⟩ := (rebuildFold_foldShape agents E s).last_write_status hlw
    rw [applyLastW_some, hg]
    show some (setStatusFn st r) = some r
    rw [setStatusFn_self hst]

/-!
## The session-snapshot handler
-/

theorem handle_session_update_eq1 (m : Model) (ss : List SessionInfo) :
    handle_session_update m ss = rebuild_from_session_infos (sessSync m ss) ss := rfl

theorem rebuild_eq (m : Model) (ss : List SessionInfo) :
    rebuild_from_session_infos m ss =
      clamp_selections
        { m with
          session_name := pinnedName m.session_name ss,
          agent_panes := rebuildFold m.agents m.agent_panes
            (flattenSessions m.session_name ss) } := by
  unfold rebuild_from_session_infos
  dsimp only
  rw [rebuildSessions_eq]

theorem set_session_name_self {n : Model} {v : Option String}
    (h : n.session_name = v) : { n with session_name := v } = n := by
  rw [← h]

theorem set_tab_names_self {n : Model} {v : List String}
    (h : n.tab_names = v) : { n with tab_names := v } = n := by
  rw [← h]

theorem clamp_update_sn_panes_eq_self (n : Model) (S : Option String)
    (P : List AgentPane) (hS : S = n.session_name) (hP : P = n.agent_panes)
    (hn : ∃ m', n = clamp_selections m') :
    clamp_selections { n with session_name := S, agent_panes := P } = n := by
  subst hS
  subst hP
  obtain ⟨m', rfl⟩ := hn
  show clamp_selections (clamp_selections m') = clamp_selections m'
  exact clamp_selections_idem m'

theorem sessSync_agents (m : Model) (ss : List SessionInfo) :
    (sessSync m ss).agents = m.agents := by
  unfold sessSync sessSync1
  dsimp only
  repeat' split
  all_goals rfl

theorem sessSync_session_name (m : Model) (ss : List SessionInfo) :
    (sessSync m ss).session_name = (sessSync1 m ss).session_name := by
  unfold sessSync
  dsimp only
  repeat' split
  all_goals rfl

theorem sessSync1_session_name_current {m : Model} {ss : List SessionInfo} {c : String}
    (h : (ss.find? (fun s => s.is_current_session)).map (·.name) = some c) :
    (sessSync1 m ss).session_name = some c := by
  unfold sessSync1
  rw [h]
  dsimp only
  repeat' split
  all_goals rfl

theorem sessSync1_session_name_nocurrent {m : Model} {ss : List SessionInfo}
    (h : (ss.find? (fun s => s.is_current_session)).map (·.name) = none) :
    (sessSync1 m ss).session_name = m.session_name := by
  unfold sessSync1
  rw [h]

theorem sessSync_tab_names_pinned {m : Model} {ss : List SessionInfo} {c : String}
    (hc : (sessSync1 m ss).session_name = some c) {sess : SessionInfo}
    (hf : ss.find? (fun s => s.name == c) = some sess) :
    (sessSync m ss).tab_names = rosterNames sess.tabs := by
  unfold sessSync
  dsimp only
  rw [hc]
  dsimp only
  rw [hf]

theorem sessSync_corner {m : Model} {ss : List SessionInfo}
    (h1 : (ss.find? (fun s => s.is_current_session)).map (·.name) = none)
    (h2 : m.session_name = none) : sessSync m ss = m := by
  have hm1 : sessSync1 m ss = m := by
    unfold sessSync1
    rw [h1]
  unfold sessSync
  dsimp only
  rw [hm1, h2]

theorem sessSync_fixed (n : Model) (ss : List SessionInfo) (c : String)
    (hsn : n.session_name = some c)
    (hcsn : ∀ c2, (ss.find? (fun s => s.is_current_session)).map (·.name) = some c2 →
      c2 = c)
    (htabs : ∀ sess, ss.find? (fun s => s.name == c) = some sess →
      n.tab_names = rosterNames sess.tabs) :
    sessSync n ss = n := by
  have hm1 : sessSync1 n ss = n := by
    unfold sessSync1
    cases hc2 : (ss.find? (fun s => s.is_current_session)).map (·.name) with
    | none => rfl
    | some c2 =>
      have he := hcsn c2 hc2
      rw [he]
      dsimp only
      rw [hsn]
      dsimp only
      rw [bne_self_eq_false]
      rw [if_neg Bool.false_ne_true]
      exact set_session_name_self hsn
  unfold sessSync
  dsimp only
  rw [hm1]
  cases hx : n.session_name with
  | none =>
    rw [hsn] at hx
  | some sn =>
    have h3 : c = sn := by
      rw [hsn] at hx
      injection hx with h4
    subst h3
    dsimp only
    cases hf : ss.find? (fun s => s.name == c) with
    | none => rfl
    | some sess =>
      dsimp only
      rw [← hx]
      exact set_tab_names_self (htabs sess hf)

theorem session_idem_core (m : Model) (ss : List SessionInfo) (c : String)
    (hc : (sessSync1 m ss).session_name = some c)
    (hcsn : ∀ c2, (ss.find? (fun s => s.is_current_session)).map (·.name) = some c2 →
      c2 = c) :
    handle_session_update (handle_session_update m ss) ss =
      handle_session_update m ss := by
  have hc2 : (sessSync m ss).session_name = some c := by
    rw [sessSync_session_name]
    exact hc
  have hneq : handle_session_update m ss =
      clamp_selections
        { sessSync m ss with
          session_name := some c,
          agent_panes := rebuildFold (sessSync m ss).agents
            (sessSync m ss).agent_panes (flattenSessions (some c) ss) } := by
    rw [handle_session_update_eq1, rebuild_eq, hc2, pinnedName_some]
  rw [hneq]
  generalize hN : clamp_selections
      { sessSync m ss with
        session_name := some c,
        agent_panes := rebuildFold (sessSync m ss).agents
          (sessSync m ss).agent_panes (flattenSessions (some c) ss) } = N
  have hNsn : N.session_name = some c := by
    rw [← hN]
    rfl
  have hNagents : N.agents = (sessSync m ss).agents := by
    rw [← hN]
    rfl
  have hNtabs : N.tab_names = (sessSync m ss).tab_names := by
    rw [← hN]
    rfl
  have hNpanes : N.agent_panes = rebuildFold (sessSync m ss).agents
      (sessSync m ss).agent_panes (flattenSessions (some c) ss) := by
    rw [← hN]
    rfl
  rw [handle_session_update_eq1, rebuild_eq]
  have hfix : sessSync N ss = N := by
    refine sessSync_fixed N ss c hNsn hcsn ?_
    intro sess hf
    rw [hNtabs]
    exact sessSync_tab_names_pinned hc hf
  rw [hfix, hNsn, pinnedName_some]
  have hkey : rebuildFold N.agents N.agent_panes (flattenSessions (some c) ss) =
      N.agent_panes := by
    rw [hNagents, hNpanes, rebuildFold_idem]
  rw [hkey]
  exact clamp_update_sn_panes_eq_self N (some c) N.agent_panes hNsn.symm rfl ⟨_, hN.symm⟩

theorem handle_session_update_idem (m : Model) (ss : List SessionInfo)
    (h : m.session_name.isSome = true ∨ ss.any (·.is_current_session) = true) :
    handle_session_update (handle_session_update m ss) ss =
      handle_session_update m ss := by
  cases hcsn : (ss.find? (fun s => s.is_current_session)).map (·.name) with
  | some c =>
    refine session_idem_core m ss c (sessSync1_session_name_current hcsn) ?_
    intro c2 h2
    rw [hcsn] at h2
    injection h2 with h2
    exact h2.symm
  | none =>
    have hb : ∃ b, m.session_name = some b := by
      rcases h with h1 | h1
      · cases hmb : m.session_name with
        | none =>
          rw [hmb] at h1
          exact Bool.noConfusion h1
        | some b => exact ⟨b, rfl⟩
      · exfalso
        have hfind : ss.find? (fun s => s.is_current_session) = none :=
          Option.map_eq_none'.mp hcsn
        obtain ⟨x, hx, hpx⟩ := List.any_eq_true.mp h1
        exact (List.find?_eq_none.mp hfind x hx) hpx
    obtain ⟨b, hmb⟩ := hb
    refine session_idem_core m ss b
      (by rw [sessSync1_session_name_nocurrent hcsn]; exact hmb) ?_
    intro c2 h2
    rw [hcsn] at h2
    exact Option.noConfusion h2

theorem handle_session_update_panes (m : Model) (ss : List SessionInfo) :
    (handle_session_update (handle_session_update m ss) ss).agent_panes =
      (handle_session_update m ss).agent_panes := by
  by_cases h : m.session_name.isSome = true ∨ ss.any (·.is_current_session) = true
  · rw [handle_session_update_idem m ss h]
  · push_neg at h
    obtain ⟨h1, h2⟩ := h
    have hmb : m.session_name = none := by
      cases hx : m.session_name
      · rfl
      · rw [hx] at h1
        exact absurd rfl h1
    have hcsn : (ss.find? (fun s => s.is_current_session)).map (·.name) = none := by
      rw [Option.map_eq_none']
      refine List.find?_eq_none.mpr ?_
      intro x hx hpx
      exact h2 (List.any_eq_true.mpr ⟨x, hx, hpx⟩)
    have hsyncm : sessSync m ss = m := sessSync_corner hcsn hmb
    cases ss with
    | nil =>
      have e1 : handle_session_update m [] = clamp_selections m := by
        rw [handle_session_update_eq1, rebuild_eq,
          (show sessSync m [] = m from sessSync_corner rfl hmb), hmb]
        rw [show pinnedName none ([] : List SessionInfo) = none from rfl]
        rw [show rebuildFold m.agents m.agent_panes
          (flattenSessions none ([] : List SessionInfo)) = m.agent_panes from rfl]
        have h3 : ({ m with session_name := none, agent_panes := m.agent_panes } :
            Model) = m := by
          rw [← hmb]
        rw [h3]
      rw [e1]
      have hc2 : (clamp_selections m).session_name = none := by
        rw [clamp_selections_session_name]
        exact hmb
      have e2 : handle_session_update (clamp_selections m) [] = clamp_selections m := by
        rw [handle_session_update_eq1, rebuild_eq,
          (show sessSync (clamp_selections m) [] = clamp_selections m from
            sessSync_corner rfl hc2), hc2]
        rw [show pinnedName none ([] : List SessionInfo) = none from rfl]
        rw [show rebuildFold (clamp_selections m).agents (clamp_selections m).agent_panes
          (flattenSessions none ([] : List SessionInfo)) =
          (clamp_selections m).agent_panes from rfl]
        have h3 : ({ clamp_selections m with
            session_name := none,
            agent_panes := (clamp_selections m).agent_panes } : Model) =
            clamp_selections m := by
          rw [← hc2]
        rw [h3]
        exact clamp_selections_idem m
      rw [e2]
    | cons s1 rest =>
      have e1 : handle_session_update m (s1 :: rest) =
          clamp_selections
            { m with
              session_name := some s1.name,
              agent_panes := rebuildFold m.agents m.agent_panes
                (flattenSessions none (s1 :: rest)) } := by
        rw [handle_session_update_eq1, rebuild_eq, hsyncm, hmb, pinnedName_none_cons]
      rw [e1]
      generalize hN : clamp_selections
          { m with
            session_name := some s1.name,
            agent_panes := rebuildFold m.agents m.agent_panes
              (flattenSessions none (s1 :: rest)) } = N
      have hNsn : N.session_name = some s1.name := by
        rw [← hN]
        rfl
      have hNagents : N.agents = m.agents := by
        rw [← hN]
        rfl
      have hNpanes : N.agent_panes = rebuildFold m.agents m.agent_panes
          (flattenSessions none (s1 :: rest)) := by
        rw [← hN]
        rfl
      rw [handle_session_update_eq1, rebuild_eq]
      have hcsn2 : ((s1 :: rest).find? (fun s => s.is_current_session)).map (·.name)
          = none := hcsn
      have hs1 : sessSync1 N (s1 :: rest) = N := by
        unfold sessSync1
        rw [hcsn2]
      have hsyncN_sn : (sessSync N (s1 :: rest)).session_name = some s1.name := by
        rw [sessSync_session_name, hs1]
        exact hNsn
      have hsyncN_agents : (sessSync N (s1 :: rest)).agents = N.agents := by
        unfold sessSync
        dsimp only
        rw [hs1]
        repeat' split
        all_goals rfl
      have hsyncN_panes : (sessSync N (s1 :: rest)).agent_panes = N.agent_panes := by
        unfold sessSync
        dsimp only
        rw [hs1]
        repeat' split
        all_goals rfl
      rw [clamp_selections_agent_panes]
      show rebuildFold (sessSync N (s1 :: rest)).agents
        (sessSync N (s1 :: rest)).agent_panes
        (flattenSessions (sessSync N (s1 :: rest)).session_name (s1 :: rest)) =
        N.agent_panes
      rw [hsyncN_agents, hNagents, hsyncN_panes, hNpanes, hsyncN_sn,
        ← flattenSessions_none_cons]
      exact rebuildFold_idem m.agents (flattenSessions none (s1 :: rest)) m.agent_panes

/-- C7 (amended): every event handler is idempotent on the pane table — a
second application of the same handler with the same payload leaves the
pane records unchanged — and replay reproduces the entire model state
whenever the event is not a session snapshot, or is a session snapshot
while a session name is already pinned or the snapshot marks a current
session (outside that corner the tab roster can change on replay). -/
theorem c7_handler_idempotence (m : Model) (e : Event) :
    (applyEvent (applyEvent m e) e).agent_panes = (applyEvent m e).agent_panes ∧
      (sessionReplaySafe m e → applyEvent (applyEvent m e) e = applyEvent m e) := by
  cases e with
  | tabUpdate tabs =>
    have h1 : applyEvent (applyEvent m (Event.tabUpdate tabs)) (Event.tabUpdate tabs) =
        applyEvent m (Event.tabUpdate tabs) := apply_tab_update_idem m tabs
    exact ⟨congrArg Model.agent_panes h1, fun _ => h1⟩
  | paneUpdate u =>
    have h1 : applyEvent (applyEvent m (Event.paneUpdate u)) (Event.paneUpdate u) =
        applyEvent m (Event.paneUpdate u) := apply_pane_update_idem m u
    exact ⟨congrArg Model.agent_panes h1, fun _ => h1⟩
  | paneOpened pid ctx =>
    have h1 : applyEvent (applyEvent m (Event.paneOpened pid ctx))
        (Event.paneOpened pid ctx) = applyEvent m (Event.paneOpened pid ctx) :=
      handle_command_pane_opened_idem m pid ctx
    exact ⟨congrArg Model.agent_panes h1, fun _ => h1⟩
  | paneExited pid es ctx =>
    have h1 : applyEvent (applyEvent m (Event.paneExited pid es ctx))
        (Event.paneExited pid es ctx) = applyEvent m (Event.paneExited pid es ctx) :=
      handle_command_pane_exited_idem m pid es ctx
    exact ⟨congrArg Model.agent_panes h1, fun _ => h1⟩
  | paneRerun pid ctx =>
    have h1 : applyEvent (applyEvent m (Event.paneRerun pid ctx))
        (Event.paneRerun pid ctx) = applyEvent m (Event.paneRerun pid ctx) :=
      handle_command_pane_rerun_idem m pid ctx
    exact ⟨congrArg Model.agent_panes h1, fun _ => h1⟩
  | paneClosed pid =>
    have h1 : applyEvent (applyEvent m (Event.paneClosed pid)) (Event.paneClosed pid) =
        applyEvent m (Event.paneClosed pid) := handle_pane_closed_idem m pid
    exact ⟨congrArg Model.agent_panes h1, fun _ => h1⟩
  | sessionUpdate ss =>
    exact ⟨handle_session_update_panes m ss, fun h => handle_session_update_idem m ss h⟩

theorem c7_handler_idempotence_witness :
    (applyEvent (applyEvent ({} : Model) (Event.sessionUpdate wSessionsCurrent))
        (Event.sessionUpdate wSessionsCurrent)).agent_panes =
      (applyEvent ({} : Model) (Event.sessionUpdate wSessionsCurrent)).agent_panes ∧
    applyEvent (applyEvent ({} : Model) (Event.sessionUpdate wSessionsCurrent))
        (Event.sessionUpdate wSessionsCurrent) =
      applyEvent ({} : Model) (Event.sessionUpdate wSessionsCurrent) :=
  ⟨(c7_handler_idempotence {} (Event.sessionUpdate wSessionsCurrent)).1,
   (c7_handler_idempotence {} (Event.sessionUpdate wSessionsCurrent)).2 (by decide)⟩

theorem idsOf_get?_inv {s : List AgentPane} {q : Nat} {x : Option Nat}
    (h : (idsOf s).get? q = some x) : ∃ r, s.get? q = some r ∧ r.pane_id = x := by
  unfold idsOf at h
  rw [List.get?_map] at h
  cases hg : s.get? q with
  | none =>
    rw [hg] at h
    exact Option.noConfusion h
  | some r =>
    rw [hg] at h
    injection h with h
    exact ⟨r, rfl, h⟩

theorem set_get_self_ids {I : List (Option Nat)} {q : Nat} {x : Option Nat}
    (h : I.get? q = some x) : I.set q x = I := by
  induction I generalizing q with
  | nil => rfl
  | cons a t ih =>
    cases q with
    | zero =>
      injection h with h
      rw [List.set, h]
    | succ n =>
      rw [List.set, ih h]

theorem firstIdx_append_ne {j k : Nat} {I : List (Option Nat)} (hjk : j ≠ k) :
    firstIdx j (I ++ [some k]) = firstIdx j I := by
  cases hf : firstIdx j I with
  | some u => exact firstIdx_append_of_some hf
  | none =>
    rw [firstIdx_eq_none_iff]
    intro hm
    rcases List.mem_append.mp hm with h1 | h1
    · exact (firstIdx_eq_none_iff.mp hf) h1
    · have h2 := List.mem_singleton.mp h1
      injection h2 with h2
      exact hjk h2

theorem firstIdx_append_self {j : Nat} {I : List (Option Nat)}
    (h : firstIdx j I = none) : firstIdx j (I ++ [some j]) = some I.length := by
  refine firstIdx_eq_some_iff.mpr ⟨?_, ?_⟩
  · exact List.get?_concat_length I (some j)
  · intro p hp
    rw [List.get?_append hp]
    intro hc
    exact (firstIdx_eq_none_iff.mp h) (List.get?_mem hc)

theorem lastStatus_cons (j : Nat) (e : Nat × PaneInfo) (v : List (Nat × PaneInfo)) :
    lastStatus j (e :: v) =
      match lastStatus j v with
      | some st => some st
      | none => if e.2.id == j then some (paneStatusOf e.2) else none := rfl

theorem lastStatus_cons_ne {j : Nat} {e : Nat × PaneInfo} (v : List (Nat × PaneInfo))
    (h : (e.2.id == j) = false) : lastStatus j (e :: v) = lastStatus j v := by
  rw [lastStatus_cons]
  cases lastStatus j v with
  | some st => rfl
  | none =>
    dsimp only
    rw [h]
    rfl

theorem lastStatus_cons_eq {j : Nat} {e : Nat × PaneInfo} (v : List (Nat × PaneInfo))
    (h : (e.2.id == j) = true) {st : PaneStatus} :
    lastStatus j (e :: v) = some st ↔ st = (lastStatus j v).getD (paneStatusOf e.2) := by
  rw [lastStatus_cons]
  cases lastStatus j v with
  | some st2 =>
    dsimp only
    constructor
    · intro h2
      injection h2 with h2
      exact h2.symm
    · intro h2
      exact congrArg some h2.symm
  | none =>
    dsimp only
    rw [if_pos h]
    constructor
    · intro h2
      injection h2 with h2
      exact h2.symm
    · intro h2
      exact congrArg some h2.symm

theorem lastStatus_cons_getD {j : Nat} {e : Nat × PaneInfo} (v : List (Nat × PaneInfo))
    (h : (e.2.id == j) = true) (d : PaneStatus) :
    (lastStatus j (e :: v)).getD d = (lastStatus j v).getD (paneStatusOf e.2) := by
  rw [lastStatus_cons]
  cases lastStatus j v with
  | some st2 => rfl
  | none =>
    dsimp only
    rw [if_pos h]
    rfl

theorem anyCreates_cons (agents : List Agent) (j : Nat) (e : Nat × PaneInfo)
    (v : List (Nat × PaneInfo)) :
    anyCreates agents j (e :: v) =
      ((e.2.id == j && canCreate agents e.2) || anyCreates agents j v) := rfl

theorem anyCreates_lastStatus {agents : List Agent} {j : Nat}
    {v : List (Nat × PaneInfo)} (h : anyCreates agents j v = true) :
    ∃ st, lastStatus j v = some st := by
  induction v with
  | nil => exact Bool.noConfusion h
  | cons e v ih =>
    rw [anyCreates_cons] at h
    rw [lastStatus_cons]
    cases hl : lastStatus j v with
    | some st2 => exact ⟨st2, rfl⟩
    | none =>
      dsimp only
      rw [Bool.or_eq_true] at h
      rcases h with h1 | h1
      · have h2 : (e.2.id == j) = true := by
          rw [Bool.and_eq_true] at h1
          exact h1.1
        rw [if_pos h2]
        exact ⟨paneStatusOf e.2, rfl⟩
      · obtain ⟨st, hst⟩ := ih h1
        rw [hl] at hst
        exact Option.noConfusion hst

theorem paneStatusOf_running {p : PaneInfo} (h : p.exited = false) :
    paneStatusOf p = PaneStatus.Running := by
  unfold paneStatusOf statusOf
  rw [h]
  rfl

theorem lastStatus_of_run {i : Nat} {v : List (Nat × PaneInfo)}
    (h : ∀ e ∈ v, e.2.id = i → e.2.exited = false) :
    lastStatus i v = none ∨ lastStatus i v = some PaneStatus.Running := by
  induction v with
  | nil => exact Or.inl rfl
  | cons e v ih =>
    have ih2 := ih (fun e2 he2 => h e2 (List.mem_cons_of_mem e he2))
    rw [lastStatus_cons]
    cases hl : lastStatus i v with
    | some st =>
      rcases ih2 with h2 | h2
      · rw [hl] at h2
        exact Option.noConfusion h2
      · rw [hl] at h2
        injection h2 with h2
        right
        rw [h2]
    | none =>
      dsimp only
      by_cases he : (e.2.id == i) = true
      · right
        rw [if_pos he]
        have hex : e.2.exited = false := h e (List.mem_cons_self e v) (beq_iff_eq.mp he)
        rw [paneStatusOf_running hex]
      · left
        rw [if_neg he]

theorem mkNew_none_canCreate {agents : List Agent} {ns : List String} {ti : Nat}
    {pane : PaneInfo} (h : mkNew agents ns ti pane = none) :
    canCreate agents pane = false := by
  unfold mkNew at h
  unfold canCreate
  by_cases hp : (!pane.is_plugin) = true
  · rw [if_pos hp] at h
    rw [hp]
    cases hf : find_agent_by_command agents (pane.terminal_command.getD pane.title) with
    | none => rfl
    | some agent =>
      rw [hf] at h
      exact Option.noConfusion h
  · have hp2 : (!pane.is_plugin) = false := by
      cases hb : (!pane.is_plugin)
      · rfl
      · exact absurd hb hp
    rw [hp2]
    rfl

theorem mkNew_some_canCreate {agents : List Agent} {ns : List String} {ti : Nat}
    {pane : PaneInfo} {r : AgentPane} (h : mkNew agents ns ti pane = some r) :
    canCreate agents pane = true := by
  unfold mkNew at h
  unfold canCreate
  by_cases hp : (!pane.is_plugin) = true
  · rw [if_pos hp] at h
    rw [hp]
    cases hf : find_agent_by_command agents (pane.terminal_command.getD pane.title) with
    | none =>
      rw [hf] at h
      exact Option.noConfusion h
    | some agent => rfl
  · rw [if_neg hp] at h
    exact Option.noConfusion h

theorem hasIdStatus_iff_firstIdx {s : List AgentPane} {j : Nat} {st : PaneStatus}
    (hnd : (idsOf s).Nodup) :
    hasIdStatus s j st ↔
      ∃ q r, firstIdx j (idsOf s) = some q ∧ s.get? q = some r ∧ r.status = st := by
  constructor
  · rintro ⟨r, hmem, hid, hst⟩
    obtain ⟨p, hp⟩ := List.mem_iff_get?.mp hmem
    have hip : (idsOf s).get? p = some (some j) := by
      unfold idsOf
      rw [List.get?_map, hp]
      show some r.pane_id = some (some j)
      rw [hid]
    obtain ⟨q, hq⟩ := firstIdx_isSome_of_mem (List.get?_mem hip)
    have hqg := firstIdx_get hq
    have hplen : p < (idsOf s).length := (List.get?_eq_some.mp hip).1
    have hpq : p = q := List.get?_inj hplen hnd (by rw [hip, hqg])
    subst hpq
    exact ⟨p, r, hq, hp, hst⟩
  · rintro ⟨q, r, hq, hg, hst⟩
    have hqg := firstIdx_get hq
    have hid : r.pane_id = some j := by
      unfold idsOf at hqg
      rw [List.get?_map, hg] at hqg
      injection hqg with hqg
    exact ⟨r, List.get?_mem hg, hid, hst⟩

theorem nodup_paneStep {agents : List Agent} {ns : List String} {s : List AgentPane}
    {ti : Nat} {p : PaneInfo} (hnd : (idsOf s).Nodup) :
    (idsOf (paneStep agents ns s ti p)).Nodup := by
  rw [paneStep_char]
  cases hf : firstIdx p.id (idsOf s) with
  | some q =>
    show (idsOf (setStatusAt (paneStatusOf p) q s)).Nodup
    rw [idsOf_setStatusAt]
    exact hnd
  | none =>
    cases hn : mkNew agents ns ti p with
    | some r =>
      show (idsOf (s ++ [r])).Nodup
      rw [idsOf_append]
      refine List.Nodup.append hnd (List.nodup_singleton _) ?_
      intro x hx hx2
      have hid := (mkNew_some hn).1
      have h2 : x = r.pane_id := List.mem_singleton.mp hx2
      rw [h2, hid] at hx
      exact (firstIdx_eq_none_iff.mp hf) hx
    | none => exact hnd

theorem foldSpec_step (agents : List Agent) (ns : List String) (e : Nat × PaneInfo)
    (v : List (Nat × PaneInfo)) (s : List AgentPane) (j : Nat) (st : PaneStatus) :
    foldSpec agents (paneStep agents ns s e.1 e.2) v j st ↔
      foldSpec agents s (e :: v) j st := by
  rw [paneStep_char]
  cases hf : firstIdx e.2.id (idsOf s) with
  | some q =>
    show foldSpec agents (setStatusAt (paneStatusOf e.2) q s) v j st ↔
      foldSpec agents s (e :: v) j st
    obtain ⟨r, hgr, hidr⟩ := idsOf_get?_inv (firstIdx_get hf)
    have hsq : (setStatusAt (paneStatusOf e.2) q s).get? q =
        some (setStatusFn (paneStatusOf e.2) r) := by
      rw [setStatusAt_get?_self, hgr]
      rfl
    have hids : idsOf (setStatusAt (paneStatusOf e.2) q s) = idsOf s :=
      idsOf_setStatusAt _ _ _
    by_cases hj : j = e.2.id
    · subst hj
      constructor
      · rintro (⟨q2, r2, hq2, hg2, hst2⟩ | ⟨hn2, ha2, hl2⟩)
        · rw [hids, hf] at hq2
          injection hq2 with hq2
          subst hq2
          rw [hsq] at hg2
          injection hg2 with hg2
          subst hg2
          refine Or.inl ⟨q, r, hf, hgr, ?_⟩
          rw [lastStatus_cons_getD v (beq_self_eq_true e.2.id) r.status]
          exact hst2
        · rw [hids, hf] at hn2
          exact Option.noConfusion hn2
      · rintro (⟨q2, r2, hq2, hg2, hst2⟩ | ⟨hn2, ha2, hl2⟩)
        · rw [hf] at hq2
          injection hq2 with hq2
          subst hq2
          rw [hgr] at hg2
          injection hg2 with hg2
          subst hg2
          refine Or.inl ⟨q, setStatusFn (paneStatusOf e.2) r, by rw [hids]; exact hf,
            hsq, ?_⟩
          rw [lastStatus_cons_getD v (beq_self_eq_true e.2.id) r.status] at hst2
          exact hst2
        · rw [hf] at hn2
          exact Option.noConfusion hn2
    · have hbne : (e.2.id == j) = false := by
        cases hb : (e.2.id == j)
        · rfl
        · exact absurd (beq_iff_eq.mp hb).symm hj
      have hls : lastStatus j (e :: v) = lastStatus j v := lastStatus_cons_ne v hbne
      have hac : anyCreates agents j (e :: v) = anyCreates agents j v := by
        rw [anyCreates_cons, hbne, Bool.false_and, Bool.false_or]
      have hqq : ∀ q2, firstIdx j (idsOf s) = some q2 →
          (setStatusAt (paneStatusOf e.2) q s).get? q2 = s.get? q2 := by
        intro q2 hq2
        have h1 := firstIdx_get hq2
        have h2 := firstIdx_get hf
        refine setStatusAt_get?_ne ?_
        intro hc
        rw [hc, h2] at h1
        injection h1 with h1
        injection h1 with h1
        exact hj h1.symm
      constructor
      · rintro (⟨q2, r2, hq2, hg2, hst2⟩ | ⟨hn2, ha2, hl2⟩)
        · rw [hids] at hq2
          rw [hqq q2 hq2] at hg2
          refine Or.inl ⟨q2, r2, hq2, hg2, ?_⟩
          rw [hls]
          exact hst2
        · rw [hids] at hn2
          refine Or.inr ⟨hn2, ?_, ?_⟩
          · rw [hac]
            exact ha2
          · rw [hls]
            exact hl2
      · rintro (⟨q2, r2, hq2, hg2, hst2⟩ | ⟨hn2, ha2, hl2⟩)
        · refine Or.inl ⟨q2, r2, by rw [hids]; exact hq2, ?_, ?_⟩
          · rw [hqq q2 hq2]
            exact hg2
          · rw [← hls]
            exact hst2
        · refine Or.inr ⟨by rw [hids]; exact hn2, ?_, ?_⟩
          · rw [← hac]
            exact ha2
          · rw [← hls]
            exact hl2
  | none =>
    cases hn : mkNew agents ns e.1 e.2 with
    | some r =>
      show foldSpec agents (s ++ [r]) v j st ↔ foldSpec agents s (e :: v) j st
      obtain ⟨hid, hstr⟩ := mkNew_some hn
      have hcc : canCreate agents e.2 = true := mkNew_some_canCreate hn
      have hids : idsOf (s ++ [r]) = idsOf s ++ [some e.2.id] := by
        rw [idsOf_append, show idsOf [r] = [r.pane_id] from rfl, hid]
      by_cases hj : j = e.2.id
      · subst hj
        have hfi2 : firstIdx e.2.id (idsOf (s ++ [r])) = some s.length := by
          rw [hids, firstIdx_append_self hf, idsOf_length]
        have hg2 : (s ++ [r]).get? s.length = some r := List.get?_concat_length s r
        constructor
        · rintro (⟨q2, r2, hq2, hg2b, hst2⟩ | ⟨hn2, ha2, hl2⟩)
          · rw [hfi2] at hq2
            injection hq2 with hq2
            subst hq2
            rw [hg2] at hg2b
            injection hg2b with hg2b
            subst hg2b
            refine Or.inr ⟨hf, ?_, ?_⟩
            · rw [anyCreates_cons, beq_self_eq_true, hcc]
              rfl
            · refine (lastStatus_cons_eq v (beq_self_eq_true e.2.id)).mpr ?_
              rw [← hstr]
              exact hst2
          · rw [hfi2] at hn2
            exact Option.noConfusion hn2
        · rintro (⟨q2, r2, hq2, hg2b, hst2⟩ | ⟨hn2, ha2, hl2⟩)
          · rw [hf] at hq2
            exact Option.noConfusion hq2
          · have hst2 := (lastStatus_cons_eq v (beq_self_eq_true e.2.id)).mp hl2
            refine Or.inl ⟨s.length, r, hfi2, hg2, ?_⟩
            rw [hstr]
            exact hst2
      · have hbne : (e.2.id == j) = false := by
          cases hb : (e.2.id == j)
          · rfl
          · exact absurd (beq_iff_eq.mp hb).symm hj
        have hls : lastStatus j (e :: v) = lastStatus j v := lastStatus_cons_ne v hbne
        have hac : anyCreates agents j (e :: v) = anyCreates agents j v := by
          rw [anyCreates_cons, hbne, Bool.false_and, Bool.false_or]
        have hfi2 : firstIdx j (idsOf (s ++ [r])) = firstIdx j (idsOf s) := by
          rw [hids]
          exact firstIdx_append_ne hj
        have hqq : ∀ q2, firstIdx j (idsOf s) = some q2 →
            (s ++ [r]).get? q2 = s.get? q2 := by
          intro q2 hq2
          have hlt : q2 < s.length := by
            have := firstIdx_lt hq2
            rwa [idsOf_length] at this
          exact List.get?_append hlt
        constructor
        · rintro (⟨q2, r2, hq2, hg2, hst2⟩ | ⟨hn2, ha2, hl2⟩)
          · rw [hfi2] at hq2
            rw [hqq q2 hq2] at hg2
            refine Or.inl ⟨q2, r2, hq2, hg2, ?_⟩
            rw [hls]
            exact hst2
          · rw [hfi2] at hn2
            refine Or.inr ⟨hn2, ?_, ?_⟩
            · rw [hac]
              exact ha2
            · rw [hls]
              exact hl2
        · rintro (⟨q2, r2, hq2, hg2, hst2⟩ | ⟨hn2, ha2, hl2⟩)
          · refine Or.inl ⟨q2, r2, by rw [hfi2]; exact hq2, ?_, ?_⟩
            · rw [hqq q2 hq2]
              exact hg2
            · rw [← hls]
              exact hst2
          · refine Or.inr ⟨by rw [hfi2]; exact hn2, ?_, ?_⟩
            · rw [← hac]
              exact ha2
            · rw [← hls]
              exact hl2
    | none =>
      show foldSpec agents s v j st ↔ foldSpec agents s (e :: v) j st
      have hcc : canCreate agents e.2 = false := mkNew_none_canCreate hn
      by_cases hj : j = e.2.id
      · subst hj
        constructor
        · rintro (⟨q2, r2, hq2, hg2, hst2⟩ | ⟨hn2, ha2, hl2⟩)
          · rw [hf] at hq2
            exact Option.noConfusion hq2
          · refine Or.inr ⟨hn2, ?_, ?_⟩
            · rw [anyCreates_cons, hcc, Bool.and_false, Bool.false_or]
              exact ha2
            · rw [lastStatus_cons, hl2]
        · rintro (⟨q2, r2, hq2, hg2, hst2⟩ | ⟨hn2, ha2, hl2⟩)
          · rw [hf] at hq2
            exact Option.noConfusion hq2
          · have ha3 : anyCreates agents e.2.id v = true := by
              rw [anyCreates_cons, hcc, Bool.and_false, Bool.false_or] at ha2
              exact ha2
            obtain ⟨st0, hst0⟩ := anyCreates_lastStatus ha3
            rw [lastStatus_cons, hst0] at hl2
            injection hl2 with hl2
            refine Or.inr ⟨hn2, ha3, ?_⟩
            rw [hst0, hl2]
      · have hbne : (e.2.id == j) = false := by
          cases hb : (e.2.id == j)
          · rfl
          · exact absurd (beq_iff_eq.mp hb).symm hj
        have hls : lastStatus j (e :: v) = lastStatus j v := lastStatus_cons_ne v hbne
        have hac : anyCreates agents j (e :: v) = anyCreates agents j v := by
          rw [anyCreates_cons, hbne, Bool.false_and, Bool.false_or]
        constructor
        · rintro (⟨q2, r2, hq2, hg2, hst2⟩ | ⟨hn2, ha2, hl2⟩)
          · refine Or.inl ⟨q2, r2, hq2, hg2, ?_⟩
            rw [hls]
            exact hst2
          · refine Or.inr ⟨hn2, ?_, ?_⟩
            · rw [hac]
              exact ha2
            · rw [hls]
              exact hl2
        · rintro (⟨q2, r2, hq2, hg2, hst2⟩ | ⟨hn2, ha2, hl2⟩)
          · refine Or.inl ⟨q2, r2, hq2, hg2, ?_⟩
            rw [← hls]
            exact hst2
          · refine Or.inr ⟨hn2, ?_, ?_⟩
            · rw [← hac]
              exact ha2
            · rw [← hls]
              exact hl2

theorem paneFold_hasIdStatus (agents : List Agent) (ns : List String)
    (v : List (Nat × PaneInfo)) :
    ∀ (s : List AgentPane), (idsOf s).Nodup → ∀ (j : Nat) (st : PaneStatus),
      hasIdStatus (paneFold agents ns s v) j st ↔ foldSpec agents s v j st := by
  induction v with
  | nil =>
    intro s hnd j st
    rw [show paneFold agents ns s [] = s from rfl]
    rw [hasIdStatus_iff_firstIdx hnd]
    constructor
    · rintro ⟨q, r, hq, hg, hst⟩
      exact Or.inl ⟨q, r, hq, hg, hst.symm⟩
    · rintro (⟨q, r, hq, hg, hst⟩ | ⟨hn2, ha, hl⟩)
      · exact ⟨q, r, hq, hg, hst.symm⟩
      · exact Bool.noConfusion ha
  | cons e v ih =>
    intro s hnd j st
    rw [paneFold_cons]
    rw [ih (paneStep agents ns s e.1 e.2) (nodup_paneStep hnd) j st]
    exact foldSpec_step agents ns e v s j st

theorem openedPanes_eq_set {i : Nat} (T w a : String) (ct ft : Option String)
    {s : List AgentPane} {q : Nat} {r : AgentPane}
    (hall : ∀ x ∈ idsOf s, x.isSome = true)
    (hf : firstIdx i (idsOf s) = some q) (hgr : s.get? q = some r) :
    openedPanes i T w a ct ft s = s.set q (openedUpdate i T w a ct ft r) := by
  have hidr : r.pane_id = some i := by
    obtain ⟨r2, hg2, hid2⟩ := idsOf_get?_inv (firstIdx_get hf)
    rw [hgr] at hg2
    injection hg2 with hg2
    rw [← hg2] at hid2
    exact hid2
  have hu : updateFirst (openedPred i T) (openedUpdate i T w a ct ft) s =
      some (s.set q (openedUpdate i T w a ct ft r)) := by
    refine updateFirst_eq_set hgr (openedPred_of_id hidr) ?_
    intro p hp x hx
    cases hb : openedPred i T x with
    | false => rfl
    | true =>
      exfalso
      have hxsome : x.pane_id.isSome = true :=
        hall x.pane_id (List.mem_map_of_mem _ (List.get?_mem hx))
      have hxid : x.pane_id = some i := openedPred_id_of_isSome hxsome hb
      have hip : (idsOf s).get? p = some (some i) := by
        unfold idsOf
        rw [List.get?_map, hx]
        show some x.pane_id = some (some i)
        rw [hxid]
      exact ((firstIdx_eq_some_iff.mp hf).2 p hp) hip
  rw [openedPanes, hu]

theorem openedPanes_eq_append {i : Nat} (T w a : String) (ct ft : Option String)
    {s : List AgentPane}
    (hall : ∀ x ∈ idsOf s, x.isSome = true)
    (hf : firstIdx i (idsOf s) = none) :
    openedPanes i T w a ct ft s = s ++ [openedNewRec i T w a ct ft] := by
  have hu : updateFirst (openedPred i T) (openedUpdate i T w a ct ft) s = none := by
    rw [updateFirst_none_iff]
    intro x hx
    cases hb : openedPred i T x with
    | false => rfl
    | true =>
      exfalso
      have hxsome : x.pane_id.isSome = true :=
        hall x.pane_id (List.mem_map_of_mem _ hx)
      have hxid : x.pane_id = some i := openedPred_id_of_isSome hxsome hb
      refine (firstIdx_eq_none_iff.mp hf) ?_
      rw [← hxid]
      exact List.mem_map_of_mem _ hx
  rw [openedPanes, hu]

theorem openedPanes_hasIdStatus (i : Nat) (T w a : String) (ct ft : Option String)
    (s : List AgentPane) (hall : ∀ x ∈ idsOf s, x.isSome = true)
    (hnd : (idsOf s).Nodup) (j : Nat) (st : PaneStatus) :
    hasIdStatus (openedPanes i T w a ct ft s) j st ↔
      ((j = i ∧ st = PaneStatus.Running) ∨ (j ≠ i ∧ hasIdStatus s j st)) := by
  cases hf : firstIdx i (idsOf s) with
  | some q =>
    obtain ⟨r, hgr, hidr⟩ := idsOf_get?_inv (firstIdx_get hf)
    rw [openedPanes_eq_set T w a ct ft hall hf hgr]
    have hids : idsOf (s.set q (openedUpdate i T w a ct ft r)) = idsOf s := by
      rw [idsOf_set, openedUpdate_pane_id]
      exact set_get_self_ids (firstIdx_get hf)
    have hnd2 : (idsOf (s.set q (openedUpdate i T w a ct ft r))).Nodup := by
      rw [hids]
      exact hnd
    have hql : q < s.length := by
      have := firstIdx_lt hf
      rwa [idsOf_length] at this
    have hgq : (s.set q (openedUpdate i T w a ct ft r)).get? q =
        some (openedUpdate i T w a ct ft r) := by
      rw [List.get?_eq_getElem?, List.getElem?_set_self (by simpa using hql)]
    rw [hasIdStatus_iff_firstIdx hnd2, hasIdStatus_iff_firstIdx hnd]
    constructor
    · rintro ⟨q2, r2, hq2, hg2, hst2⟩
      rw [hids] at hq2
      by_cases hj : j = i
      · left
        refine ⟨hj, ?_⟩
        rw [hj, hf] at hq2
        injection hq2 with hq2
        subst hq2
        rw [hgq] at hg2
        injection hg2 with hg2
        subst hg2
        rw [openedUpdate_status] at hst2
        exact hst2.symm
      · right
        refine ⟨hj, ?_⟩
        have hq2q : q2 ≠ q := by
          intro hc
          have h1 := firstIdx_get hq2
          rw [hc, firstIdx_get hf] at h1
          injection h1 with h1
          injection h1 with h1
          exact hj h1.symm
        rw [List.get?_eq_getElem?,
          List.getElem?_set_ne (fun hc => hq2q hc.symm),
          ← List.get?_eq_getElem?] at hg2
        exact ⟨q2, r2, hq2, hg2, hst2⟩
    · rintro (⟨hj, hst⟩ | ⟨hj, ⟨q2, r2, hq2, hg2, hst2⟩⟩)
      · refine ⟨q, openedUpdate i T w a ct ft r, ?_, hgq, ?_⟩
        · rw [hids, hj]
          exact hf
        · rw [openedUpdate_status, hst]
      · have hq2q : q2 ≠ q := by
          intro hc
          have h1 := firstIdx_get hq2
          rw [hc, firstIdx_get hf] at h1
          injection h1 with h1
          injection h1 with h1
          exact hj h1.symm
        refine ⟨q2, r2, by rw [hids]; exact hq2, ?_, hst2⟩
        rw [List.get?_eq_getElem?,
          List.getElem?_set_ne (fun hc => hq2q hc.symm),
          ← List.get?_eq_getElem?]
        exact hg2
  | none =>
    rw [openedPanes_eq_append T w a ct ft hall hf]
    constructor
    · rintro ⟨x, hmem, hid, hst⟩
      rcases List.mem_append.mp hmem with hx | hx
      · right
        have hji : j ≠ i := by
          intro hc
          refine (firstIdx_eq_none_iff.mp hf) ?_
          rw [← hc, ← hid]
          exact List.mem_map_of_mem _ hx
        exact ⟨hji, x, hx, hid, hst⟩
      · have hxn : x = openedNewRec i T w a ct ft := List.mem_singleton.mp hx
        subst hxn
        left
        have hji : j = i := by
          have h2 : (openedNewRec i T w a ct ft).pane_id = some i := rfl
          rw [h2] at hid
          injection hid with hid
          exact hid.symm
        refine ⟨hji, ?_⟩
        rw [← hst]
        rfl
    · rintro (⟨hj, hst⟩ | ⟨hj, ⟨x, hx, hid, hst2⟩⟩)
      · refine ⟨openedNewRec i T w a ct ft,
          List.mem_append_right _ (List.mem_singleton_self _), ?_, ?_⟩
        · show some i = some j
          rw [hj]
        · show PaneStatus.Running = st
          rw [hst]
      · exact ⟨x, List.mem_append_left _ hx, hid, hst2⟩

theorem foldSpec_opened (agents : List Agent) (i : Nat) (T w a : String)
    (ct ft : Option String) (s : List AgentPane) (v : List (Nat × PaneInfo))
    (hall : ∀ x ∈ idsOf s, x.isSome = true) (hnd : (idsOf s).Nodup)
    (hrun : lastStatus i v = none ∨ lastStatus i v = some PaneStatus.Running)
    (j : Nat) (st : PaneStatus) :
    foldSpec agents (openedPanes i T w a ct ft s) v j st ↔
      ((j = i ∧ st = PaneStatus.Running) ∨ (j ≠ i ∧ foldSpec agents s v j st)) := by
  have hgetD : (lastStatus i v).getD PaneStatus.Running = PaneStatus.Running := by
    rcases hrun with h1 | h1 <;> rw [h1] <;> rfl
  cases hf : firstIdx i (idsOf s) with
  | some q =>
    obtain ⟨r, hgr, hidr⟩ := idsOf_get?_inv (firstIdx_get hf)
    rw [openedPanes_eq_set T w a ct ft hall hf hgr]
    have hids : idsOf (s.set q (openedUpdate i T w a ct ft r)) = idsOf s := by
      rw [idsOf_set, openedUpdate_pane_id]
      exact set_get_self_ids (firstIdx_get hf)
    have hql : q < s.length := by
      have := firstIdx_lt hf
      rwa [idsOf_length] at this
    have hgq : (s.set q (openedUpdate i T w a ct ft r)).get? q =
        some (openedUpdate i T w a ct ft r) := by
      rw [List.get?_eq_getElem?, List.getElem?_set_self (by simpa using hql)]
    constructor
    · rintro (⟨q2, r2, hq2, hg2, hst2⟩ | ⟨hn2, ha2, hl2⟩)
      · rw [hids] at hq2
        by_cases hj : j = i
        · rw [hj, hf] at hq2
          injection hq2 with hq2
          subst hq2
          rw [hgq] at hg2
          injection hg2 with hg2
          subst hg2
          left
          refine ⟨hj, ?_⟩
          rw [openedUpdate_status, hj, hgetD] at hst2
          exact hst2
        · right
          refine ⟨hj, Or.inl ⟨q2, r2, hq2, ?_, hst2⟩⟩
          have hq2q : q2 ≠ q := by
            intro hc
            have h1 := firstIdx_get hq2
            rw [hc, firstIdx_get hf] at h1
            injection h1 with h1
            injection h1 with h1
            exact hj h1.symm
          rw [List.get?_eq_getElem?,
            List.getElem?_set_ne (fun hc => hq2q hc.symm),
            ← List.get?_eq_getElem?] at hg2
          exact hg2
      · rw [hids] at hn2
        by_cases hj : j = i
        · rw [hj, hf] at hn2
          exact Option.noConfusion hn2
        · exact Or.inr ⟨hj, Or.inr ⟨hn2, ha2, hl2⟩⟩
    · rintro (⟨hj, hst⟩ | ⟨hj, (⟨q2, r2, hq2, hg2, hst2⟩ | ⟨hn2, ha2, hl2⟩)⟩)
      · refine Or.inl ⟨q, openedUpdate i T w a ct ft r, ?_, hgq, ?_⟩
        · rw [hids, hj]
          exact hf
        · rw [openedUpdate_status, hj, hgetD]
          exact hst
      · refine Or.inl ⟨q2, r2, ?_, ?_, hst2⟩
        · rw [hids]
          exact hq2
        · have hq2q : q2 ≠ q := by
            intro hc
            have h1 := firstIdx_get hq2
            rw [hc, firstIdx_get hf] at h1
            injection h1 with h1
            injection h1 with h1
            exact hj h1.symm
          rw [List.get?_eq_getElem?,
            List.getElem?_set_ne (fun hc => hq2q hc.symm),
            ← List.get?_eq_getElem?]
          exact hg2
      · refine Or.inr ⟨?_, ha2, hl2⟩
        rw [hids]
        exact hn2
  | none =>
    rw [openedPanes_eq_append T w a ct ft hall hf]
    have hids : idsOf (s ++ [openedNewRec i T w a ct ft]) = idsOf s ++ [some i] := by
      rw [idsOf_append]
      rfl
    have hfi2 : firstIdx i (idsOf (s ++ [openedNewRec i T w a ct ft])) =
        some s.length := by
      rw [hids, firstIdx_append_self hf, idsOf_length]
    have hgl : (s ++ [openedNewRec i T w a ct ft]).get? s.length =
        some (openedNewRec i T w a ct ft) := List.get?_concat_length _ _
    constructor
    · rintro (⟨q2, r2, hq2, hg2, hst2⟩ | ⟨hn2, ha2, hl2⟩)
      · by_cases hj : j = i
        · rw [hj, hfi2] at hq2
          injection hq2 with hq2
          subst hq2
          rw [hgl] at hg2
          injection hg2 with hg2
          subst hg2
          left
          refine ⟨hj, ?_⟩
          rw [show (openedNewRec i T w a ct ft).status = PaneStatus.Running from rfl,
            hj, hgetD] at hst2
          exact hst2
        · right
          refine ⟨hj, Or.inl ⟨q2, r2, ?_, ?_, hst2⟩⟩
          · rw [hids, firstIdx_append_ne hj] at hq2
            exact hq2
          · rw [hids, firstIdx_append_ne hj] at hq2
            have hlt : q2 < s.length := by
              have := firstIdx_lt hq2
              rwa [idsOf_length] at this
            rw [List.get?_append hlt] at hg2
            exact hg2
      · by_cases hj : j = i
        · rw [hj, hfi2] at hn2
          exact Option.noConfusion hn2
        · rw [hids, firstIdx_append_ne hj] at hn2
          exact Or.inr ⟨hj, Or.inr ⟨hn2, ha2, hl2⟩⟩
    · rintro (⟨hj, hst⟩ | ⟨hj, (⟨q2, r2, hq2, hg2, hst2⟩ | ⟨hn2, ha2, hl2⟩)⟩)
      · refine Or.inl ⟨s.length, openedNewRec i T w a ct ft, ?_, hgl, ?_⟩
        · rw [hj]
          exact hfi2
        · rw [show (openedNewRec i T w a ct ft).status = PaneStatus.Running from rfl,
            hj, hgetD]
          exact hst
      · refine Or.inl ⟨q2, r2, ?_, ?_, hst2⟩
        · rw [hids, firstIdx_append_ne hj]
          exact hq2
        · have hlt : q2 < s.length := by
            have := firstIdx_lt hq2
            rwa [idsOf_length] at this
          rw [List.get?_append hlt]
          exact hg2
      · refine Or.inr ⟨?_, ha2, hl2⟩
        rw [hids, firstIdx_append_ne hj]
        exact hn2

theorem c2_core (m0 : Model) (i : Nat) (ctx : Ctx) (u : PaneManifest)
    (hinv : storeInv m0.agent_panes)
    (hexit : ∀ e ∈ flattenManifest u, e.2.id = i → e.2.exited = false)
    (j : Nat) (st : PaneStatus) :
    hasIdStatus (applyEvents m0
        [Event.paneOpened i ctx, Event.paneUpdate u]).agent_panes j st ↔
      hasIdStatus (applyEvents m0
        [Event.paneUpdate u, Event.paneOpened i ctx]).agent_panes j st := by
  obtain ⟨hall, hnd⟩ := hinv
  have hrun := lastStatus_of_run hexit
  have hinvA : storeInv (handle_command_pane_opened m0 i ctx).agent_panes :=
    storeInv_opened m0 i ctx ⟨hall, hnd⟩
  have hinvB : storeInv (apply_pane_update m0 u).agent_panes :=
    storeInv_apply_pane_update m0 u ⟨hall, hnd⟩
  have hA : (applyEvents m0 [Event.paneOpened i ctx, Event.paneUpdate u]).agent_panes =
      paneFold m0.agents m0.tab_names
        (handle_command_pane_opened m0 i ctx).agent_panes (flattenManifest u) := by
    show (apply_pane_update (handle_command_pane_opened m0 i ctx) u).agent_panes = _
    rw [apply_pane_update_flatten, clamp_selections_agent_panes]
    rfl
  rw [hA]
  rw [paneFold_hasIdStatus m0.agents m0.tab_names (flattenManifest u)
    (handle_command_pane_opened m0 i ctx).agent_panes hinvA.2 j st]
  have hopa : (handle_command_pane_opened m0 i ctx).agent_panes =
      openedPanes i ((ctxGet ctx "pane_title").getD ("pane:" ++ toString i))
        ((ctxGet ctx "cwd").getD "") ((ctxGet ctx "agent").getD "")
        (ctxGet ctx "tab_name") m0.tab_names.head? m0.agent_panes := rfl
  rw [hopa]
  rw [foldSpec_opened m0.agents i _ _ _ _ _ m0.agent_panes (flattenManifest u)
    hall hnd hrun j st]
  have hB : (applyEvents m0 [Event.paneUpdate u, Event.paneOpened i ctx]).agent_panes =
      openedPanes i ((ctxGet ctx "pane_title").getD ("pane:" ++ toString i))
        ((ctxGet ctx "cwd").getD "") ((ctxGet ctx "agent").getD "")
        (ctxGet ctx "tab_name") m0.tab_names.head?
        (apply_pane_update m0 u).agent_panes := rfl
  rw [hB]
  rw [openedPanes_hasIdStatus i _ _ _ _ _ (apply_pane_update m0 u).agent_panes
    hinvB.1 hinvB.2 j st]
  have hBp : (apply_pane_update m0 u).agent_panes =
      paneFold m0.agents m0.tab_names m0.agent_panes (flattenManifest u) := by
    rw [apply_pane_update_flatten, clamp_selections_agent_panes]
  rw [hBp]
  rw [paneFold_hasIdStatus m0.agents m0.tab_names (flattenManifest u)
    m0.agent_panes hnd j st]

/-- C2 (amended): an adjacent spawn-confirmation / pane-manifest pair
referencing the same pane can be applied in either order with the same
resulting pane table viewed as pane ids paired with statuses, provided the
manifest does not report that pane as exited: after any event prefix from
the empty store, every (id, status) pair held after
confirmation-then-manifest is held after manifest-then-confirmation, and
conversely. -/
theorem c2_swap_adjacent (es : List Event) (i : Nat) (ctx : Ctx) (u : PaneManifest)
    (hexit : ∀ e ∈ flattenManifest u, e.2.id = i → e.2.exited = false)
    (j : Nat) (st : PaneStatus) :
    hasIdStatus (applyEvents ({} : Model)
        (es ++ [Event.paneOpened i ctx, Event.paneUpdate u])).agent_panes j st ↔
      hasIdStatus (applyEvents ({} : Model)
        (es ++ [Event.paneUpdate u, Event.paneOpened i ctx])).agent_panes j st := by
  have happ1 : applyEvents ({} : Model)
      (es ++ [Event.paneOpened i ctx, Event.paneUpdate u]) =
      applyEvents (applyEvents {} es)
        [Event.paneOpened i ctx, Event.paneUpdate u] := by
    unfold applyEvents
    rw [List.foldl_append]
  have happ2 : applyEvents ({} : Model)
      (es ++ [Event.paneUpdate u, Event.paneOpened i ctx]) =
      applyEvents (applyEvents {} es)
        [Event.paneUpdate u, Event.paneOpened i ctx] := by
    unfold applyEvents
    rw [List.foldl_append]
  rw [happ1, happ2]
  exact c2_core (applyEvents {} es) i ctx u
    (storeInv_applyEvents es {} storeInv_nil) hexit j st

theorem c2_swap_adjacent_witness :
    (∀ e ∈ flattenManifest [(0, [wPane5Run])], e.2.id = 5 → e.2.exited = false) ∧
    (hasIdStatus (applyEvents ({} : Model)
        ([] ++ [Event.paneOpened 5 wCtx5,
          Event.paneUpdate [(0, [wPane5Run])]])).agent_panes 5 PaneStatus.Running ↔
      hasIdStatus (applyEvents ({} : Model)
        ([] ++ [Event.paneUpdate [(0, [wPane5Run])],
          Event.paneOpened 5 wCtx5])).agent_panes 5 PaneStatus.Running) :=
  ⟨by decide,
   c2_swap_adjacent [] 5 wCtx5 [(0, [wPane5Run])] (by decide) 5 PaneStatus.Running⟩

end Maestro
